import Mathlib

/-!
# Full-space Biros–Ghattas step: KKT operator, preconditioner, penalty, step and update

Shallow embedding of `src/optimization/full_space_step.hpp`.

Conventions of the embedding.

* `Real` (the C++ `double`) is modelled by exact rational arithmetic `ℚ`.
  Rounding, infinities and NaN are outside the model; in particular a division
  by a zero denominator follows the convention `x / 0 = 0` of `ℚ`, which is not
  what IEEE arithmetic does, so statements that depend on a quotient are
  examined at non-zero denominators.
* A `ROL::Vector<Real>` of dimension `n` is a function `Fin n → ℚ`; a
  `ROL::Vector_SimOpt<Real>` is the pair of its two blocks (`get_1`, `get_2`).
* The in-place ROL operations `y.plus(x)`, `y.scale(a)`, `y.axpy(a,x)`,
  `y.set(x)` take the old value of `y` as first argument and return the new one.
* Routines writing into an output reference return the written value; objects
  with mutable members are passed and returned explicitly.
* `ROL::Objective`, `ROL::Constraint` / `Constraint_SimOpt`, `ROL::Secant`,
  `ROL::LineSearch`, the merit function and the Krylov solver are collaborators
  the step only calls; they are records of functions.
-/

namespace FullSpace

/-! ## Vectors -/

/-- A `ROL::Vector<Real>` of dimension `n`. -/
abbrev Vec (n : ℕ) := Fin n → ℚ

/-- A `ROL::Vector_SimOpt<Real>`: simulation block (`get_1`) and control block (`get_2`). -/
abbrev Vector_SimOpt (n m : ℕ) := Vec n × Vec m

/-- The combined primal-dual vector of the KKT system: a `Vector_SimOpt` whose first
block is the design (itself a `Vector_SimOpt`) and whose second block is the multiplier. -/
abbrev KKTVector (n m : ℕ) := Vector_SimOpt n m × Vec n

/-- Inner product of ROL vectors (`ROL::Vector::dot`). -/
class HasDot (V : Type) where
  dot : V → V → ℚ

instance instHasDotVec (n : ℕ) : HasDot (Vec n) where
  dot x y := ∑ i, x i * y i

/-- The inner product of `Vector_SimOpt` is the sum of the inner products of the blocks. -/
instance instHasDotProd (V W : Type) [HasDot V] [HasDot W] : HasDot (V × W) where
  dot x y := HasDot.dot x.1 y.1 + HasDot.dot x.2 y.2

/-- The call `self.dot(x)`. -/
def dot {V : Type} [HasDot V] (self x : V) : ℚ := HasDot.dot self x

/-- The call `self.plus(x)`: `self ← self + x`. -/
def plus {V : Type} [Add V] (self x : V) : V := self + x

/-- The call `self.scale(a)`: `self ← a * self`. -/
def scale {V : Type} [SMul ℚ V] (self : V) (a : ℚ) : V := a • self

/-- The call `self.axpy(a, x)`: `self ← self + a * x`. -/
def axpy {V : Type} [Add V] [SMul ℚ V] (self : V) (a : ℚ) (x : V) : V := self + a • x

/-- The call `self.set(x)`: `self ← x`. -/
def set {V : Type} (_self x : V) : V := x

/-! ## Tolerances -/

/-- The value of `ROL_EPSILON<double>()`, the machine epsilon `2^-52`. -/
def ROL_EPSILON : ℚ := 1 / 2 ^ 52

/-- The value of `std::sqrt(ROL_EPSILON<Real>())`, which is exactly `2^-26`. -/
def sqrt_ROL_EPSILON : ℚ := 1 / 2 ^ 26

/-- The tolerance `1e-15` used inside both `vmult` routines. -/
def vmult_tol : ℚ := 1 / 10 ^ 15

/-! ## Collaborators -/

/-- The part of `ROL::Objective<Real>` the step calls. The last argument is `tol`. -/
structure Objective (n m : ℕ) where
  value : Vector_SimOpt n m → ℚ → ℚ
  gradient : Vector_SimOpt n m → ℚ → Vector_SimOpt n m
  hessVec : Vector_SimOpt n m → Vector_SimOpt n m → ℚ → Vector_SimOpt n m

/-- The part of `ROL::Constraint<Real>` and `ROL::Constraint_SimOpt<Real>` the step calls.
Arguments are in the order of the C++ calls without the output: the vector acted on, then the
point of linearization, then `tol`. -/
structure Constraint (n m : ℕ) where
  value : Vector_SimOpt n m → ℚ → Vec n
  applyJacobian : Vector_SimOpt n m → Vector_SimOpt n m → ℚ → Vec n
  applyAdjointJacobian : Vec n → Vector_SimOpt n m → ℚ → Vector_SimOpt n m
  applyAdjointHessian : Vec n → Vector_SimOpt n m → Vector_SimOpt n m → ℚ → Vector_SimOpt n m
  applyJacobian_2 : Vec m → Vec n → Vec m → ℚ → Vec n
  applyAdjointJacobian_2 : Vec n → Vec n → Vec m → ℚ → Vec m
  applyInverseJacobian_1 : Vec n → Vec n → Vec m → ℚ → Vec n
  applyInverseAdjointJacobian_1 : Vec n → Vec n → Vec m → ℚ → Vec n

/-- A `ROL::Secant<Real>` with memory of type `σ`: `applyH` reads the memory,
`updateStorage(x, grad, gp, s, snorm, iter)` replaces it. -/
structure Secant (σ : Type) (n m : ℕ) where
  applyH : σ → Vec m → Vec m
  updateStorage : σ → Vector_SimOpt n m → Vec m → Vec m → Vec m → ℚ → ℤ → σ

/-! ## KKT operator -/

/-- The class `KKT_Operator`: its members. `temp_design_variables_size_vector_` is the
scratch vector behind a `Ptr`, written by the `const` method `vmult`. -/
structure KKT_Operator (n m : ℕ) where
  objective_ : Objective n m
  equal_constraints_ : Constraint n m
  design_variables_ : Vector_SimOpt n m
  lagrange_mult_ : Vec n
  temp_design_variables_size_vector_ : Vector_SimOpt n m

/-- What a call of `KKT_Operator::vmult` leaves behind: the operator (with its scratch
vector), the function-local `static int number_of_times`, and `dst`. -/
structure KKT_Operator.VmultResult (n m : ℕ) where
  self : KKT_Operator n m
  number_of_times : ℤ
  dst : KKTVector n m

/-- The method `KKT_Operator::vmult(dst, src)`. -/
def KKT_Operator.vmult {n m : ℕ} (self : KKT_Operator n m) (number_of_times : ℤ)
    (dst src : KKTVector n m) : KKT_Operator.VmultResult n m :=
  let number_of_times := number_of_times + 1
  let tol := vmult_tol
  let one : ℚ := 1
  let dst_design := dst.1
  let dst_constraints := dst.2
  let src_design := src.1
  let src_constraints := src.2
  -- Top left block times top vector
  let dst_design := set dst_design (self.objective_.hessVec src_design self.design_variables_ tol)
  let temp := set self.temp_design_variables_size_vector_
    (self.equal_constraints_.applyAdjointHessian self.lagrange_mult_ src_design
      self.design_variables_ tol)
  let dst_design := axpy dst_design one temp
  -- Top right block times bottom vector
  let temp := set temp
    (self.equal_constraints_.applyAdjointJacobian src_constraints self.design_variables_ tol)
  let dst_design := axpy dst_design one temp
  -- Bottom left block times top vector
  let dst_constraints := set dst_constraints
    (self.equal_constraints_.applyJacobian src_design self.design_variables_ tol)
  -- Bottom right block times bottom vector: 0 block in KKT
  { self := { self with temp_design_variables_size_vector_ := temp }
    number_of_times := number_of_times
    dst := (dst_design, dst_constraints) }

/-- The action `H·v` of the Hessian of the Lagrangian at the operator's design and multiplier:
`objective.hessVec(v) + constraint.applyAdjointHessian(λ, v)`. -/
def KKT_Operator.H {n m : ℕ} (self : KKT_Operator n m) (v : Vector_SimOpt n m) :
    Vector_SimOpt n m :=
  self.objective_.hessVec v self.design_variables_ vmult_tol
    + self.equal_constraints_.applyAdjointHessian self.lagrange_mult_ v
        self.design_variables_ vmult_tol

/-- The action `J·v` of the constraint Jacobian at the operator's design. -/
def KKT_Operator.J {n m : ℕ} (self : KKT_Operator n m) (v : Vector_SimOpt n m) : Vec n :=
  self.equal_constraints_.applyJacobian v self.design_variables_ vmult_tol

/-- The action `Jᵗ·u` of the adjoint of the constraint Jacobian at the operator's design. -/
def KKT_Operator.Jt {n m : ℕ} (self : KKT_Operator n m) (u : Vec n) : Vector_SimOpt n m :=
  self.equal_constraints_.applyAdjointJacobian u self.design_variables_ vmult_tol

/-- The function both linear-operator classes hand to the Krylov solver: `vmult` on a
fresh destination, keeping only `dst`. -/
def KKT_Operator.apply {n m : ℕ} (self : KKT_Operator n m) (src : KKTVector n m) :
    KKTVector n m :=
  (self.vmult 0 0 src).dst

/-- The dot product on the combined space, as `dealiiSolverVectorWrappingROL::operator*`
computes it: `rol_vector_ptr->dot(v)`. -/
def wrapped_dot {n m : ℕ} (self v : KKTVector n m) : ℚ := dot self v

/-! ## Block preconditioner P2 -/

/-- The class `KKT_P2_Preconditioner`: its members; `secant_memory` is the storage of the
secant object `secant_` points to. -/
structure KKT_P2_Preconditioner (σ : Type) (n m : ℕ) where
  objective_ : Objective n m
  equal_constraints_ : Constraint n m
  design_variables_ : Vector_SimOpt n m
  lagrange_mult_ : Vec n
  simulation_variables_ : Vec n
  control_variables_ : Vec m
  secant_ : Secant σ n m
  secant_memory : σ
  temp_design_variables_size_vector_ : Vector_SimOpt n m

/-- The constructor of `KKT_P2_Preconditioner`; `temp` is the content of the fresh clone. -/
def KKT_P2_Preconditioner.new {σ : Type} {n m : ℕ} (objective : Objective n m)
    (equal_constraints : Constraint n m) (design_variables : Vector_SimOpt n m)
    (lagrange_mult : Vec n) (secant : Secant σ n m) (secant_memory : σ)
    (temp : Vector_SimOpt n m) : KKT_P2_Preconditioner σ n m :=
  { objective_ := objective
    equal_constraints_ := equal_constraints
    design_variables_ := design_variables
    lagrange_mult_ := lagrange_mult
    simulation_variables_ := design_variables.1
    control_variables_ := design_variables.2
    secant_ := secant
    secant_memory := secant_memory
    temp_design_variables_size_vector_ := temp }

/-- The locals of `KKT_P2_Preconditioner::vmult` at its end, with the counter and `dst`. -/
structure KKT_P2_Preconditioner.VmultResult (n m : ℕ) where
  number_of_times : ℤ
  temp_1 : Vec n
  temp_2 : Vec m
  temp_3 : Vec n
  AsTinv_temp_3 : Vec n
  dst_1_rhs : Vec n
  dst : KKTVector n m

/-- The method `KKT_P2_Preconditioner::vmult(dst, src)`. A clone that is written before it
is read appears with the written value only. -/
def KKT_P2_Preconditioner.vmult {σ : Type} {n m : ℕ} (self : KKT_P2_Preconditioner σ n m)
    (number_of_times : ℤ) (dst src : KKTVector n m) : KKT_P2_Preconditioner.VmultResult n m :=
  let number_of_times := number_of_times + 1
  let tol := vmult_tol
  let dst_1 := dst.1.1
  let dst_2 := dst.1.2
  let dst_3 := dst.2
  let src_1 := src.1.1
  let src_2 := src.1.2
  let src_3 := src.2
  let temp_1 := set dst_1 src_3
  let temp_3 := set dst_3 src_1
  let AsTinv_temp_3 := self.equal_constraints_.applyInverseAdjointJacobian_1 temp_3
    self.simulation_variables_ self.control_variables_ tol
  let temp_2 := set dst_2 (self.equal_constraints_.applyAdjointJacobian_2 AsTinv_temp_3
    self.simulation_variables_ self.control_variables_ tol)
  let temp_2 := scale temp_2 (-1)
  let temp_2 := plus temp_2 src_2
  let dst_3 := set dst_3 AsTinv_temp_3
  -- Need to apply Hessian inverse on dst_2
  let dst_2 := set dst_2 (self.secant_.applyH self.secant_memory temp_2)
  let dst_1_rhs := self.equal_constraints_.applyJacobian_2 dst_2
    self.simulation_variables_ self.control_variables_ tol
  let dst_1_rhs := scale dst_1_rhs (-1)
  let dst_1 := set dst_1 (self.equal_constraints_.applyInverseJacobian_1 dst_1_rhs
    self.simulation_variables_ self.control_variables_ tol)
  { number_of_times := number_of_times
    temp_1 := temp_1
    temp_2 := temp_2
    temp_3 := temp_3
    AsTinv_temp_3 := AsTinv_temp_3
    dst_1_rhs := dst_1_rhs
    dst := ((dst_1, dst_2), dst_3) }

/-- The method `KKT_P2_Preconditioner::Tvmult(dst, src)`, which calls `vmult(dst, src)`. -/
def KKT_P2_Preconditioner.Tvmult {σ : Type} {n m : ℕ} (self : KKT_P2_Preconditioner σ n m)
    (number_of_times : ℤ) (dst src : KKTVector n m) : KKT_P2_Preconditioner.VmultResult n m :=
  self.vmult number_of_times dst src

/-- The preconditioner as the Krylov solver sees it. -/
def KKT_P2_Preconditioner.apply {σ : Type} {n m : ℕ} (self : KKT_P2_Preconditioner σ n m)
    (src : KKTVector n m) : KKTVector n m :=
  (self.vmult 0 0 src).dst

/-! ## Lagrangian gradient and penalty -/

/-- The references `computeLagrangianGradient` receives, together with the number of
`applyAdjointJacobian` calls made on `equal_constraints` so far. -/
structure LagrangianGradientFrame (n m : ℕ) where
  lagrangian_gradient : Vector_SimOpt n m
  design_variables : Vector_SimOpt n m
  lagrange_mult : Vec n
  objective_gradient : Vector_SimOpt n m
  applyAdjointJacobian_calls : ℕ

/-- The method `computeLagrangianGradient`, acting on the objects its references denote
(all distinct, as at every call site, where the output is a fresh clone). -/
def computeLagrangianGradient {n m : ℕ} (equal_constraints : Constraint n m)
    (f : LagrangianGradientFrame n m) : LagrangianGradientFrame n m :=
  /- Apply adjoint of constraint Jacobian to current multiplier. -/
  let tol := sqrt_ROL_EPSILON
  let f := { f with
    lagrangian_gradient := set f.lagrangian_gradient
      (equal_constraints.applyAdjointJacobian f.lagrange_mult f.design_variables tol)
    applyAdjointJacobian_calls := f.applyAdjointJacobian_calls + 1 }
  { f with lagrangian_gradient := plus f.lagrangian_gradient f.objective_gradient }

/-- The numerator of the penalty quotient as the code accumulates it:
`g·Δdesign + (Jᵗλ)·Δdesign + c·Δλ`. -/
def penalty_numerator {n m : ℕ} (search_direction : Vector_SimOpt n m)
    (lagrange_mult_search_direction : Vec n) (objective_gradient : Vector_SimOpt n m)
    (equal_constraints_values : Vec n) (adjoint_jacobian_lagrange : Vector_SimOpt n m) : ℚ :=
  let penalty := dot objective_gradient search_direction
  let penalty := penalty + dot adjoint_jacobian_lagrange search_direction
  let penalty := penalty + dot equal_constraints_values lagrange_mult_search_direction
  penalty

/-- The local `denom` of `computeAugmentedLagrangianPenalty`: `(J·Δdesign)·c`. -/
def penalty_denom {n m : ℕ} (search_direction design_variables : Vector_SimOpt n m)
    (equal_constraints_values : Vec n) (equal_constraints : Constraint n m) : ℚ :=
  let tol := sqrt_ROL_EPSILON
  let jacobian_search_direction :=
    equal_constraints.applyJacobian search_direction design_variables tol
  dot jacobian_search_direction equal_constraints_values

/-- The method `computeAugmentedLagrangianPenalty`, on finite numbers. The quotient is exact
where `denom` is not zero; at `denom = 0` the C++ division gives an infinity or NaN, which `ℚ`
has not (there `x / 0 = 0`), so the definition is used at non-zero denominators or where the
result is the same on both sides. -/
def computeAugmentedLagrangianPenalty {n m : ℕ} (search_direction : Vector_SimOpt n m)
    (lagrange_mult_search_direction : Vec n) (design_variables : Vector_SimOpt n m)
    (objective_gradient : Vector_SimOpt n m) (equal_constraints_values : Vec n)
    (adjoint_jacobian_lagrange : Vector_SimOpt n m) (equal_constraints : Constraint n m)
    (offset : ℚ) : ℚ :=
  let penalty := penalty_numerator search_direction lagrange_mult_search_direction
    objective_gradient equal_constraints_values adjoint_jacobian_lagrange
  let denom := penalty_denom search_direction design_variables equal_constraints_values
    equal_constraints
  let penalty := penalty / denom
  -- Note that the offset is not on the fraction as in the paper.
  if penalty > 0 then penalty + offset else 1

/-! ## The step object and its collaborators -/

/-- The fields of `ROL::StepState<Real>` the step touches. -/
structure StepState (n m : ℕ) where
  descentVec : Vector_SimOpt n m
  gradientVec : Vector_SimOpt n m
  constraintVec : Vec n
  searchSize : ℚ
  nfval : ℤ
  ngrad : ℤ
  SPiter : ℤ

/-- The fields of `ROL::AlgorithmState<Real>` the step touches. -/
structure AlgorithmState (n m : ℕ) where
  iter : ℤ
  nfval : ℤ
  ncval : ℤ
  ngrad : ℤ
  value : ℚ
  gnorm : ℚ
  cnorm : ℚ
  snorm : ℚ
  iterateVec : Vector_SimOpt n m
  lagmultVec : Vec n

/-- A `ROL::BoundConstraint<Real>`: the activation flag, the projection onto the feasible
set and the feasibility test. -/
structure BoundConstraint (n m : ℕ) where
  activated : Bool
  project : Vector_SimOpt n m → Vector_SimOpt n m
  isFeasible : Vector_SimOpt n m → Bool

/-- The call `bound_constraints.isActivated()`. -/
def BoundConstraint.isActivated {n m : ℕ} (self : BoundConstraint n m) : Bool := self.activated

/-- The call `bound_constraints.deactivate()`. -/
def BoundConstraint.deactivate {n m : ℕ} (self : BoundConstraint n m) : BoundConstraint n m :=
  { self with activated := false }

/-- A default-constructed `BoundConstraint<Real>`: activated, no bounds, nothing to project. -/
def BoundConstraint.new (n m : ℕ) : BoundConstraint n m where
  activated := true
  project x := x
  isFeasible _ := true

/-- The state of the `ROL::AugmentedLagrangian<Real>` merit function that `reset` sets. -/
structure AugmentedLagrangian (n : ℕ) where
  multiplier : Vec n
  penaltyParameter : ℚ

/-- The call `augLag.reset(multiplier, penaltyParameter)`. -/
def AugmentedLagrangian.reset {n : ℕ} (_self : AugmentedLagrangian n) (multiplier : Vec n)
    (penaltyParameter : ℚ) : AugmentedLagrangian n :=
  { multiplier := multiplier, penaltyParameter := penaltyParameter }

/-- What `LineSearch::run` writes through its four in-out references. -/
structure LineSearchResult where
  alpha : ℚ
  fval : ℚ
  ls_neval : ℤ
  ls_ngrad : ℤ

/-- A `ROL::LineSearch<Real>`. `run` receives the data of the preceding `setData(gnorm, g)`
and then the arguments of the C++ `run(alpha, fval, ls_neval, ls_ngrad, gs, s, x, obj, con)`. -/
structure LineSearch (n m : ℕ) where
  run : ℚ → Vector_SimOpt n m → ℚ → ℚ → ℤ → ℤ → ℚ → Vector_SimOpt n m → Vector_SimOpt n m →
    AugmentedLagrangian n → BoundConstraint n m → LineSearchResult

/-- Library routines: vector norms (`ROL::Vector::norm`, a square root), the contents of fresh
clones (`ROL::Vector::clone`, unspecified by ROL), the flexible GMRES solver of deal.II
(arguments: matrix, solution on entry, right-hand side, preconditioner; result: solution on
exit and the number of iterations), and the gradient and value of the merit function. -/
structure Library (n m : ℕ) where
  norm_design : Vector_SimOpt n m → ℚ
  norm_mult : Vec n → ℚ
  clone_design : Vector_SimOpt n m → Vector_SimOpt n m
  clone_mult : Vec n → Vec n
  solver_fgmres : (KKTVector n m → KKTVector n m) → KKTVector n m → KKTVector n m →
    (KKTVector n m → KKTVector n m) → KKTVector n m × ℕ
  merit_gradient : Objective n m → Constraint n m → AugmentedLagrangian n →
    Vector_SimOpt n m → ℚ → Vector_SimOpt n m
  merit_value : Objective n m → Constraint n m → AugmentedLagrangian n →
    Vector_SimOpt n m → ℚ → ℚ

/-- The data members of `FullSpace_BirosGhattas` used by `solve_KKT_system`, `compute` and
`update`, with the `StepState` that `Step<Real>::getState()` returns. -/
structure FullSpace_BirosGhattas (σ : Type) (n m : ℕ) where
  xvec_ : Vector_SimOpt n m
  gvec_ : Vector_SimOpt n m
  lvec_ : Vec n
  cvec_ : Vec n
  merit_function_ : AugmentedLagrangian n
  lagrange_mult_search_direction_ : Vec n
  previous_reduced_gradient_ : Vec m
  secant_ : Secant σ n m
  secant_memory : σ
  lineSearch_ : LineSearch n m
  penalty_value_ : ℚ
  fval_ : ℚ
  state_ : StepState n m

/-! ## Solving the KKT system -/

/-- The method `solve_linear(matrix_A, right_hand_side, solution, preconditioner)`: the solution
the FGMRES solve leaves in `solution`, and the returned pair, the literal `{-1.0, -1.0}`. -/
def solve_linear {n m : ℕ} (lib : Library n m) (matrix_A : KKTVector n m → KKTVector n m)
    (right_hand_side solution : KKTVector n m)
    (preconditioner : KKTVector n m → KKTVector n m) : KKTVector n m × (ℚ × ℚ) :=
  let solution := (lib.solver_fgmres matrix_A solution right_hand_side preconditioner).1
  (solution, (-1, -1))

/-- The locals of `solve_KKT_system` at the call of `solve_linear`. `lhs` and `rhs` are the
vectors the two `dealiiSolverVectorWrappingROL` wrappers point to. -/
structure SolveKKTLocals (n m : ℕ) where
  objective_gradient : Vector_SimOpt n m
  adjoint_jacobian_lagrange : Vector_SimOpt n m
  rhs1 : Vector_SimOpt n m
  rhs2 : Vec n
  lhs1 : Vector_SimOpt n m
  lhs2 : Vec n
  lhs_rol : KKTVector n m
  rhs_rol : KKTVector n m
  lhs : KKTVector n m
  rhs : KKTVector n m

/-- The body of `solve_KKT_system` up to the call of `solve_linear`. -/
def solve_KKT_system_locals {σ : Type} {n m : ℕ} (lib : Library n m)
    (self : FullSpace_BirosGhattas σ n m) (design_variables : Vector_SimOpt n m)
    (lagrange_mult : Vec n) (objective : Objective n m) (equal_constraints : Constraint n m) :
    SolveKKTLocals n m :=
  let tol := sqrt_ROL_EPSILON
  let one : ℚ := 1
  /- Form gradient of the Lagrangian. -/
  let objective_gradient := set (lib.clone_design self.gvec_)
    (objective.gradient design_variables tol)
  let adjoint_jacobian_lagrange := set (lib.clone_design self.gvec_)
    (equal_constraints.applyAdjointJacobian lagrange_mult design_variables tol)
  /- Form right-hand side of the augmented system. -/
  let rhs1 := lib.clone_design self.gvec_
  let rhs2 := lib.clone_mult self.cvec_
  -- rhs1 is the negative gradient of the Lagrangian
  let rhs1 := (computeLagrangianGradient equal_constraints
    { lagrangian_gradient := rhs1
      design_variables := design_variables
      lagrange_mult := lagrange_mult
      objective_gradient := objective_gradient
      applyAdjointJacobian_calls := 0 }).lagrangian_gradient
  let rhs1 := scale rhs1 (-one)
  -- rhs2 is the constraint value
  let rhs2 := set rhs2 (equal_constraints.value design_variables tol)
  let rhs2 := scale rhs2 (-one)
  /- Declare left-hand side of augmented system. -/
  let lhs1 := lib.clone_design self.xvec_
  let lhs2 := lib.clone_mult self.lvec_
  let lhs_rol : KKTVector n m := (lhs1, lhs2)
  let rhs_rol : KKTVector n m := (rhs1, rhs2)
  -- dealiiSolverVectorWrappingROL<double> lhs(makePtrFromRef(lhs_rol));
  let lhs := lhs_rol
  -- dealiiSolverVectorWrappingROL<double> rhs(makePtrFromRef(lhs_rol));
  let rhs := lhs_rol
  { objective_gradient := objective_gradient
    adjoint_jacobian_lagrange := adjoint_jacobian_lagrange
    rhs1 := rhs1
    rhs2 := rhs2
    lhs1 := lhs1
    lhs2 := lhs2
    lhs_rol := lhs_rol
    rhs_rol := rhs_rol
    lhs := lhs
    rhs := rhs }

/-- What `solve_KKT_system` writes and returns. -/
structure SolveKKTResult (n m : ℕ) where
  search_direction : Vector_SimOpt n m
  lag_search_direction : Vec n
  test : List ℚ

/-- The method `solve_KKT_system`. Both wrappers handed to `solve_linear` point to `lhs_rol`,
whose blocks are `lhs1` and `lhs2`. -/
def solve_KKT_system {σ : Type} {n m : ℕ} (lib : Library n m)
    (self : FullSpace_BirosGhattas σ n m) (search_direction : Vector_SimOpt n m)
    (lag_search_direction : Vec n) (design_variables : Vector_SimOpt n m)
    (lagrange_mult : Vec n) (objective : Objective n m) (equal_constraints : Constraint n m) :
    SolveKKTResult n m :=
  let l := solve_KKT_system_locals lib self design_variables lagrange_mult objective
    equal_constraints
  let kkt_operator : KKT_Operator n m :=
    { objective_ := objective
      equal_constraints_ := equal_constraints
      design_variables_ := design_variables
      lagrange_mult_ := lagrange_mult
      temp_design_variables_size_vector_ := lib.clone_design design_variables }
  let kkt_p2_precond := KKT_P2_Preconditioner.new objective equal_constraints design_variables
    lagrange_mult self.secant_ self.secant_memory (lib.clone_design design_variables)
  let lhs_rol := (solve_linear lib kkt_operator.apply l.rhs l.lhs kkt_p2_precond.apply).1
  let lhs1 := lhs_rol.1
  let lhs2 := lhs_rol.2
  { search_direction := set search_direction lhs1
    lag_search_direction := set lag_search_direction lhs2
    test := List.replicate 10 0 }

/-! ## One outer iteration: `compute` -/

/-- The constant `penalty_offset = 1e-4` of `compute`. -/
def penalty_offset : ℚ := 1 / 10 ^ 4

/-- What `compute` leaves behind: the step object, `search_direction`, and the locals
`rhs1`, `rhs2` (assembled, then not used) and `lhs1`, `lhs2` (the solution `(Δdesign, Δλ)` of
the KKT solve). -/
structure ComputeResult (σ : Type) (n m : ℕ) where
  self : FullSpace_BirosGhattas σ n m
  search_direction : Vector_SimOpt n m
  rhs1 : Vector_SimOpt n m
  rhs2 : Vec n
  lhs1 : Vector_SimOpt n m
  lhs2 : Vec n

/-- The method `compute` with bound constraints. The braced block between the line search and
the scaling (an unfinished sketch of a reduced step that forms no complete statement) has no
counterpart here. `merit_function_->update` only refreshes what the merit function caches. -/
def compute {σ : Type} {n m : ℕ} (lib : Library n m) (self : FullSpace_BirosGhattas σ n m)
    (search_direction design_variables : Vector_SimOpt n m) (lagrange_mult : Vec n)
    (objective : Objective n m) (equal_constraints : Constraint n m)
    (bound_constraints : BoundConstraint n m) (algo_state : AlgorithmState n m) :
    ComputeResult σ n m :=
  let step_state := self.state_
  let tol := sqrt_ROL_EPSILON
  let one : ℚ := 1
  /- Form gradient of the Lagrangian. -/
  let objective_gradient := set (lib.clone_design self.gvec_)
    (objective.gradient design_variables tol)
  let adjoint_jacobian_lagrange := set (lib.clone_design self.gvec_)
    (equal_constraints.applyAdjointJacobian lagrange_mult design_variables tol)
  /- Form right-hand side of the augmented system. -/
  let rhs1 := (computeLagrangianGradient equal_constraints
    { lagrangian_gradient := lib.clone_design self.gvec_
      design_variables := design_variables
      lagrange_mult := lagrange_mult
      objective_gradient := objective_gradient
      applyAdjointJacobian_calls := 0 }).lagrangian_gradient
  let rhs1 := scale rhs1 (-one)
  let rhs2 := set (lib.clone_mult self.cvec_) (equal_constraints.value design_variables tol)
  let rhs2 := scale rhs2 (-one)
  /- Declare left-hand side of augmented system. -/
  let lhs1 := lib.clone_design self.xvec_
  let lhs2 := lib.clone_mult self.lvec_
  /- Solve augmented system. -/
  let kkt := solve_KKT_system lib self lhs1 lhs2 design_variables lagrange_mult objective
    equal_constraints
  let lhs1 := kkt.search_direction
  let lhs2 := kkt.lag_search_direction
  let kkt_iters := kkt.test
  let step_state := { step_state with SPiter := kkt_iters.length }
  let search_direction := set search_direction lhs1
  let lagrange_mult_search_direction_ := set self.lagrange_mult_search_direction_ lhs2
  /- Create merit function based on augmented Lagrangian -/
  let penalty_value_ := computeAugmentedLagrangianPenalty search_direction
    lagrange_mult_search_direction_ design_variables objective_gradient
    step_state.constraintVec adjoint_jacobian_lagrange equal_constraints penalty_offset
  let merit_function_ := self.merit_function_.reset lagrange_mult penalty_value_
  let merit_function_gradient := set (lib.clone_design self.gvec_)
    (lib.merit_gradient objective equal_constraints merit_function_ design_variables tol)
  let directional_derivative_step := dot merit_function_gradient search_direction
  let directional_derivative_step := directional_derivative_step
    + dot step_state.constraintVec lagrange_mult_search_direction_
  /- Perform line-search -/
  let fval_ := lib.merit_value objective equal_constraints merit_function_ design_variables tol
  let step_state := { step_state with nfval := 0, ngrad := 0 }
  let ls := self.lineSearch_.run algo_state.gnorm merit_function_gradient
    step_state.searchSize fval_ step_state.nfval step_state.ngrad directional_derivative_step
    search_direction design_variables merit_function_ bound_constraints
  let step_state := { step_state with
    searchSize := ls.alpha, nfval := ls.ls_neval, ngrad := ls.ls_ngrad }
  let fval_ := ls.fval
  -- Compute scaled descent direction
  let lagrange_mult_search_direction_ := scale lagrange_mult_search_direction_
    step_state.searchSize
  let search_direction := scale search_direction step_state.searchSize
  let search_direction :=
    if bound_constraints.isActivated then
      let search_direction := plus search_direction design_variables
      let search_direction := bound_constraints.project search_direction
      axpy search_direction (-1) design_variables
    else search_direction
  { self := { self with
      merit_function_ := merit_function_
      lagrange_mult_search_direction_ := lagrange_mult_search_direction_
      penalty_value_ := penalty_value_
      fval_ := fval_
      state_ := step_state }
    search_direction := search_direction
    rhs1 := rhs1
    rhs2 := rhs2
    lhs1 := lhs1
    lhs2 := lhs2 }

/-- The overload of `compute` without bound constraints: it deactivates a default
`BoundConstraint` and calls the other overload. -/
def compute_unbounded {σ : Type} {n m : ℕ} (lib : Library n m)
    (self : FullSpace_BirosGhattas σ n m)
    (search_direction design_variables : Vector_SimOpt n m) (lagrange_mult : Vec n)
    (objective : Objective n m) (equal_constraints : Constraint n m)
    (algo_state : AlgorithmState n m) : ComputeResult σ n m :=
  let bound_constraints := (BoundConstraint.new n m).deactivate
  compute lib self search_direction design_variables lagrange_mult objective equal_constraints
    bound_constraints algo_state

/-! ## State advance: `update` -/

/-- What `update` leaves behind: the step object, the two persistent vectors, the algorithm
state, and the locals that feed the secant update. -/
structure UpdateResult (σ : Type) (n m : ℕ) where
  self : FullSpace_BirosGhattas σ n m
  design_variables : Vector_SimOpt n m
  lagrange_mult : Vec n
  algo_state : AlgorithmState n m
  lagrangian_gradient : Vector_SimOpt n m
  current_reduced_gradient : Vec m
  control_search_direction : Vec m

/-- The method `update` with bound constraints (which it ignores). -/
def update {σ : Type} {n m : ℕ} (lib : Library n m) (self : FullSpace_BirosGhattas σ n m)
    (design_variables : Vector_SimOpt n m) (lagrange_mult : Vec n)
    (search_direction : Vector_SimOpt n m) (objective : Objective n m)
    (equal_constraints : Constraint n m) (_bound_constraints : BoundConstraint n m)
    (algo_state : AlgorithmState n m) : UpdateResult σ n m :=
  let tol := sqrt_ROL_EPSILON
  let design_variables := plus design_variables search_direction
  let lagrange_mult := plus lagrange_mult self.lagrange_mult_search_direction_
  -- Update StepState
  let step_state := self.state_
  let step_state := { step_state with descentVec := lib.clone_design design_variables }
  let step_state := { step_state with
    gradientVec := set step_state.gradientVec (objective.gradient design_variables tol) }
  let step_state := { step_state with
    constraintVec := set step_state.constraintVec (equal_constraints.value design_variables tol) }
  let lagrangian_gradient := (computeLagrangianGradient equal_constraints
    { lagrangian_gradient := lib.clone_design step_state.gradientVec
      design_variables := design_variables
      lagrange_mult := lagrange_mult
      objective_gradient := step_state.gradientVec
      applyAdjointJacobian_calls := 0 }).lagrangian_gradient
  let algo_state := { algo_state with nfval := algo_state.nfval + step_state.nfval }
  let algo_state := { algo_state with ngrad := algo_state.ngrad + step_state.ngrad }
  let algo_state := { algo_state with value := objective.value design_variables tol }
  let algo_state := { algo_state with gnorm := lib.norm_design lagrangian_gradient }
  let algo_state := { algo_state with cnorm := lib.norm_mult step_state.constraintVec }
  let algo_state := { algo_state with snorm := lib.norm_design search_direction }
  let algo_state := { algo_state with
    snorm := algo_state.snorm + lib.norm_mult self.lagrange_mult_search_direction_ }
  let current_reduced_gradient := lagrangian_gradient.2
  let control_search_direction := search_direction.2
  let secant_memory := self.secant_.updateStorage self.secant_memory design_variables
    current_reduced_gradient self.previous_reduced_gradient_ control_search_direction
    algo_state.snorm (algo_state.iter + 1)
  let previous_reduced_gradient_ := current_reduced_gradient
  let algo_state := { algo_state with
    iterateVec := set algo_state.iterateVec design_variables }
  let algo_state := { algo_state with lagmultVec := set algo_state.lagmultVec lagrange_mult }
  let algo_state := { algo_state with iter := algo_state.iter + 1 }
  { self := { self with
      secant_memory := secant_memory
      previous_reduced_gradient_ := previous_reduced_gradient_
      state_ := step_state }
    design_variables := design_variables
    lagrange_mult := lagrange_mult
    algo_state := algo_state
    lagrangian_gradient := lagrangian_gradient
    current_reduced_gradient := current_reduced_gradient
    control_search_direction := control_search_direction }

/-- The overload of `update` without bound constraints: it deactivates a default
`BoundConstraint` and calls the other overload. -/
def update_unbounded {σ : Type} {n m : ℕ} (lib : Library n m)
    (self : FullSpace_BirosGhattas σ n m) (design_variables : Vector_SimOpt n m)
    (lagrange_mult : Vec n) (search_direction : Vector_SimOpt n m) (objective : Objective n m)
    (equal_constraints : Constraint n m) (algo_state : AlgorithmState n m) :
    UpdateResult σ n m :=
  let bound_constraints := (BoundConstraint.new n m).deactivate
  update lib self design_variables lagrange_mult search_direction objective equal_constraints
    bound_constraints algo_state

/-! ## `initialize` -/

/-- What `initialize` leaves behind: the step object, the (possibly projected) design, the
algorithm state, and the local `lagrangian_gradient`. -/
structure InitializeResult (σ : Type) (n m : ℕ) where
  self : FullSpace_BirosGhattas σ n m
  design_variables : Vector_SimOpt n m
  algo_state : AlgorithmState n m
  lagrangian_gradient : Vector_SimOpt n m

/-- The method `initialize` with bound constraints (the name is reserved in Lean, hence the
spelling). `clone_control` gives the contents of a
fresh clone of a control-block vector. `objective.update`, `equal_constraints.update` and
`lineSearch_->initialize` only prepare the collaborators. -/
def initialise {σ : Type} {n m : ℕ} (lib : Library n m) (clone_control : Vec m → Vec m)
    (self : FullSpace_BirosGhattas σ n m) (design_variables gradient : Vector_SimOpt n m)
    (lagrange_mult equal_constraints_values : Vec n) (objective : Objective n m)
    (equal_constraints : Constraint n m) (bound_constraints : BoundConstraint n m)
    (algo_state : AlgorithmState n m) : InitializeResult σ n m :=
  let tol := ROL_EPSILON
  let zero : ℚ := 0
  -- Initialize the algorithm state
  let algo_state := { algo_state with iter := 0, nfval := 0, ncval := 0, ngrad := 0 }
  let step_state := self.state_
  let xvec_ := lib.clone_design design_variables
  let gvec_ := lib.clone_design gradient
  let lvec_ := lib.clone_mult lagrange_mult
  let cvec_ := lib.clone_mult equal_constraints_values
  let lagrange_mult_search_direction_ := lib.clone_mult lagrange_mult
  -- Initialize state descent direction and gradient storage
  let step_state := { step_state with
    descentVec := lib.clone_design design_variables
    gradientVec := lib.clone_design gradient
    constraintVec := lib.clone_mult equal_constraints_values
    searchSize := zero }
  -- Project design_variables onto bound_constraints set
  let design_variables :=
    if bound_constraints.isActivated then bound_constraints.project design_variables
    else design_variables
  -- Update objective function, get value, and get gradient
  let algo_state := { algo_state with value := objective.value design_variables tol }
  let algo_state := { algo_state with nfval := algo_state.nfval + 1 }
  let step_state := { step_state with
    gradientVec := set step_state.gradientVec (objective.gradient design_variables tol) }
  let algo_state := { algo_state with ngrad := algo_state.ngrad + 1 }
  -- Update equal_constraints.
  let step_state := { step_state with
    constraintVec := set step_state.constraintVec
      (equal_constraints.value design_variables zero) }
  let algo_state := { algo_state with cnorm := lib.norm_mult cvec_ }
  let algo_state := { algo_state with ncval := algo_state.ncval + 1 }
  -- Compute gradient of Lagrangian at new multiplier guess.
  let lagrangian_gradient := (computeLagrangianGradient equal_constraints
    { lagrangian_gradient := lib.clone_design step_state.gradientVec
      design_variables := design_variables
      lagrange_mult := lagrange_mult
      objective_gradient := step_state.gradientVec
      applyAdjointJacobian_calls := 0 }).lagrangian_gradient
  let previous_reduced_gradient_ := clone_control lagrangian_gradient.2
  let algo_state := { algo_state with ngrad := algo_state.ngrad + 1 }
  let algo_state := { algo_state with gnorm := lib.norm_design step_state.gradientVec }
  let penalty_value_ : ℚ := 1
  let merit_function_ : AugmentedLagrangian n :=
    { multiplier := lagrange_mult, penaltyParameter := penalty_value_ }
  { self := { self with
      xvec_ := xvec_
      gvec_ := gvec_
      lvec_ := lvec_
      cvec_ := cvec_
      merit_function_ := merit_function_
      lagrange_mult_search_direction_ := lagrange_mult_search_direction_
      previous_reduced_gradient_ := previous_reduced_gradient_
      penalty_value_ := penalty_value_
      state_ := step_state }
    design_variables := design_variables
    algo_state := algo_state
    lagrangian_gradient := lagrangian_gradient }

/-! ## The constructor -/

/-- The entries of the `ROL::ParameterList` the constructor reads; `none` is an absent entry,
for which `get` returns the default it is given. -/
structure ParameterList where
  curvature_condition_type : Option String
  accept_last_alpha : Option Bool
  print_verbosity : Option ℤ
  recompute_objective_function : Option Bool
  line_search_method_type : Option String
  user_defined_line_search_name : Option String
  secant_type : Option String

/-- A secant object behind a `ROL::Ptr`: its routines and its memory. -/
structure SecantObject (σ : Type) (n m : ℕ) where
  routines : Secant σ n m
  memory : σ

/-- The enumeration `ELineSearch`: `LINESEARCH_USERDEFINED`, or the value
`StringToELineSearch` gives for a name. -/
inductive ELineSearch where
  | LINESEARCH_USERDEFINED
  | ofName (name : String)
  deriving DecidableEq

/-- The members the constructor sets. Pointers are options, `none` being `ROL::nullPtr`;
the enumerations `econd_` and `esec_` are kept as the names they are converted from. -/
structure ConstructorResult (σ : Type) (n m : ℕ) where
  secant_ : Option (SecantObject σ n m)
  lineSearch_ : Option (LineSearch n m)
  els_ : ELineSearch
  econd_ : String
  esec_ : String
  acceptLastAlpha_ : Bool
  verbosity_ : ℤ
  computeObj_ : Bool
  fval_ : ℚ
  parlist_ : ParameterList
  lineSearchName_ : String
  secantName_ : String

/-- The constructor `FullSpace_BirosGhattas(parlist, lineSearch, secant)`. The two factories
are `LineSearchFactory<Real>(parlist)` and `SecantFactory<Real>(parlist)`. -/
def FullSpace_BirosGhattas.new {σ : Type} {n m : ℕ}
    (LineSearchFactory : ParameterList → LineSearch n m)
    (SecantFactory : ParameterList → SecantObject σ n m)
    (parlist : ParameterList) (lineSearch : Option (LineSearch n m))
    (secant : Option (SecantObject σ n m)) : ConstructorResult σ n m :=
  -- member initializer list
  let secant_ := secant
  let lineSearch_ := lineSearch
  let els_ := ELineSearch.LINESEARCH_USERDEFINED
  let fval_ : ℚ := 0
  let parlist_ := parlist
  -- Parse parameter list
  let econd_ := parlist.curvature_condition_type.getD "Strong Wolfe Conditions"
  let acceptLastAlpha_ := parlist.accept_last_alpha.getD false
  let verbosity_ := parlist.print_verbosity.getD 0
  let computeObj_ := parlist.recompute_objective_function.getD false
  -- Initialize Line Search
  let ls : Option (LineSearch n m) × ELineSearch × String :=
    if lineSearch_.isNone then
      let lineSearchName_ := parlist.line_search_method_type.getD "Cubic Interpolation"
      (some (LineSearchFactory parlist), ELineSearch.ofName lineSearchName_, lineSearchName_)
    else -- User-defined linesearch provided
      (lineSearch_, els_,
        parlist.user_defined_line_search_name.getD "Unspecified User Defined Line-Search")
  let secantName_ := parlist.secant_type.getD "Limited-Memory BFGS"
  let esec_ := secantName_
  let secant_ := set secant_ (some (SecantFactory parlist))
  { secant_ := secant_
    lineSearch_ := ls.1
    els_ := ls.2.1
    econd_ := econd_
    esec_ := esec_
    acceptLastAlpha_ := acceptLastAlpha_
    verbosity_ := verbosity_
    computeObj_ := computeObj_
    fval_ := fval_
    parlist_ := parlist_
    lineSearchName_ := ls.2.2
    secantName_ := secantName_ }

/-- The step object `solve_KKT_system`, `compute` and `update` work on after construction:
the constructed secant and line search placed into `blank`, which holds the members the
constructor leaves unset. `none` when a pointer is null. -/
def ConstructorResult.toStep {σ : Type} {n m : ℕ} (c : ConstructorResult σ n m)
    (blank : FullSpace_BirosGhattas σ n m) : Option (FullSpace_BirosGhattas σ n m) :=
  match c.secant_, c.lineSearch_ with
  | some secant, some lineSearch =>
    some { blank with
      secant_ := secant.routines
      secant_memory := secant.memory
      lineSearch_ := lineSearch
      fval_ := c.fval_ }
  | _, _ => none

/-! ## The vector adaptor `dealiiSolverVectorWrappingROL` -/

/-- The objects `ROL::Ptr<ROL::Vector<Real>>` can point to: a vector at each address. -/
abbrev Heap (V : Type) := ℕ → V

/-- The class `dealiiSolverVectorWrappingROL`: its member, a pointer to a ROL vector. -/
structure dealiiSolverVectorWrappingROL where
  rol_vector_ptr : ℕ
  deriving DecidableEq

/-- The calls `this->getVector()` followed by a dereference. -/
def dealiiSolverVectorWrappingROL.getVector {V : Type} (self : dealiiSolverVectorWrappingROL)
    (heap : Heap V) : V :=
  heap self.rol_vector_ptr

/-- The body of `operator*(v)`: `rol_vector_ptr->dot(*v.getVector())`. -/
def dealiiSolverVectorWrappingROL.mul {V : Type} [HasDot V]
    (self : dealiiSolverVectorWrappingROL) (heap : Heap V) (v : dealiiSolverVectorWrappingROL) :
    ℚ :=
  dot (self.getVector heap) (v.getVector heap)

/-- The body of `operator*=(a)`: `rol_vector_ptr->scale(a)`. -/
def dealiiSolverVectorWrappingROL.scale_assign {V : Type} [SMul ℚ V]
    (self : dealiiSolverVectorWrappingROL) (heap : Heap V) (a : ℚ) : Heap V :=
  Function.update heap self.rol_vector_ptr (scale (self.getVector heap) a)

/-- The method `add(x)`: `rol_vector_ptr->plus(*x.getVector())`. -/
def dealiiSolverVectorWrappingROL.add {V : Type} [Add V]
    (self : dealiiSolverVectorWrappingROL) (heap : Heap V) (x : dealiiSolverVectorWrappingROL) :
    Heap V :=
  Function.update heap self.rol_vector_ptr (plus (self.getVector heap) (x.getVector heap))

/-- The method `add(a, x)`: `rol_vector_ptr->axpy(a, *x.getVector())`. -/
def dealiiSolverVectorWrappingROL.add_scaled {V : Type} [Add V] [SMul ℚ V]
    (self : dealiiSolverVectorWrappingROL) (heap : Heap V) (a : ℚ)
    (x : dealiiSolverVectorWrappingROL) : Heap V :=
  Function.update heap self.rol_vector_ptr (axpy (self.getVector heap) a (x.getVector heap))

/-- The method `sadd(a, b, x)`: `scale(a)` then `axpy(b, x)`. -/
def dealiiSolverVectorWrappingROL.sadd {V : Type} [Add V] [SMul ℚ V]
    (self : dealiiSolverVectorWrappingROL) (heap : Heap V) (a b : ℚ)
    (x : dealiiSolverVectorWrappingROL) : Heap V :=
  let heap := Function.update heap self.rol_vector_ptr (scale (self.getVector heap) a)
  Function.update heap self.rol_vector_ptr (axpy (self.getVector heap) b (x.getVector heap))

/-- The method `equ(a, x)`: `set(x)` then `scale(a)`. -/
def dealiiSolverVectorWrappingROL.equ {V : Type} [SMul ℚ V]
    (self : dealiiSolverVectorWrappingROL) (heap : Heap V) (a : ℚ)
    (x : dealiiSolverVectorWrappingROL) : Heap V :=
  let heap := Function.update heap self.rol_vector_ptr
    (set (self.getVector heap) (x.getVector heap))
  Function.update heap self.rol_vector_ptr (scale (self.getVector heap) a)

/-- The method `add_and_dot(a, x, v)`: `add(a, x)`, then `(*this) * v`; the heap after the
call and the returned value. -/
def dealiiSolverVectorWrappingROL.add_and_dot {V : Type} [Add V] [SMul ℚ V] [HasDot V]
    (self : dealiiSolverVectorWrappingROL) (heap : Heap V) (a : ℚ)
    (x v : dealiiSolverVectorWrappingROL) : Heap V × ℚ :=
  let heap := self.add_scaled heap a x
  (heap, self.mul heap v)

/-- The method `l2_norm()`: `std::sqrt((*this) * (*this))`, with `sqrt` the library square
root. -/
def dealiiSolverVectorWrappingROL.l2_norm {V : Type} [HasDot V] (sqrt : ℚ → ℚ)
    (self : dealiiSolverVectorWrappingROL) (heap : Heap V) : ℚ :=
  sqrt (self.mul heap self)

/-! ## Example collaborators (one state unknown, one control) -/

/-- The one-dimensional vector with entry `a`. -/
def vec1 (a : ℚ) : Vec 1 := fun _ => a

/-- A quadratic objective `f(w,x) = w² + x²` with exact gradient and Hessian action. -/
def exObjective : Objective 1 1 where
  value x _ := dot x x
  gradient x _ := (2 : ℚ) • x
  hessVec v _ _ := (2 : ℚ) • v

/-- A linear constraint `R(w,x) = 2w + 3x - 1` with `A = 2`, `B = 3`, exact adjoints and
exact inverse solves. -/
def exConstraint : Constraint 1 1 where
  value x _ := (2 : ℚ) • x.1 + (3 : ℚ) • x.2 - vec1 1
  applyJacobian v _ _ := (2 : ℚ) • v.1 + (3 : ℚ) • v.2
  applyAdjointJacobian u _ _ := ((2 : ℚ) • u, (3 : ℚ) • u)
  applyAdjointHessian _ _ _ _ := 0
  applyJacobian_2 v _ _ _ := (3 : ℚ) • v
  applyAdjointJacobian_2 u _ _ _ := (3 : ℚ) • u
  applyInverseJacobian_1 v _ _ _ := (1 / 2 : ℚ) • v
  applyInverseAdjointJacobian_1 v _ _ _ := (1 / 2 : ℚ) • v

/-- A secant whose memory is one scalar `h`, the inverse-Hessian approximation. -/
def exSecant : Secant ℚ 1 1 where
  applyH h v := h • v
  updateStorage h _ _ _ _ _ _ := h

/-- The KKT operator of the example at design `(1, 1)` and multiplier `1`. -/
def exOperator : KKT_Operator 1 1 where
  objective_ := exObjective
  equal_constraints_ := exConstraint
  design_variables_ := (vec1 1, vec1 1)
  lagrange_mult_ := vec1 1
  temp_design_variables_size_vector_ := 0

/-- The preconditioner of the example at design `(1, 1)` and multiplier `1`. -/
def exPreconditioner : KKT_P2_Preconditioner ℚ 1 1 :=
  KKT_P2_Preconditioner.new exObjective exConstraint (vec1 1, vec1 1) (vec1 1) exSecant
    (1 / 2) 0

/-- A library for the example: fresh clones are zero, norms are the sums of absolute values,
the solver returns one application of the preconditioner to the right-hand side, and the
merit function is the objective alone. -/
def exLibrary : Library 1 1 where
  norm_design x := |x.1 0| + |x.2 0|
  norm_mult x := |x 0|
  clone_design _ := 0
  clone_mult _ := 0
  solver_fgmres _ _ rhs preconditioner := (preconditioner rhs, 1)
  merit_gradient objective _ _ x tol := objective.gradient x tol
  merit_value objective _ _ x tol := objective.value x tol

/-- The example library with a solver that stops at the fixed iterate `((1, 2), 3)`. -/
def exLibraryFixed : Library 1 1 :=
  { exLibrary with solver_fgmres := fun _ _ _ _ => (((vec1 1, vec1 2), vec1 3), 1) }

/-- A line search that always returns the step length `1/2` after one evaluation. -/
def exLineSearch : LineSearch 1 1 where
  run _ _ _ fval ls_neval ls_ngrad _ _ _ _ _ :=
    { alpha := 1 / 2, fval := fval, ls_neval := ls_neval + 1, ls_ngrad := ls_ngrad }

/-- The box `[0, 1] × [0, 1]` as an activated bound constraint; `project` clamps. -/
def exBounds : BoundConstraint 1 1 where
  activated := true
  project x := (vec1 (max 0 (min 1 (x.1 0))), vec1 (max 0 (min 1 (x.2 0))))
  isFeasible x := decide (0 ≤ x.1 0 ∧ x.1 0 ≤ 1 ∧ 0 ≤ x.2 0 ∧ x.2 0 ≤ 1)

/-- A step object of the example at design `(1, 1)`, multiplier `1`, holding the reduced
gradient `5` of that point as an `update` that arrived there stores it. -/
def exStep : FullSpace_BirosGhattas ℚ 1 1 where
  xvec_ := 0
  gvec_ := 0
  lvec_ := 0
  cvec_ := 0
  merit_function_ := { multiplier := vec1 1, penaltyParameter := 1 }
  lagrange_mult_search_direction_ := 0
  previous_reduced_gradient_ := vec1 5
  secant_ := exSecant
  secant_memory := 1 / 2
  lineSearch_ := exLineSearch
  penalty_value_ := 1
  fval_ := 0
  state_ :=
    { descentVec := 0
      gradientVec := (vec1 2, vec1 2)
      constraintVec := vec1 4
      searchSize := 0
      nfval := 0
      ngrad := 0
      SPiter := 0 }

/-- An algorithm state of the example, before the first iteration. -/
def exAlgoState : AlgorithmState 1 1 where
  iter := 0
  nfval := 1
  ncval := 1
  ngrad := 2
  value := 2
  gnorm := 4
  cnorm := 4
  snorm := 0
  iterateVec := (vec1 1, vec1 1)
  lagmultVec := vec1 1

/-- A secant object a user passes to the constructor: `H = 1/2`. -/
def exUserSecant : SecantObject ℚ 1 1 where
  routines := exSecant
  memory := 1 / 2

/-- A secant factory for the example: a fresh secant with `H = 1`. -/
def exSecantFactory (_parlist : ParameterList) : SecantObject ℚ 1 1 where
  routines := exSecant
  memory := 1

/-- A line-search factory for the example: a line search that always returns step length `1`. -/
def exLineSearchFactory (_parlist : ParameterList) : LineSearch 1 1 where
  run _ _ _ fval ls_neval ls_ngrad _ _ _ _ _ :=
    { alpha := 1, fval := fval, ls_neval := ls_neval + 1, ls_ngrad := ls_ngrad }

/-- An empty parameter list: every entry takes its default. -/
def exParameterList : ParameterList where
  curvature_condition_type := none
  accept_last_alpha := none
  print_verbosity := none
  recompute_objective_function := none
  line_search_method_type := none
  user_defined_line_search_name := none
  secant_type := none

/-- A heap for the example: the one-dimensional vector `(k + 1)` at address `k`. -/
def exHeap : Heap (Vec 1) := fun k => vec1 ((k : ℚ) + 1)

end FullSpace

/-!
# Size field: bisection and the target-complexity size field

Shallow embedding of `src/grid_refinement/size_field.cpp`.

The routines of this file divide by a size that is zero at the lower bisection bound and
compare the results, so the C++ type `real` is modelled here with the special values of IEEE
arithmetic: a value is a finite rational, an infinity, or NaN. Finite arithmetic is exact;
rounding, overflow and the sign of zero are outside the model (a zero divisor counts as `+0`).
One MPI rank owns all cells, so `dealii::Utilities::MPI::sum` returns its argument.
-/

namespace SizeField

/-! ## Values of type `real` -/

/-- A value of the C++ type `real`: a finite number, an infinity, or NaN. -/
inductive XReal where
  | fin (q : ℚ)
  | posInf
  | negInf
  | nan
  deriving DecidableEq

/-- Unary minus. -/
def XReal.neg : XReal → XReal
  | .fin a => .fin (-a)
  | .posInf => .negInf
  | .negInf => .posInf
  | .nan => .nan

/-- Addition: `∞ + (−∞)` is NaN. -/
def XReal.add : XReal → XReal → XReal
  | .fin a, .fin b => .fin (a + b)
  | .fin _, .posInf => .posInf
  | .fin _, .negInf => .negInf
  | .posInf, .fin _ => .posInf
  | .posInf, .posInf => .posInf
  | .posInf, .negInf => .nan
  | .negInf, .fin _ => .negInf
  | .negInf, .negInf => .negInf
  | .negInf, .posInf => .nan
  | .nan, _ => .nan
  | _, .nan => .nan

/-- Subtraction. -/
def XReal.sub (a b : XReal) : XReal := a.add b.neg

/-- The infinity with the sign of `b` times the sign given by `positive`; NaN when `b = 0`. -/
def XReal.infTimes (positive : Bool) (b : ℚ) : XReal :=
  if b = 0 then .nan
  else if (0 < b) = positive then .posInf else .negInf

/-- Multiplication: `∞ · 0` is NaN. -/
def XReal.mul : XReal → XReal → XReal
  | .fin a, .fin b => .fin (a * b)
  | .fin a, .posInf => XReal.infTimes true a
  | .fin a, .negInf => XReal.infTimes false a
  | .posInf, .fin b => XReal.infTimes true b
  | .negInf, .fin b => XReal.infTimes false b
  | .posInf, .posInf => .posInf
  | .posInf, .negInf => .negInf
  | .negInf, .posInf => .negInf
  | .negInf, .negInf => .posInf
  | .nan, _ => .nan
  | _, .nan => .nan

/-- Division: a finite non-zero number over zero is the infinity of its sign, `0/0` and
`∞/∞` are NaN, a finite number over an infinity is zero. -/
def XReal.div : XReal → XReal → XReal
  | .fin a, .fin b => if b = 0 then XReal.infTimes true a else .fin (a / b)
  | .fin _, .posInf => .fin 0
  | .fin _, .negInf => .fin 0
  | .posInf, .fin b => if 0 ≤ b then .posInf else .negInf
  | .negInf, .fin b => if 0 ≤ b then .negInf else .posInf
  | .posInf, .posInf => .nan
  | .posInf, .negInf => .nan
  | .negInf, .posInf => .nan
  | .negInf, .negInf => .nan
  | .nan, _ => .nan
  | _, .nan => .nan

/-- The comparison `a < b`: false as soon as one side is NaN. -/
def XReal.lt : XReal → XReal → Bool
  | .fin a, .fin b => decide (a < b)
  | .fin _, .posInf => true
  | .negInf, .fin _ => true
  | .negInf, .posInf => true
  | _, _ => false

/-- The power with a natural exponent: `pow(x, 0) = 1` for every `x`, NaN included. -/
def XReal.npow (x : XReal) : ℕ → XReal
  | 0 => .fin 1
  | k + 1 => (XReal.npow x k).mul x

/-- The natural number a value equals, if any. -/
def XReal.toNat? : XReal → Option ℕ
  | .fin q => if q.den = 1 ∧ 0 ≤ q.num then some q.num.toNat else none
  | _ => none

/-- The library function `std::pow(x, y)`: the exact power when `y` is a natural number,
and the parameter `rpow`, the library's value, for every other exponent. -/
def pow (rpow : XReal → XReal → XReal) (x y : XReal) : XReal :=
  match y.toNat? with
  | some k => x.npow k
  | none => rpow x y

/-! ## Bisection -/

/-- The constant `tolerance = 1e-6`. -/
def tolerance : ℚ := 1 / 10 ^ 6

/-- The constant `max_iter = 1000`. -/
def max_iter : ℕ := 1000

/-- The two sites where `bisection` raises `dealii::ExcInternalError`: the `AssertThrow` on
the bracket and the `Assert` on the iteration count. -/
inductive BisectionError where
  | bracket
  | iterations
  deriving DecidableEq

/-- The local variables of `bisection`, with the list of points `func` was called at. -/
structure BisectionState where
  lower_bound : ℚ
  upper_bound : ℚ
  f_lb : XReal
  f_ub : XReal
  x : ℚ
  f_x : XReal
  i : ℕ
  evaluations : List ℚ

/-- The state at the first test of the `while` condition. -/
def bisection_init (func : ℚ → XReal) (lower_bound upper_bound : ℚ) : BisectionState :=
  let f_lb := func lower_bound
  let f_ub := func upper_bound
  let x := (lower_bound + upper_bound) / 2
  let f_x := func x
  { lower_bound := lower_bound
    upper_bound := upper_bound
    f_lb := f_lb
    f_ub := f_ub
    x := x
    f_x := f_x
    i := 0
    evaluations := [lower_bound, upper_bound, x] }

/-- The condition of the `while` loop: `f_x > tolerance && i < max_iter`. -/
def bisection_cond (s : BisectionState) : Bool :=
  XReal.lt (.fin tolerance) s.f_x && decide (s.i < max_iter)

/-- The body of the `while` loop. -/
def bisection_body (func : ℚ → XReal) (s : BisectionState) : BisectionState :=
  let s :=
    if XReal.lt (s.f_x.mul s.f_lb) (.fin 0) then
      { s with upper_bound := s.x, f_ub := s.f_x }
    else
      { s with lower_bound := s.x, f_lb := s.f_x }
  let x := (s.lower_bound + s.upper_bound) / 2
  let f_x := func x
  { s with x := x, f_x := f_x, i := s.i + 1, evaluations := s.evaluations ++ [x] }

/-- The `while` loop, run for at most `fuel` passes. -/
def bisection_while (func : ℚ → XReal) : ℕ → BisectionState → BisectionState
  | 0, s => s
  | fuel + 1, s =>
    if bisection_cond s then bisection_while func fuel (bisection_body func s) else s

/-- What a call of `bisection` yields: the returned value or the error raised, the points
`func` was called at, and the number of passes of the loop. -/
structure BisectionRun where
  result : Except BisectionError ℚ
  evaluations : List ℚ
  iterations : ℕ

/-- The method `SizeField::bisection(func, lower_bound, upper_bound)`. `debug` tells whether
the deal.II macro `Assert` is compiled in (debug build) or expands to nothing (release build);
`AssertThrow` is always checked. The loop is given `max_iter` passes, which it cannot use up
without leaving. -/
def bisection (debug : Bool) (func : ℚ → XReal) (lower_bound upper_bound : ℚ) :
    BisectionRun :=
  let f_lb := func lower_bound
  let f_ub := func upper_bound
  if XReal.lt (f_lb.mul f_ub) (.fin 0) then
    let s := bisection_while func max_iter (bisection_init func lower_bound upper_bound)
    if debug && !decide (s.i < max_iter) then
      { result := .error .iterations, evaluations := s.evaluations, iterations := s.i }
    else
      { result := .ok s.x, evaluations := s.evaluations, iterations := s.i }
  else
    { result := .error .bracket, evaluations := [lower_bound, upper_bound], iterations := 0 }

/-! ## The size field for a target complexity -/

/-- The mesh as the size-field routines see it: for each of the `N` active cells (all locally
owned) the error constant `B`, the polynomial degree `p_field` and the sum of `JxW` over its
quadrature points. -/
structure Mesh (N : ℕ) where
  B : Fin N → ℚ
  p_field : Fin N → ℚ
  JxW : Fin N → ℚ

/-- The method `update_h_optimal(lam, B, dof_handler, h_field, p_field)`: the new `h_field`. -/
def update_h_optimal (dim : ℕ) (rpow : XReal → XReal → XReal) {N : ℕ} (lam : XReal)
    (mesh : Mesh N) (_h_field : Fin N → XReal) : Fin N → XReal :=
  fun index =>
    let q : XReal := .fin 2
    let p : XReal := .fin (mesh.p_field index)
    let exponent := (XReal.fin (-1)).div ((q.mul (p.add (.fin 1))).add (.fin 2))
    let component :=
      ((((q.mul (p.add (.fin 1))).div ((q.mul (p.add (.fin 1))).add (.fin 2))).mul
        (.fin (mesh.B index))).div (pow rpow (p.add (.fin 1)) (.fin dim)))
    lam.mul (pow rpow exponent component)

/-- The method `evaluate_complexity(..., h_field, p_field)`. -/
def evaluate_complexity (dim : ℕ) (rpow : XReal → XReal → XReal) {N : ℕ} (mesh : Mesh N)
    (h_field : Fin N → XReal) : XReal :=
  (List.finRange N).foldl
    (fun complexity_sum index =>
      complexity_sum.add
        ((pow rpow ((XReal.add (.fin (mesh.p_field index)) (.fin 1)).div (h_field index))
            (.fin dim)).mul (.fin (mesh.JxW index))))
    (.fin 0)

/-- The lambda `f` of `isotropic_h`: the complexity of the size field for `lam`, minus the
target. -/
def isotropic_h_f (dim : ℕ) (rpow : XReal → XReal → XReal) {N : ℕ} (complexity : ℚ)
    (mesh : Mesh N) (h_field : Fin N → XReal) (lam : ℚ) : XReal :=
  let h_field := update_h_optimal dim rpow (.fin lam) mesh h_field
  let current_complexity := evaluate_complexity dim rpow mesh h_field
  current_complexity.sub (.fin complexity)

/-- The method `isotropic_h(complexity, B, ..., h_field, p_field)`: the `h_field` it leaves
when it returns, or the error `bisection` raised. -/
def isotropic_h (debug : Bool) (dim : ℕ) (rpow : XReal → XReal → XReal) {N : ℕ}
    (complexity : ℚ) (mesh : Mesh N) (h_field : Fin N → XReal) :
    Except BisectionError (Fin N → XReal) :=
  let f := isotropic_h_f dim rpow complexity mesh h_field
  let a : ℚ := 0
  let b : ℚ := 1000
  match (bisection debug f a b).result with
  | .ok lam => .ok (update_h_optimal dim rpow (.fin lam) mesh h_field)
  | .error e => .error e

/-- The comparison `a <= b`: false as soon as one side is NaN. -/
def XReal.le : XReal → XReal → Bool
  | .fin a, .fin b => decide (a ≤ b)
  | .fin _, .posInf => true
  | .negInf, .fin _ => true
  | .negInf, .posInf => true
  | .negInf, .negInf => true
  | .posInf, .posInf => true
  | _, _ => false

/-- What IEEE 754 fixes of `std::pow(x, y)` for a finite negative base and a finite exponent
that is not an integer: NaN. `other` is the library's value at all other arguments. -/
def rpow_ieee (other : XReal → XReal → XReal) : XReal → XReal → XReal
  | .fin a, .fin b => if a < 0 ∧ b.den ≠ 1 then .nan else other (.fin a) (.fin b)
  | x, y => other x y

/-! ## The uniform-degree size field and the h-p selection, in exact arithmetic

`isotropic_uniform` and the selection loop of `isotropic_hp` are embedded over an arbitrary
ordered field `R`, with the library function `std::pow` as a parameter `pow : R → R → R`.
-/

/-- The method `isotropic_uniform(complexity, B, dof_handler, h_field, poly_degree)`: the
`h_field` it leaves, for cells with error constants `B` and measures `measure`. -/
def isotropic_uniform {R : Type} [Field R] (pow : R → R → R) (dim : ℕ) {N : ℕ}
    (complexity : R) (B measure : Fin N → R) (poly_degree : R) : Fin N → R :=
  let q : R := 2
  let exponent := 2 / ((poly_degree + 1) * q + 2)
  -- integral value
  let integral_value := (List.finRange N).foldl
    (fun integral_value index => integral_value + pow (B index) exponent * measure index) 0
  -- complexity per cell (based on polynomial order)
  let integral_value := integral_value * pow (poly_degree + 1) dim
  let integral_value_mpi := integral_value
  -- constant known (since q and p are uniform)
  let K := complexity / integral_value_mpi
  -- looping over the elements to define the sizes
  fun index => pow (K * pow (B index) exponent) (-1 / dim)

/-- The size and the degree of one cell. -/
structure CellSize (R : Type) where
  h : R
  p : R

/-- The locals of one pass of the selection loop of `isotropic_hp`. -/
structure HPLocals (R : Type) where
  e_ref : R
  N_ref : R
  h_m : R
  h_p : R
  e_m : R
  e_p : R

/-- The locals of the selection loop of `isotropic_hp` for a cell with error constants `Bm`,
`B`, `Bp` (for degrees `p − 1`, `p`, `p + 1`) and current size and degree `c`. -/
def isotropic_hp_locals {R : Type} [LinearOrderedField R] (pow : R → R → R) (dim : ℕ)
    (Bm B Bp : R) (c : CellSize R) : HPLocals R :=
  let q : R := 2
  -- computing the reference error
  let e_ref := pow |B| q * pow c.h (dim * q * (c.p + 1) / 2)
  -- local complexity
  let N_ref := pow ((c.p + 1) / c.h) dim
  -- computing the error for increased/decreased p with the same local complexity
  let h_m := c.p / pow N_ref (1 / dim)
  let h_p := (c.p + 2) / pow N_ref (1 / dim)
  -- computing the local error for each
  let e_m := pow |Bm| q * pow h_m (dim * q * c.p / 2)
  let e_p := pow |Bp| q * pow h_p (dim * q * (c.p + 2) / 2)
  { e_ref := e_ref, N_ref := N_ref, h_m := h_m, h_p := h_p, e_m := e_m, e_p := e_p }

/-- One pass of the selection loop of `isotropic_hp`: the size and degree the cell is left
with. -/
def isotropic_hp_cell {R : Type} [LinearOrderedField R] (pow : R → R → R) (dim : ℕ)
    (Bm B Bp : R) (c : CellSize R) : CellSize R :=
  let l := isotropic_hp_locals pow dim Bm B Bp c
  -- determining which is the smallest and adjusting
  if l.e_m < l.e_ref ∧ l.e_m ≤ l.e_p then
    { h := l.h_m, p := c.p - 1 }
  else if l.e_p < l.e_ref ∧ l.e_p ≤ l.e_m then
    { h := l.h_p, p := c.p + 1 }
  else -- else, p stays the same
    c

/-- The selection loop of `isotropic_hp` over all cells (the part after the call of
`isotropic_h`): the fields `h_field` and `p_field` it leaves. -/
def isotropic_hp_loop {R : Type} [LinearOrderedField R] (pow : R → R → R) (dim : ℕ) {N : ℕ}
    (Bm B Bp : Fin N → R) (h_field p_field : Fin N → R) : (Fin N → R) × (Fin N → R) :=
  (fun index => (isotropic_hp_cell pow dim (Bm index) (B index) (Bp index)
      { h := h_field index, p := p_field index }).h,
   fun index => (isotropic_hp_cell pow dim (Bm index) (B index) (Bp index)
      { h := h_field index, p := p_field index }).p)

/-! ## Example inputs -/

/-- The function `x ↦ x − 3`, continuous and increasing, with its root at `3`. -/
def exLinear (x : ℚ) : XReal := .fin (x - 3)

/-- The function `x ↦ 7/2 − x`, continuous and decreasing, with its root at `7/2`. -/
def exDecreasing (x : ℚ) : XReal := .fin (7 / 2 - x)

/-- A step function: `−1` up to `0`, `0` up to `2^-1001`, `1` beyond. -/
def exStepFunction (x : ℚ) : XReal :=
  if x ≤ 0 then .fin (-1) else if x ≤ 1 / 2 ^ 1001 then .fin 0 else .fin 1

/-- A mesh of one cell with `B = 4`, degree `0` and measure `1`. -/
def exMesh : Mesh 1 where
  B _ := 4
  p_field _ := 0
  JxW _ := 1

/-- A mesh of one cell with `B = 1`, degree `1` and measure `1`. -/
def exMeshGeneric : Mesh 1 where
  B _ := 1
  p_field _ := 1
  JxW _ := 1

/-- A power function on `ℚ` that is exact at the exponents `−1` and `1` and constant `1`
elsewhere. -/
def exPow (x y : ℚ) : ℚ := if y = -1 then x⁻¹ else if y = 1 then x else 1

end SizeField

/-!
# Finite-difference checks of the optimization test

Shallow embedding of `check_max_rel_error3` and `check_max_rel_error1` of
`src/testing/naca0012_optimization/euler_naca0012_optimization_zero_angle.cpp`. The entries of
the result rows are finite numbers; the quotient and the running minimum are values of type
`double` with their IEEE special values, as in the size-field routines.
-/

namespace Tests

open SizeField

/-- The constant `FD_TOL = 1e-6`. -/
def FD_TOL : ℚ := 1 / 10 ^ 6

/-- The library function `std::min(a, b)`: `b` when `b < a`, otherwise `a`. -/
def std_min (a b : XReal) : XReal := if XReal.lt b a then b else a

/-- The library function `std::max(a, b)` on finite numbers: `b` when `a < b`, otherwise `a`. -/
def std_max (a b : ℚ) : ℚ := if a < b then b else a

/-- The local `rel_err` of the loop for one row `[_, ad, fd, err]`. -/
def rel_err (row : Fin 4 → ℚ) : XReal :=
  let abs_val_ad := |row 1|
  let abs_val_fd := |row 2|
  let abs_err := |row 3|
  (XReal.fin abs_err).div (.fin (std_max abs_val_ad abs_val_fd))

/-- The function `check_max_rel_error3(rol_check_results)`. -/
def check_max_rel_error3 (rol_check_results : List (Fin 4 → ℚ)) : XReal :=
  rol_check_results.foldl (fun max_rel_err row => std_min max_rel_err (rel_err row))
    (.fin 999999)

/-- The function `check_max_rel_error1(rol_check_results)`, with the same body. -/
def check_max_rel_error1 (rol_check_results : List (Fin 4 → ℚ)) : XReal :=
  rol_check_results.foldl (fun max_rel_err row => std_min max_rel_err (rel_err row))
    (.fin 999999)

/-- The test the callers make on the returned value: `max_rel_err > FD_TOL` counts an error. -/
def fd_check_fails (max_rel_err : XReal) : Bool := XReal.lt (.fin FD_TOL) max_rel_err

/-- Three result rows, for step sizes `1`, `1/10`, `1/100`. -/
def exRows : List (Fin 4 → ℚ) :=
  [![1, 2, 3, 1], ![1 / 10, 2, 2, 0], ![1 / 100, 0, 0, 5]]

end Tests

/-!
# Boundary ids of the Gaussian-bump grid

Shallow embedding of the two loops over boundary faces in
`src/mesh/grids/gaussian_bump.cpp`. Boundary ids and user indices are `unsigned int` (32 bits);
the `int` arguments of the setters and the `int current_id` are converted modulo `2^32`.
-/

namespace Grids

/-- The conversion of an `int` to `unsigned int`. -/
def to_unsigned (i : ℤ) : ℕ := (i % 2 ^ 32).toNat

/-- The conversion of an `unsigned int` to `int` (two's complement). -/
def to_int (u : ℕ) : ℤ :=
  if u % 2 ^ 32 < 2 ^ 31 then ((u % 2 ^ 32 : ℕ) : ℤ) else ((u % 2 ^ 32 : ℕ) : ℤ) - 2 ^ 32

/-- What the loops read and write of a face. -/
structure Face where
  at_boundary : Bool
  boundary_id : ℕ
  user_index : ℕ
  manifold_id : ℕ
  deriving DecidableEq

/-- The call `face->set_boundary_id(id)`. -/
def Face.set_boundary_id (f : Face) (id : ℤ) : Face := { f with boundary_id := to_unsigned id }

/-- The call `face->set_user_index(index)`. -/
def Face.set_user_index (f : Face) (index : ℤ) : Face := { f with user_index := to_unsigned index }

/-- The body of the first loop for one face of one cell. -/
def set_boundary_type (f : Face) : Face :=
  if f.at_boundary then
    let current_id := to_int f.boundary_id
    let f := if current_id = 4 ∨ current_id = 5 then f.set_boundary_id (-9999) else f
    let f := if current_id = 2 ∨ current_id = 3 then f.set_boundary_id 1001 else f
    let f := if current_id = 1 then f.set_boundary_id 1002 else f
    let f := if current_id = 0 then f.set_boundary_id 1003 else f
    if current_id = 2 then f.set_user_index 1 else f.set_user_index (-1)
  else f

/-- The effect on one face of `reset_all_manifolds`, `set_all_manifold_ids(0)` and
`set_all_manifold_ids_on_boundary(1001, 1)`. -/
def set_manifold_ids (f : Face) : Face :=
  let f := { f with manifold_id := 0 }
  if f.at_boundary ∧ f.boundary_id = 1001 then { f with manifold_id := 1 } else f

/-- The body of the second loop for one face of one cell. -/
def reset_side_walls (f : Face) : Face :=
  if f.at_boundary then
    let current_id := to_int f.boundary_id
    if current_id = -9999 then f.set_boundary_id 1001 else f
  else f

/-- The grid as the loops traverse it: the active cells, each with its faces. -/
abbrev Grid := List (List Face)

/-- The face `face` of the cell number `cell`, if there is one. -/
def Grid.face? (grid : Grid) (cell face : ℕ) : Option Face :=
  (grid.get? cell).bind (fun c => c.get? face)

/-- The part of `gaussian_bump` after the grid is generated, as far as boundary ids, user
indices and manifold ids go: first loop, manifold ids, second loop. -/
def gaussian_bump (grid : Grid) : Grid :=
  let grid := grid.map (fun cell => cell.map set_boundary_type)
  let grid := grid.map (fun cell => cell.map set_manifold_ids)
  grid.map (fun cell => cell.map reset_side_walls)

/-- The faces of one cell in the corner of a colorized three-dimensional box: three boundary
faces with ids `0`, `2`, `4` and three interior faces. -/
def exCell : List Face :=
  [⟨true, 0, 0, 7⟩, ⟨false, 4294967295, 0, 7⟩, ⟨true, 2, 0, 7⟩, ⟨false, 4294967295, 0, 7⟩,
   ⟨true, 4, 0, 7⟩, ⟨false, 4294967295, 0, 7⟩]

end Grids

/-!
# Manufactured solution and source terms

Shallow embedding of `src/physics.cpp`, in exact arithmetic over a commutative ring `R`; the
library functions `sin` and `cos`, the value of `atan(1)` and the value of `sqrt(2)` are
parameters.
-/

namespace Physics

/-- The static constants `freq_x, …, offs_z` of `Physics` and the library values used. -/
structure Constants (R : Type) where
  freq_x : R
  freq_y : R
  freq_z : R
  offs_x : R
  offs_y : R
  offs_z : R
  sin : R → R
  cos : R → R
  atan_1 : R
  sqrt_2 : R

/-- The method `Physics::manufactured_solution(pos, solution)`: the value written to
`solution`; `none` when `dim` is none of 1, 2, 3 and `uexact` is never assigned. -/
def manufactured_solution {R : Type} [CommRing R] (k : Constants R) (dim : ℕ) (pos : ℕ → R) :
    Option R :=
  let a := k.freq_x
  let b := k.freq_y
  let c := k.freq_z
  let d := k.offs_x
  let e := k.offs_y
  let f := k.offs_z
  if dim = 1 then some (k.sin (a * pos 0 + d))
  else if dim = 2 then some (k.sin (a * pos 0 + d) * k.sin (b * pos 1 + e))
  else if dim = 3 then
    some (k.sin (a * pos 0 + d) * k.sin (b * pos 1 + e) * k.sin (c * pos 2 + f))
  else none

/-- The methods `LinearAdvection::advection_speed()` and `ConvectionDiffusion::advection_speed()`
(the same body): the components of the velocity, zero beyond `dim`. -/
def advection_speed {R : Type} [Field R] (k : Constants R) (dim : ℕ) (i : ℕ) : R :=
  let pi := k.atan_1 * 4
  if i = 0 ∧ dim ≥ 1 then 1
  else if i = 1 ∧ dim ≥ 2 then -pi / 4
  else if i = 2 ∧ dim ≥ 3 then k.sqrt_2
  else 0

/-- The method `LinearAdvection::source_term(pos, solution, source)`: the value written to
`source`, `none` when none is. -/
def LinearAdvection.source_term {R : Type} [Field R] (k : Constants R) (dim : ℕ)
    (pos : ℕ → R) : Option R :=
  let velocity_field := advection_speed k dim
  let a := k.freq_x
  let b := k.freq_y
  let c := k.freq_z
  let d := k.offs_x
  let e := k.offs_y
  let f := k.offs_z
  if dim = 1 then
    let x := pos 0
    some (velocity_field 0 * a * k.cos (a * x + d))
  else if dim = 2 then
    let x := pos 0
    let y := pos 1
    some (velocity_field 0 * a * k.cos (a * x + d) * k.sin (b * y + e)
      + velocity_field 1 * b * k.sin (a * x + d) * k.cos (b * y + e))
  else if dim = 3 then
    let x := pos 0
    let y := pos 1
    let z := pos 2
    some (velocity_field 0 * a * k.cos (a * x + d) * k.sin (b * y + e) * k.sin (c * z + f)
      + velocity_field 1 * b * k.sin (a * x + d) * k.cos (b * y + e) * k.sin (c * z + f)
      + velocity_field 2 * c * k.sin (a * x + d) * k.sin (b * y + e) * k.cos (c * z + f))
  else none

/-- The method `Diffusion::source_term(pos, solution, source)`. -/
def Diffusion.source_term {R : Type} [Field R] (k : Constants R) (dim : ℕ) (pos : ℕ → R) :
    Option R :=
  let a := k.freq_x
  let b := k.freq_y
  let c := k.freq_z
  let d := k.offs_x
  let e := k.offs_y
  let f := k.offs_z
  if dim = 1 then
    let x := pos 0
    some (a * a * k.sin (a * x + d))
  else if dim = 2 then
    let x := pos 0
    let y := pos 1
    some (a * a * k.sin (a * x + d) * k.sin (b * y + e)
      + b * b * k.sin (a * x + d) * k.sin (b * y + e))
  else if dim = 3 then
    let x := pos 0
    let y := pos 1
    let z := pos 2
    some (a * a * k.sin (a * x + d) * k.sin (b * y + e) * k.sin (c * z + f)
      + b * b * k.sin (a * x + d) * k.sin (b * y + e) * k.sin (c * z + f)
      + c * c * k.sin (a * x + d) * k.sin (b * y + e) * k.sin (c * z + f))
  else none

/-- The method `ConvectionDiffusion::source_term(pos, solution, source)`. -/
def ConvectionDiffusion.source_term {R : Type} [Field R] (k : Constants R) (dim : ℕ)
    (pos : ℕ → R) : Option R :=
  let velocity_field := advection_speed k dim
  let a := k.freq_x
  let b := k.freq_y
  let c := k.freq_z
  let d := k.offs_x
  let e := k.offs_y
  let f := k.offs_z
  if dim = 1 then
    let x := pos 0
    some (velocity_field 0 * a * k.cos (a * x + d)
      + a * a * k.sin (a * x + d))
  else if dim = 2 then
    let x := pos 0
    let y := pos 1
    some (velocity_field 0 * a * k.cos (a * x + d) * k.sin (b * y + e)
      + velocity_field 1 * b * k.sin (a * x + d) * k.cos (b * y + e)
      + a * a * k.sin (a * x + d) * k.sin (b * y + e)
      + b * b * k.sin (a * x + d) * k.sin (b * y + e))
  else if dim = 3 then
    let x := pos 0
    let y := pos 1
    let z := pos 2
    some (velocity_field 0 * a * k.cos (a * x + d) * k.sin (b * y + e) * k.sin (c * z + f)
      + velocity_field 1 * b * k.sin (a * x + d) * k.cos (b * y + e) * k.sin (c * z + f)
      + velocity_field 2 * c * k.sin (a * x + d) * k.sin (b * y + e) * k.cos (c * z + f)
      + a * a * k.sin (a * x + d) * k.sin (b * y + e) * k.sin (c * z + f)
      + b * b * k.sin (a * x + d) * k.sin (b * y + e) * k.sin (c * z + f)
      + c * c * k.sin (a * x + d) * k.sin (b * y + e) * k.sin (c * z + f))
  else none

/-- The sum of the squared frequencies of the first `dim` directions. -/
def squared_frequencies {R : Type} [CommRing R] (k : Constants R) (dim : ℕ) : R :=
  (if 1 ≤ dim then k.freq_x * k.freq_x else 0)
    + (if 2 ≤ dim then k.freq_y * k.freq_y else 0)
    + (if 3 ≤ dim then k.freq_z * k.freq_z else 0)

end Physics

/-!
# Command line

Shallow embedding of `src/parameters/parameters.cpp`. `parse_input` is
`ParameterHandler::parse_input`: the new state of the handler, or `none` when it throws a
`std::exception`. A call of `exit(1)` ends the function with the status and with what was
printed before.
-/

namespace Parameters

/-- What `parse_command_line` prints. -/
inductive Output where
  | flag_needs_file
  | unable_to_parse (input_file_name : String)
  | unknown_flag (flag : String)
  | usage_message
  deriving DecidableEq

/-- How a call of `parse_command_line` ends: it returns, leaving the parameter handler in a
state, or it calls `exit` with a status after printing. -/
inductive Outcome (S : Type) where
  | returned (parameter_handler : S)
  | exited (status : ℤ) (printed : List Output)

/-- The `while (args.size())` loop of `parse_command_line`. -/
def parse_args {S : Type} (parse_input : String → S → Option S) :
    List String → S → Outcome S
  | [], parameter_handler => .returned parameter_handler
  | [front], _ =>
    if front = "-i" then .exited 1 [.flag_needs_file, .usage_message]
    else .exited 1 [.unknown_flag front, .usage_message]
  | front :: input_file_name :: args, parameter_handler =>
    if front = "-i" then
      match parse_input input_file_name parameter_handler with
      | some parameter_handler => parse_args parse_input args parameter_handler
      | none => .exited 1 [.unable_to_parse input_file_name, .usage_message]
    else .exited 1 [.unknown_flag front, .usage_message]

/-- The function `parse_command_line(argc, argv, parameter_handler)`, with `argc` the length of
`argv`. -/
def parse_command_line {S : Type} (parse_input : String → S → Option S) (argv : List String)
    (parameter_handler : S) : Outcome S :=
  let argc := argv.length
  if argc < 2 then .exited 1 [.usage_message]
  else
    let args := argv.drop 1
    parse_args parse_input args parameter_handler

/-- The files of a list of pairs `-i <file>` parsed one after the other. -/
def parse_files {S : Type} (parse_input : String → S → Option S) :
    List String → S → Option S
  | [], parameter_handler => some parameter_handler
  | file :: files, parameter_handler =>
    match parse_input file parameter_handler with
    | some parameter_handler => parse_files parse_input files parameter_handler
    | none => none

/-- The arguments made of the pairs `-i <file>` for the given files. -/
def pairs_of (files : List String) : List String :=
  files.flatMap (fun file => ["-i", file])

/-- A parameter handler for the example: the list of files parsed so far; the file
`missing.prm` cannot be parsed and every other file can. -/
def exParseInput (input_file_name : String) (parsed : List String) : Option (List String) :=
  if input_file_name = "missing.prm" then none else some (parsed ++ [input_file_name])

end Parameters

namespace FullSpace

/-! ## Shared lemmas on vectors -/

theorem dot_vec_def {n : ℕ} (x y : Vec n) : dot x y = ∑ i, x i * y i := rfl

theorem dot_prod_def {V W : Type} [HasDot V] [HasDot W] (x y : V × W) :
    dot x y = dot x.1 y.1 + dot x.2 y.2 := rfl

theorem dot_vec_add_right {n : ℕ} (x y z : Vec n) : dot x (y + z) = dot x y + dot x z := by
  simp [dot_vec_def, mul_add, Finset.sum_add_distrib]

theorem vmult_dst_eq {n m : ℕ} (op : KKT_Operator n m) (k : ℤ) (dst : KKTVector n m)
    (dDesign : Vector_SimOpt n m) (dLam : Vec n) :
    (op.vmult k dst (dDesign, dLam)).dst = (op.H dDesign + op.Jt dLam, op.J dDesign) := by
  simp [KKT_Operator.vmult, KKT_Operator.H, KKT_Operator.J, KKT_Operator.Jt, axpy, set]

/-- For every input, the right-hand side wrapper of `solve_KKT_system` holds the fresh
left-hand side, not the assembled pair `rhs_rol`. -/
theorem solve_KKT_system_rhs_eq_lhs {σ : Type} {n m : ℕ} (lib : Library n m)
    (self : FullSpace_BirosGhattas σ n m) (x : Vector_SimOpt n m) (lam : Vec n)
    (obj : Objective n m) (con : Constraint n m) :
    (solve_KKT_system_locals lib self x lam obj con).rhs
      = (lib.clone_design self.xvec_, lib.clone_mult self.lvec_) :=
  rfl

theorem dot_simopt_add_right {n m : ℕ} (x y z : Vector_SimOpt n m) :
    dot x (y + z) = dot x y + dot x z := by
  simp only [dot_prod_def, Prod.fst_add, Prod.snd_add, dot_vec_add_right]
  ring

/-! ## C1 -/

/-- C1: `KKT_Operator::vmult` applied to `src = (Δdesign, Δλ)` writes
`dst = (H·Δdesign + Jᵗ·Δλ, J·Δdesign)`, whatever `dst` and the scratch vector held before,
and the multiplier block of `dst` is the same for every `Δλ` (zero lower-right block). -/
theorem C1_vmult_blocks {n m : ℕ} (op : KKT_Operator n m) (k : ℤ) (dst : KKTVector n m)
    (dDesign : Vector_SimOpt n m) (dLam : Vec n) :
    (op.vmult k dst (dDesign, dLam)).dst = (op.H dDesign + op.Jt dLam, op.J dDesign)
    ∧ ∀ dLam2 : Vec n,
        (op.vmult k dst (dDesign, dLam2)).dst.2 = (op.vmult k dst (dDesign, dLam)).dst.2 := by
  refine ⟨?_, fun _ => rfl⟩
  simp [KKT_Operator.vmult, KKT_Operator.H, KKT_Operator.J, KKT_Operator.Jt, axpy, set]

/-! ## C2 -/

/-- C2: the KKT operator is symmetric, `u·vmult(v) = v·vmult(u)` for all `u`, `v` of the
combined space, when `objective.hessVec` and `constraint.applyAdjointHessian(λ, ·)` are
symmetric and `applyAdjointJacobian` is the exact adjoint of `applyJacobian`. -/
theorem C2_vmult_symmetric {n m : ℕ} (op : KKT_Operator n m)
    (hH : ∀ a b : Vector_SimOpt n m,
      dot a (op.objective_.hessVec b op.design_variables_ vmult_tol)
        = dot b (op.objective_.hessVec a op.design_variables_ vmult_tol))
    (hA : ∀ a b : Vector_SimOpt n m,
      dot a (op.equal_constraints_.applyAdjointHessian op.lagrange_mult_ b
          op.design_variables_ vmult_tol)
        = dot b (op.equal_constraints_.applyAdjointHessian op.lagrange_mult_ a
          op.design_variables_ vmult_tol))
    (hJ : ∀ (w : Vec n) (v : Vector_SimOpt n m),
      dot w (op.equal_constraints_.applyJacobian v op.design_variables_ vmult_tol)
        = dot v (op.equal_constraints_.applyAdjointJacobian w op.design_variables_ vmult_tol))
    (k1 k2 : ℤ) (d1 d2 u v : KKTVector n m) :
    wrapped_dot u (op.vmult k1 d1 v).dst = wrapped_dot v (op.vmult k2 d2 u).dst := by
  have e1 := (vmult_dst_eq op k1 d1 v.1 v.2)
  have e2 := (vmult_dst_eq op k2 d2 u.1 u.2)
  rw [wrapped_dot, wrapped_dot, e1, e2, dot_prod_def, dot_prod_def (V := Vector_SimOpt n m)]
  simp only [dot_simopt_add_right, KKT_Operator.H, KKT_Operator.J, KKT_Operator.Jt]
  rw [hH u.1 v.1, hA u.1 v.1, hJ u.2 v.1, ← hJ v.2 u.1]
  ring

/-- Witness of C2 on the example operator. -/
theorem C2_vmult_symmetric_witness :
    wrapped_dot ((vec1 1, vec1 2), vec1 3)
        (exOperator.vmult 0 0 ((vec1 5, vec1 7), vec1 11)).dst
      = wrapped_dot ((vec1 5, vec1 7), vec1 11)
        (exOperator.vmult 0 0 ((vec1 1, vec1 2), vec1 3)).dst :=
  C2_vmult_symmetric exOperator
    (by intro a b; simp [exOperator, exObjective, dot_prod_def, dot_vec_def]; ring)
    (by intro a b; simp [exOperator, exConstraint, dot_prod_def, dot_vec_def])
    (by intro w v; simp [exOperator, exConstraint, dot_prod_def, dot_vec_def]; ring)
    0 0 0 0 _ _

/-! ## C3 -/

/-- C3: `KKT_P2_Preconditioner::vmult` on `(r1, r2, r3)` returns (state step, control step,
multiplier update) with `z = applyInverseAdjointJacobian_1(r1)`,
control step `= secant.applyH(r2 − applyAdjointJacobian_2(z))` and
state step `= applyInverseJacobian_1(−applyJacobian_2(control step))`. -/
theorem C3_P2_vmult_blocks {σ : Type} {n m : ℕ} (P : KKT_P2_Preconditioner σ n m) (k : ℤ)
    (dst : KKTVector n m) (r1 : Vec n) (r2 : Vec m) (r3 : Vec n) :
    (P.vmult k dst ((r1, r2), r3)).dst =
      (let z := P.equal_constraints_.applyInverseAdjointJacobian_1 r1
          P.simulation_variables_ P.control_variables_ vmult_tol
       let d := P.secant_.applyH P.secant_memory
          (r2 - P.equal_constraints_.applyAdjointJacobian_2 z
            P.simulation_variables_ P.control_variables_ vmult_tol)
       let s := P.equal_constraints_.applyInverseJacobian_1
          (-(P.equal_constraints_.applyJacobian_2 d
            P.simulation_variables_ P.control_variables_ vmult_tol))
          P.simulation_variables_ P.control_variables_ vmult_tol
       ((s, d), z)) := by
  simp [KKT_P2_Preconditioner.vmult, set, scale, plus, neg_add_eq_sub]

/-! ## C5 -/

/-- C5: `computeLagrangianGradient` leaves `g + Jᵗλ` in its output, with
`Jᵗλ = constraint.applyAdjointJacobian(λ, design)`; it makes exactly one adjoint-Jacobian
application and leaves `design`, `λ` and `g` as they were. -/
theorem C5_lagrangian_gradient {n m : ℕ} (con : Constraint n m)
    (f : LagrangianGradientFrame n m) :
    (computeLagrangianGradient con f).lagrangian_gradient
        = f.objective_gradient
          + con.applyAdjointJacobian f.lagrange_mult f.design_variables sqrt_ROL_EPSILON
      ∧ (computeLagrangianGradient con f).applyAdjointJacobian_calls
          = f.applyAdjointJacobian_calls + 1
      ∧ (computeLagrangianGradient con f).design_variables = f.design_variables
      ∧ (computeLagrangianGradient con f).lagrange_mult = f.lagrange_mult
      ∧ (computeLagrangianGradient con f).objective_gradient = f.objective_gradient := by
  refine ⟨?_, rfl, rfl, rfl, rfl⟩
  simp [computeLagrangianGradient, set, plus, add_comm]

/-! ## C6 -/

/-- C6: where the denominator `(J·Δdesign)·c` is not zero, `computeAugmentedLagrangianPenalty`
forms the quotient `raw` of `g·Δdesign + (Jᵗλ)·Δdesign + c·Δλ` by `(J·Δdesign)·c` (the number
with `raw · ((J·Δdesign)·c)` equal to the numerator) and returns `raw + offset` when `raw > 0`
and `1` when `raw ≤ 0`; the offset is added to the quotient, after the division. -/
theorem C6_penalty_formula {n m : ℕ} (sd : Vector_SimOpt n m) (dLam : Vec n)
    (x g : Vector_SimOpt n m) (c : Vec n) (a : Vector_SimOpt n m) (con : Constraint n m)
    (offset : ℚ) (hden : dot (con.applyJacobian sd x sqrt_ROL_EPSILON) c ≠ 0) :
    ∃ raw : ℚ,
      raw * dot (con.applyJacobian sd x sqrt_ROL_EPSILON) c
          = dot g sd + dot a sd + dot c dLam
      ∧ raw = (dot g sd + dot a sd + dot c dLam)
          / dot (con.applyJacobian sd x sqrt_ROL_EPSILON) c
      ∧ (0 < raw → computeAugmentedLagrangianPenalty sd dLam x g c a con offset = raw + offset)
      ∧ (raw ≤ 0 → computeAugmentedLagrangianPenalty sd dLam x g c a con offset = 1)
      ∧ computeAugmentedLagrangianPenalty sd dLam x g c a con offset
          = if 0 < raw then raw + offset else 1 := by
  have hres : computeAugmentedLagrangianPenalty sd dLam x g c a con offset
      = if 0 < (dot g sd + dot a sd + dot c dLam)
                / dot (con.applyJacobian sd x sqrt_ROL_EPSILON) c
        then (dot g sd + dot a sd + dot c dLam)
                / dot (con.applyJacobian sd x sqrt_ROL_EPSILON) c + offset
        else 1 := by
    simp [computeAugmentedLagrangianPenalty, penalty_numerator, penalty_denom]
  refine ⟨_, div_mul_cancel₀ _ hden, rfl, ?_, ?_, hres⟩
  · intro h
    rw [hres, if_pos h]
  · intro h
    rw [hres, if_neg (not_lt.mpr h)]

/-- Witness of C6 on the example: numerator `1`, denominator `2`, so the quotient is `1/2` and
the value returned with the offset `1e-4` is `1/2 + 1e-4`. -/
theorem C6_penalty_formula_witness :
    dot (exConstraint.applyJacobian (vec1 1, vec1 0) (vec1 1, vec1 1) sqrt_ROL_EPSILON) (vec1 1)
        = 2
    ∧ dot (vec1 1, vec1 0) ((vec1 1, vec1 0) : Vector_SimOpt 1 1)
        + dot ((vec1 0, vec1 0) : Vector_SimOpt 1 1) (vec1 1, vec1 0)
        + dot (vec1 1) (vec1 0) = (1 : ℚ)
    ∧ computeAugmentedLagrangianPenalty (vec1 1, vec1 0) (vec1 0) (vec1 1, vec1 1)
        (vec1 1, vec1 0) (vec1 1) (vec1 0, vec1 0) exConstraint penalty_offset
        = 1 / 2 + penalty_offset := by
  have hd : dot (exConstraint.applyJacobian (vec1 1, vec1 0) (vec1 1, vec1 1)
      sqrt_ROL_EPSILON) (vec1 1) = 2 := by
    simp [exConstraint, dot_vec_def, vec1]
  have hn : dot (vec1 1, vec1 0) ((vec1 1, vec1 0) : Vector_SimOpt 1 1)
        + dot ((vec1 0, vec1 0) : Vector_SimOpt 1 1) (vec1 1, vec1 0)
        + dot (vec1 1) (vec1 0) = (1 : ℚ) := by
    simp [dot_prod_def, dot_vec_def, vec1]
  obtain ⟨raw, hmul, -, hpos, -, -⟩ :=
    C6_penalty_formula (vec1 1, vec1 0) (vec1 0) (vec1 1, vec1 1) (vec1 1, vec1 0) (vec1 1)
      (vec1 0, vec1 0) exConstraint penalty_offset (by rw [hd]; norm_num)
  rw [hd, hn] at hmul
  have hraw : raw = 1 / 2 := by linarith
  rw [hraw] at hpos
  exact ⟨hd, hn, hpos (by norm_num)⟩

/-- The arguments `compute` passes to `computeAugmentedLagrangianPenalty`: the unscaled KKT
solution `(Δdesign, Δλ)`, the objective gradient `g`, the stored constraint value `c`, the
vector `Jᵗλ = applyAdjointJacobian(λ, design)` and the offset `1e-4`. -/
theorem compute_penalty_value {σ : Type} {n m : ℕ} (lib : Library n m)
    (self : FullSpace_BirosGhattas σ n m) (sd0 x : Vector_SimOpt n m) (lam : Vec n)
    (obj : Objective n m) (con : Constraint n m) (bc : BoundConstraint n m)
    (st : AlgorithmState n m) :
    (compute lib self sd0 x lam obj con bc st).self.penalty_value_
      = computeAugmentedLagrangianPenalty (compute lib self sd0 x lam obj con bc st).lhs1
          (compute lib self sd0 x lam obj con bc st).lhs2 x (obj.gradient x sqrt_ROL_EPSILON)
          self.state_.constraintVec (con.applyAdjointJacobian lam x sqrt_ROL_EPSILON) con
          penalty_offset :=
  rfl

/-! ## C4 -/

/-- C4, at the example design `(1, 1)` with multiplier `1`: the vector `solve_KKT_system`
hands to `solve_linear` as right-hand side is the still empty left-hand side `((0, 0), 0)`,
while the assembled pair `(−∇L, −c)` is `((−4, −5), −4)`. -/
theorem C4_rhs_handed_is_lhs :
    (solve_KKT_system_locals exLibrary exStep (vec1 1, vec1 1) (vec1 1) exObjective
        exConstraint).rhs = ((vec1 0, vec1 0), vec1 0)
    ∧ (solve_KKT_system_locals exLibrary exStep (vec1 1, vec1 1) (vec1 1) exObjective
        exConstraint).rhs_rol = ((vec1 (-4), vec1 (-5)), vec1 (-4))
    ∧ (solve_KKT_system_locals exLibrary exStep (vec1 1, vec1 1) (vec1 1) exObjective
        exConstraint).rhs
      ≠ (solve_KKT_system_locals exLibrary exStep (vec1 1, vec1 1) (vec1 1) exObjective
        exConstraint).rhs_rol := by
  have h1 : (solve_KKT_system_locals exLibrary exStep (vec1 1, vec1 1) (vec1 1) exObjective
        exConstraint).rhs = ((vec1 0, vec1 0), vec1 0) := by
    simp only [solve_KKT_system_locals, exLibrary]
    rfl
  have h2 : (solve_KKT_system_locals exLibrary exStep (vec1 1, vec1 1) (vec1 1) exObjective
        exConstraint).rhs_rol = ((vec1 (-4), vec1 (-5)), vec1 (-4)) := by
    simp only [solve_KKT_system_locals, computeLagrangianGradient, exLibrary, exObjective,
      exConstraint, set, scale, plus, sqrt_ROL_EPSILON]
    refine Prod.ext (Prod.ext ?_ ?_) ?_ <;> funext i <;> simp [vec1] <;> norm_num
  refine ⟨h1, h2, ?_⟩
  rw [h1, h2]
  intro h
  have := congrFun (congrArg Prod.snd h) 0
  simp [vec1] at this

/-! ## C7 -/

/-- C7 as stated fails: with quotient `1/2` and offset `-1`,
`computeAugmentedLagrangianPenalty` returns `-1/2`, which is not positive. -/
theorem C7_counterexample :
    computeAugmentedLagrangianPenalty (vec1 1, vec1 0) (vec1 0) (vec1 1, vec1 1)
        (vec1 1, vec1 0) (vec1 1) (vec1 0, vec1 0) exConstraint (-1) = -1 / 2
    ∧ ¬ 0 < computeAugmentedLagrangianPenalty (vec1 1, vec1 0) (vec1 0) (vec1 1, vec1 1)
        (vec1 1, vec1 0) (vec1 1) (vec1 0, vec1 0) exConstraint (-1) := by
  have h : computeAugmentedLagrangianPenalty (vec1 1, vec1 0) (vec1 0) (vec1 1, vec1 1)
        (vec1 1, vec1 0) (vec1 1) (vec1 0, vec1 0) exConstraint (-1) = -1 / 2 := by
    simp [computeAugmentedLagrangianPenalty, penalty_numerator, penalty_denom, exConstraint,
      dot_prod_def, dot_vec_def, vec1]
    norm_num
  refine ⟨h, ?_⟩
  rw [h]
  norm_num

/-- C7, amended: for every input and every offset that is not negative,
`computeAugmentedLagrangianPenalty` returns a strictly positive value. -/
theorem C7_penalty_positive {n m : ℕ} (sd : Vector_SimOpt n m) (dLam : Vec n)
    (x g : Vector_SimOpt n m) (c : Vec n) (a : Vector_SimOpt n m) (con : Constraint n m)
    (offset : ℚ) (hoff : 0 ≤ offset) :
    0 < computeAugmentedLagrangianPenalty sd dLam x g c a con offset := by
  unfold computeAugmentedLagrangianPenalty
  simp only
  split_ifs with h
  · exact add_pos_of_pos_of_nonneg h hoff
  · exact one_pos

/-- Witness of C7 at the offset `1e-4` that `compute` passes. -/
theorem C7_penalty_positive_witness :
    0 ≤ penalty_offset
    ∧ 0 < computeAugmentedLagrangianPenalty (vec1 1, vec1 0) (vec1 0) (vec1 1, vec1 1)
        (vec1 1, vec1 0) (vec1 1) (vec1 0, vec1 0) exConstraint penalty_offset :=
  ⟨by norm_num [penalty_offset],
   C7_penalty_positive _ _ _ _ _ _ _ _ (by norm_num [penalty_offset])⟩

/-! ## C8 -/

/-- C8 as stated fails: with numerator `-1` and denominator `-2`, both non-positive, the
quotient is `1/2 > 0` and `computeAugmentedLagrangianPenalty` returns `1/2 + 1e-4`, not `1`. -/
theorem C8_counterexample :
    penalty_numerator (vec1 1, vec1 0) (vec1 0) (vec1 (-1), vec1 0) (vec1 (-1))
        (vec1 0, vec1 0) = -1
    ∧ penalty_denom (vec1 1, vec1 0) (vec1 1, vec1 1) (vec1 (-1)) exConstraint = -2
    ∧ computeAugmentedLagrangianPenalty (vec1 1, vec1 0) (vec1 0) (vec1 1, vec1 1)
        (vec1 (-1), vec1 0) (vec1 (-1)) (vec1 0, vec1 0) exConstraint penalty_offset
        = 5001 / 10000
    ∧ computeAugmentedLagrangianPenalty (vec1 1, vec1 0) (vec1 0) (vec1 1, vec1 1)
        (vec1 (-1), vec1 0) (vec1 (-1)) (vec1 0, vec1 0) exConstraint penalty_offset ≠ 1 := by
  have hn : penalty_numerator (vec1 1, vec1 0) (vec1 0) (vec1 (-1), vec1 0) (vec1 (-1))
        (vec1 0, vec1 0) = -1 := by
    simp [penalty_numerator, dot_prod_def, dot_vec_def, vec1]
  have hd : penalty_denom (vec1 1, vec1 0) (vec1 1, vec1 1) (vec1 (-1)) exConstraint = -2 := by
    simp [penalty_denom, exConstraint, dot_vec_def, vec1]
  have h : computeAugmentedLagrangianPenalty (vec1 1, vec1 0) (vec1 0) (vec1 1, vec1 1)
        (vec1 (-1), vec1 0) (vec1 (-1)) (vec1 0, vec1 0) exConstraint penalty_offset
        = 5001 / 10000 := by
    unfold computeAugmentedLagrangianPenalty
    simp only [hn, hd, penalty_offset]
    norm_num
  refine ⟨hn, hd, h, ?_⟩
  rw [h]
  norm_num

/-- C8, amended: whenever the quotient cannot be positive because numerator and denominator
have opposite signs (numerator non-positive over a positive denominator, or numerator
non-negative over a negative denominator), `computeAugmentedLagrangianPenalty` returns the
default `1`; being a total function it raises no error. -/
theorem C8_penalty_default {n m : ℕ} (sd : Vector_SimOpt n m) (dLam : Vec n)
    (x g : Vector_SimOpt n m) (c : Vec n) (a : Vector_SimOpt n m) (con : Constraint n m)
    (offset : ℚ)
    (h : (penalty_numerator sd dLam g c a ≤ 0 ∧ 0 < penalty_denom sd x c con)
      ∨ (0 ≤ penalty_numerator sd dLam g c a ∧ penalty_denom sd x c con < 0)) :
    computeAugmentedLagrangianPenalty sd dLam x g c a con offset = 1 := by
  unfold computeAugmentedLagrangianPenalty
  simp only
  have hq : ¬ penalty_numerator sd dLam g c a / penalty_denom sd x c con > 0 := by
    rcases h with ⟨hn, hd⟩ | ⟨hn, hd⟩
    · exact not_lt.mpr (div_nonpos_of_nonpos_of_nonneg hn hd.le)
    · exact not_lt.mpr (div_nonpos_of_nonneg_of_nonpos hn hd.le)
  rw [if_neg hq]

/-- Witness of C8: numerator `-1` over denominator `2`. -/
theorem C8_penalty_default_witness :
    computeAugmentedLagrangianPenalty (vec1 1, vec1 0) (vec1 0) (vec1 1, vec1 1)
        (vec1 (-1), vec1 0) (vec1 1) (vec1 0, vec1 0) exConstraint penalty_offset = 1 :=
  C8_penalty_default _ _ _ _ _ _ _ _
    (Or.inl ⟨by simp [penalty_numerator, dot_prod_def, dot_vec_def, vec1],
      by simp [penalty_denom, exConstraint, dot_vec_def, vec1]⟩)

/-! ## C9 -/

/-- C9: at the end of `compute`, with `α` the step length that the call of
`lineSearch_->run` returned (on the merit function reset with the new penalty, its gradient and
value at the design, the directional derivative and the unscaled KKT solution
`(Δdesign, Δλ)`), `searchSize` holds `α`, the stored multiplier direction is `α·Δλ`; with
inactive bound constraints `search_direction` is `α·Δdesign`; with active bound constraints it
is `project(design + α·Δdesign) − design`, and then `design + search_direction` is feasible,
given that `project` maps into the feasible set. -/
theorem C9_compute_scaled_step {σ : Type} {n m : ℕ} (lib : Library n m)
    (self : FullSpace_BirosGhattas σ n m) (sd0 x : Vector_SimOpt n m) (lam : Vec n)
    (obj : Objective n m) (con : Constraint n m) (bc : BoundConstraint n m)
    (st : AlgorithmState n m) (hproj : ∀ y, bc.isFeasible (bc.project y) = true) :
    ∃ (dDesign : Vector_SimOpt n m) (dLam : Vec n) (merit : AugmentedLagrangian n)
        (ls : LineSearchResult),
      dDesign = (solve_KKT_system lib self (lib.clone_design self.xvec_)
          (lib.clone_mult self.lvec_) x lam obj con).search_direction
      ∧ dLam = (solve_KKT_system lib self (lib.clone_design self.xvec_)
          (lib.clone_mult self.lvec_) x lam obj con).lag_search_direction
      ∧ merit = self.merit_function_.reset lam
          (computeAugmentedLagrangianPenalty dDesign dLam x (obj.gradient x sqrt_ROL_EPSILON)
            self.state_.constraintVec (con.applyAdjointJacobian lam x sqrt_ROL_EPSILON) con
            penalty_offset)
      ∧ ls = self.lineSearch_.run st.gnorm
          (lib.merit_gradient obj con merit x sqrt_ROL_EPSILON) self.state_.searchSize
          (lib.merit_value obj con merit x sqrt_ROL_EPSILON) 0 0
          (dot (lib.merit_gradient obj con merit x sqrt_ROL_EPSILON) dDesign
            + dot self.state_.constraintVec dLam)
          dDesign x merit bc
      ∧ (compute lib self sd0 x lam obj con bc st).lhs1 = dDesign
      ∧ (compute lib self sd0 x lam obj con bc st).lhs2 = dLam
      ∧ (compute lib self sd0 x lam obj con bc st).self.state_.searchSize = ls.alpha
      ∧ (compute lib self sd0 x lam obj con bc st).self.lagrange_mult_search_direction_
          = ls.alpha • dLam
      ∧ (bc.isActivated = false →
          (compute lib self sd0 x lam obj con bc st).search_direction = ls.alpha • dDesign)
      ∧ (bc.isActivated = true →
          (compute lib self sd0 x lam obj con bc st).search_direction
            = bc.project (x + ls.alpha • dDesign) - x
          ∧ bc.isFeasible (x + (compute lib self sd0 x lam obj con bc st).search_direction)
              = true) := by
  refine ⟨_, _, _, _, rfl, rfl, rfl, rfl, rfl, rfl, rfl, rfl, ?_, ?_⟩
  · intro hb
    simp [compute, hb, scale, set]
  · intro hb
    have hsd : (compute lib self sd0 x lam obj con bc st).search_direction
          = bc.project (x + (compute lib self sd0 x lam obj con bc st).self.state_.searchSize
              • (compute lib self sd0 x lam obj con bc st).lhs1) - x := by
      simp [compute, hb, scale, set, plus, axpy, add_comm, sub_eq_add_neg]
    refine ⟨hsd, ?_⟩
    rw [hsd, add_sub_cancel]
    exact hproj _

/-- Witness of C9 on the example, with the box `[0, 1] × [0, 1]` as active bounds, the design
`(1/4, 1/4)`, the KKT solution `((1, 2), 3)` and a line search that returns `α = 1/2`: the
multiplier direction is `3/2`, the scaled step `(1/2, 1)` would leave the box, and
`search_direction` is `(1/2, 3/4)`. -/
theorem C9_compute_scaled_step_witness :
    (∀ y, exBounds.isFeasible (exBounds.project y) = true)
    ∧ (compute exLibraryFixed exStep 0 (vec1 (1 / 4), vec1 (1 / 4)) (vec1 1) exObjective
          exConstraint exBounds exAlgoState).self.state_.searchSize = 1 / 2
    ∧ (compute exLibraryFixed exStep 0 (vec1 (1 / 4), vec1 (1 / 4)) (vec1 1) exObjective
          exConstraint exBounds exAlgoState).self.lagrange_mult_search_direction_
        = vec1 (3 / 2)
    ∧ (compute exLibraryFixed exStep 0 (vec1 (1 / 4), vec1 (1 / 4)) (vec1 1) exObjective
          exConstraint exBounds exAlgoState).search_direction = (vec1 (1 / 2), vec1 (3 / 4))
    ∧ exBounds.isFeasible ((vec1 (1 / 4), vec1 (1 / 4))
      + (compute exLibraryFixed exStep 0 (vec1 (1 / 4), vec1 (1 / 4)) (vec1 1) exObjective
          exConstraint exBounds exAlgoState).search_direction) = true := by
  have hproj : ∀ y, exBounds.isFeasible (exBounds.project y) = true := by
    intro y
    simp [exBounds, vec1]
  obtain ⟨dDesign, dLam, merit, ls, hD, hL, -, hls, -, -, hα, hmult, -, hact⟩ :=
    C9_compute_scaled_step exLibraryFixed exStep 0 (vec1 (1 / 4), vec1 (1 / 4)) (vec1 1)
      exObjective exConstraint exBounds exAlgoState hproj
  have hD2 : dDesign = (vec1 1, vec1 2) := by
    rw [hD]
    simp [solve_KKT_system, solve_linear, exLibraryFixed, set]
  have hL2 : dLam = vec1 3 := by
    rw [hL]
    simp [solve_KKT_system, solve_linear, exLibraryFixed, set]
  have hα2 : ls.alpha = 1 / 2 := by
    rw [hls]
    rfl
  obtain ⟨hsd, hfeas⟩ := hact rfl
  refine ⟨hproj, by rw [hα, hα2], ?_, ?_, hfeas⟩
  · rw [hmult, hα2, hL2]
    funext i
    simp [vec1]
    norm_num
  · rw [hsd, hα2, hD2]
    ext i <;> simp [exBounds, vec1] <;> norm_num

/-! ## C10 -/

/-- C10: `update` changes the persistent vectors by addition only,
`design = design_old + search_direction` and `λ = λ_old + lagrange_mult_search_direction_`
(the scaled multiplier direction `compute` stored); the iterate and multiplier vectors of
`algo_state` receive these new values and `algo_state.iter` grows by exactly one. -/
theorem C10_update_adds {σ : Type} {n m : ℕ} (lib : Library n m)
    (self : FullSpace_BirosGhattas σ n m) (x : Vector_SimOpt n m) (lam : Vec n)
    (sd : Vector_SimOpt n m) (obj : Objective n m) (con : Constraint n m)
    (bc : BoundConstraint n m) (st : AlgorithmState n m) :
    (update lib self x lam sd obj con bc st).design_variables = x + sd
    ∧ (update lib self x lam sd obj con bc st).lagrange_mult
        = lam + self.lagrange_mult_search_direction_
    ∧ (update lib self x lam sd obj con bc st).algo_state.iterateVec = x + sd
    ∧ (update lib self x lam sd obj con bc st).algo_state.lagmultVec
        = lam + self.lagrange_mult_search_direction_
    ∧ (update lib self x lam sd obj con bc st).algo_state.iter = st.iter + 1
    ∧ (update lib self x lam sd obj con bc st).self.lagrange_mult_search_direction_
        = self.lagrange_mult_search_direction_ :=
  ⟨rfl, rfl, rfl, rfl, rfl, rfl⟩

/-! ## C11 -/

/-- The reduced gradient `initialize` stores first: a fresh clone of the control block of the
Lagrangian gradient at the initial point. -/
theorem initialise_previous_reduced_gradient {σ : Type} {n m : ℕ} (lib : Library n m)
    (clone_control : Vec m → Vec m) (self : FullSpace_BirosGhattas σ n m)
    (x g : Vector_SimOpt n m) (lam c : Vec n) (obj : Objective n m) (con : Constraint n m)
    (bc : BoundConstraint n m) (st : AlgorithmState n m) :
    (initialise lib clone_control self x g lam c obj con bc st).self.previous_reduced_gradient_
      = clone_control
          (initialise lib clone_control self x g lam c obj con bc st).lagrangian_gradient.2 :=
  rfl

/-- Every `update` calls `secant_->updateStorage` with the control block of the Lagrangian
gradient at the new point as new gradient, the stored `previous_reduced_gradient_` as old
gradient and the control block of `search_direction` as step (beside the new, full design, the
norm of the full step and `iter + 1`); afterwards `previous_reduced_gradient_` is the new
point's reduced gradient, so that the next `update` passes it as old gradient. -/
theorem update_secant_storage {σ : Type} {n m : ℕ} (lib : Library n m)
    (self : FullSpace_BirosGhattas σ n m) (x : Vector_SimOpt n m) (lam : Vec n)
    (sd : Vector_SimOpt n m) (obj : Objective n m) (con : Constraint n m)
    (bc : BoundConstraint n m) (st : AlgorithmState n m) :
    (update lib self x lam sd obj con bc st).current_reduced_gradient
        = (obj.gradient (x + sd) sqrt_ROL_EPSILON
            + con.applyAdjointJacobian (lam + self.lagrange_mult_search_direction_) (x + sd)
                sqrt_ROL_EPSILON).2
    ∧ (update lib self x lam sd obj con bc st).control_search_direction = sd.2
    ∧ (update lib self x lam sd obj con bc st).self.secant_memory
        = self.secant_.updateStorage self.secant_memory (x + sd)
            (update lib self x lam sd obj con bc st).current_reduced_gradient
            self.previous_reduced_gradient_
            (update lib self x lam sd obj con bc st).control_search_direction
            (lib.norm_design sd + lib.norm_mult self.lagrange_mult_search_direction_)
            (st.iter + 1)
    ∧ (update lib self x lam sd obj con bc st).self.previous_reduced_gradient_
        = (update lib self x lam sd obj con bc st).current_reduced_gradient
    ∧ ∀ (x2 : Vector_SimOpt n m) (lam2 : Vec n) (sd2 : Vector_SimOpt n m)
        (st2 : AlgorithmState n m),
        (update lib (update lib self x lam sd obj con bc st).self x2 lam2 sd2 obj con bc
            st2).self.secant_memory
          = self.secant_.updateStorage (update lib self x lam sd obj con bc st).self.secant_memory
              (x2 + sd2)
              (update lib (update lib self x lam sd obj con bc st).self x2 lam2 sd2 obj con bc
                st2).current_reduced_gradient
              (update lib self x lam sd obj con bc st).current_reduced_gradient
              sd2.2
              (lib.norm_design sd2 + lib.norm_mult self.lagrange_mult_search_direction_)
              (st2.iter + 1) := by
  refine ⟨?_, rfl, rfl, rfl, fun _ _ _ _ => rfl⟩
  simp [update, computeLagrangianGradient, set, plus, add_comm]

/-- C12 as stated fails: a call of `KKT_Operator::vmult` on the example operator changes the
call counter from `0` to `1` and the scratch vector from `(0, 0)` to `Jᵗ·Δλ = (2, 3)`. -/
theorem C12_counterexample :
    (exOperator.vmult 0 0 ((vec1 1, vec1 1), vec1 1)).number_of_times = 1
    ∧ (exOperator.vmult 0 0 ((vec1 1, vec1 1), vec1 1)).self.temp_design_variables_size_vector_
        = (vec1 2, vec1 3)
    ∧ exOperator.temp_design_variables_size_vector_ = 0
    ∧ (exOperator.vmult 0 0 ((vec1 1, vec1 1), vec1 1)).self ≠ exOperator := by
  have h2 : (exOperator.vmult 0 0 ((vec1 1, vec1 1),
      vec1 1)).self.temp_design_variables_size_vector_ = (vec1 2, vec1 3) := by
    simp only [KKT_Operator.vmult, exOperator, exConstraint, set]
    refine Prod.ext ?_ ?_ <;> funext i <;> simp [vec1]
  refine ⟨rfl, h2, rfl, ?_⟩
  intro h
  have h3 := congrArg (fun o => o.temp_design_variables_size_vector_.1 0) h
  simp only [h2] at h3
  simp [exOperator, vec1] at h3

/-- C12, amended: `dst` after `KKT_Operator::vmult` is a function only of the operator's
objective, constraint, design variables and `λ` and of `src`: two calls with these equal
produce equal `dst`, whatever `dst`, the scratch vector and the call counter held before.
Beside `dst` the call replaces the scratch vector by `Jᵗ·Δλ`, leaving the other members as
they were, and increments the call counter by one. -/
theorem C12_vmult_frame {n m : ℕ} (op : KKT_Operator n m) (k k2 : ℤ)
    (dst dst2 src : KKTVector n m) (t2 : Vector_SimOpt n m) :
    (op.vmult k dst src).dst
        = ({ op with temp_design_variables_size_vector_ := t2 }.vmult k2 dst2 src).dst
    ∧ (op.vmult k dst src).self
        = { op with temp_design_variables_size_vector_ := op.Jt src.2 }
    ∧ (op.vmult k dst src).number_of_times = k + 1 :=
  ⟨rfl, rfl, rfl⟩

/-! ## C13 -/

/-- For every argument, the constructor leaves the factory's secant in `secant_`. -/
theorem new_secant_eq_factory {σ : Type} {n m : ℕ}
    (LineSearchFactory : ParameterList → LineSearch n m)
    (SecantFactory : ParameterList → SecantObject σ n m) (parlist : ParameterList)
    (lineSearch : Option (LineSearch n m)) (secant : Option (SecantObject σ n m)) :
    (FullSpace_BirosGhattas.new LineSearchFactory SecantFactory parlist lineSearch
        secant).secant_ = some (SecantFactory parlist) :=
  rfl

/-- C13, at the example: constructed with the user's line search (step length `1/2`) and the
user's secant (`H = 1/2`), the step keeps the user's line search but holds the factory's secant
(`H = 1`), and it is the factory's secant that `applyH` of the resulting step object uses. -/
theorem C13_user_secant_replaced :
    Option.map (fun s => s.memory)
        (FullSpace_BirosGhattas.new exLineSearchFactory exSecantFactory exParameterList
          (some exLineSearch) (some exUserSecant)).secant_ = some 1
    ∧ exUserSecant.memory = 1 / 2
    ∧ Option.map (fun l => (l.run 0 0 0 0 0 0 0 0 0 ⟨0, 0⟩ exBounds).alpha)
        (FullSpace_BirosGhattas.new exLineSearchFactory exSecantFactory exParameterList
          (some exLineSearch) (some exUserSecant)).lineSearch_ = some (1 / 2)
    ∧ Option.map (fun s => s.secant_.applyH s.secant_memory (vec1 1) 0)
        ((FullSpace_BirosGhattas.new exLineSearchFactory exSecantFactory exParameterList
          (some exLineSearch) (some exUserSecant)).toStep exStep) = some 1
    ∧ exUserSecant.routines.applyH exUserSecant.memory (vec1 1) 0 = 1 / 2 := by
  refine ⟨rfl, rfl, rfl, ?_, ?_⟩
  · simp [FullSpace_BirosGhattas.new, ConstructorResult.toStep, set, exSecantFactory, exSecant,
      exLineSearch, vec1]
  · simp [exUserSecant, exSecant, vec1]

/-! ## C14 -/

/-- For every input, `compute` leaves `10` in `SPiter`. -/
theorem compute_SPiter_eq_ten {σ : Type} {n m : ℕ} (lib : Library n m)
    (self : FullSpace_BirosGhattas σ n m) (sd0 x : Vector_SimOpt n m) (lam : Vec n)
    (obj : Objective n m) (con : Constraint n m) (bc : BoundConstraint n m)
    (st : AlgorithmState n m) :
    (compute lib self sd0 x lam obj con bc st).self.state_.SPiter = 10 :=
  rfl

/-- C14, at the example: the Krylov solver of the example library performs one iteration on
every call, and `compute` stores `10` in `SPiter`. -/
theorem C14_SPiter_not_iterations :
    (∀ (A P : KKTVector 1 1 → KKTVector 1 1) (x0 b : KKTVector 1 1),
        (exLibrary.solver_fgmres A x0 b P).2 = 1)
    ∧ (compute exLibrary exStep 0 (vec1 1, vec1 1) (vec1 1) exObjective exConstraint
        (BoundConstraint.new 1 1).deactivate exAlgoState).self.state_.SPiter = 10 :=
  ⟨fun _ _ _ _ => rfl, rfl⟩

/-! ## C15 -/

/-- C15: on a heap of vectors, with `x` and `v` at addresses other than that of `self`:
after `sadd(a,b,x)` the vector of `self` is `a·self_old + b·x`; after `equ(a,x)` it is `a·x`;
`add_and_dot(a,x,v)` leaves `self_old + a·x` there and returns `(self_old + a·x)·v`;
`l2_norm` returns `sqrt(self·self)`. -/
theorem C15_adaptor_operations {V : Type} [Add V] [SMul ℚ V] [HasDot V] (sqrt : ℚ → ℚ)
    (heap : Heap V) (self x v : dealiiSolverVectorWrappingROL) (a b : ℚ)
    (hx : x.rol_vector_ptr ≠ self.rol_vector_ptr)
    (hv : v.rol_vector_ptr ≠ self.rol_vector_ptr) :
    self.getVector (self.sadd heap a b x)
        = a • self.getVector heap + b • x.getVector heap
    ∧ self.getVector (self.equ heap a x) = a • x.getVector heap
    ∧ self.getVector (self.add_and_dot heap a x v).1
        = self.getVector heap + a • x.getVector heap
    ∧ (self.add_and_dot heap a x v).2
        = dot (self.getVector heap + a • x.getVector heap) (v.getVector heap)
    ∧ self.l2_norm sqrt heap = sqrt (dot (self.getVector heap) (self.getVector heap)) := by
  refine ⟨?_, ?_, ?_, ?_, rfl⟩
  · simp [dealiiSolverVectorWrappingROL.sadd, dealiiSolverVectorWrappingROL.getVector, scale,
      axpy, Function.update_noteq hx]
  · simp [dealiiSolverVectorWrappingROL.equ, dealiiSolverVectorWrappingROL.getVector, scale,
      set]
  · simp [dealiiSolverVectorWrappingROL.add_and_dot, dealiiSolverVectorWrappingROL.add_scaled,
      dealiiSolverVectorWrappingROL.getVector, axpy]
  · simp [dealiiSolverVectorWrappingROL.add_and_dot, dealiiSolverVectorWrappingROL.add_scaled,
      dealiiSolverVectorWrappingROL.mul, dealiiSolverVectorWrappingROL.getVector, axpy,
      Function.update_noteq hv]

/-- Witness of C15 on the example heap, with `self`, `x`, `v` at addresses `0`, `1`, `2`. -/
theorem C15_adaptor_operations_witness :
    (⟨0⟩ : dealiiSolverVectorWrappingROL).getVector
        ((⟨0⟩ : dealiiSolverVectorWrappingROL).sadd exHeap 3 5 ⟨1⟩)
      = (3 : ℚ) • exHeap 0 + (5 : ℚ) • exHeap 1
    ∧ ((⟨0⟩ : dealiiSolverVectorWrappingROL).add_and_dot exHeap 3 ⟨1⟩ ⟨2⟩).2
      = dot (exHeap 0 + (3 : ℚ) • exHeap 1) (exHeap 2) :=
  have h := C15_adaptor_operations (fun q => q) exHeap ⟨0⟩ ⟨1⟩ ⟨2⟩ 3 5 (by decide) (by decide)
  ⟨h.1, h.2.2.2.1⟩

/-! ## C25 -/

/-- C25: if `applyInverseJacobian_1` and `applyInverseAdjointJacobian_1` invert the state
Jacobian `A = applyJacobian_1` and its adjoint exactly, the output `(s, d, z)` of
`KKT_P2_Preconditioner::vmult` on `(r1, r2, r3)` satisfies `A·s + B·d = 0` and `Aᵗ·z = r1`,
with `B = applyJacobian_2`. -/
theorem C25_P2_block_equations {σ : Type} {n m : ℕ} (P : KKT_P2_Preconditioner σ n m)
    (applyJacobian_1 applyAdjointJacobian_1 : Vec n → Vec n → Vec m → ℚ → Vec n)
    (hA : ∀ v : Vec n,
      applyJacobian_1
        (P.equal_constraints_.applyInverseJacobian_1 v P.simulation_variables_
          P.control_variables_ vmult_tol)
        P.simulation_variables_ P.control_variables_ vmult_tol = v)
    (hAt : ∀ v : Vec n,
      applyAdjointJacobian_1
        (P.equal_constraints_.applyInverseAdjointJacobian_1 v P.simulation_variables_
          P.control_variables_ vmult_tol)
        P.simulation_variables_ P.control_variables_ vmult_tol = v)
    (k : ℤ) (dst : KKTVector n m) (r1 : Vec n) (r2 : Vec m) (r3 : Vec n) :
    applyJacobian_1 (P.vmult k dst ((r1, r2), r3)).dst.1.1 P.simulation_variables_
          P.control_variables_ vmult_tol
        + P.equal_constraints_.applyJacobian_2 (P.vmult k dst ((r1, r2), r3)).dst.1.2
            P.simulation_variables_ P.control_variables_ vmult_tol = 0
    ∧ applyAdjointJacobian_1 (P.vmult k dst ((r1, r2), r3)).dst.2 P.simulation_variables_
          P.control_variables_ vmult_tol = r1 := by
  constructor
  · simp only [KKT_P2_Preconditioner.vmult, set, scale, plus, hA]
    simp
  · simp only [KKT_P2_Preconditioner.vmult, set, hAt]

/-- Witness of C25 on the example preconditioner, where `A = Aᵗ = 2` and the inverse solves
halve. -/
theorem C25_P2_block_equations_witness :
    (2 : ℚ) • (exPreconditioner.vmult 0 0 ((vec1 4, vec1 5), vec1 6)).dst.1.1
        + exPreconditioner.equal_constraints_.applyJacobian_2
            (exPreconditioner.vmult 0 0 ((vec1 4, vec1 5), vec1 6)).dst.1.2
            exPreconditioner.simulation_variables_ exPreconditioner.control_variables_
            vmult_tol = 0
    ∧ (2 : ℚ) • (exPreconditioner.vmult 0 0 ((vec1 4, vec1 5), vec1 6)).dst.2 = vec1 4 :=
  C25_P2_block_equations exPreconditioner (fun v _ _ _ => (2 : ℚ) • v)
    (fun v _ _ _ => (2 : ℚ) • v)
    (by intro v; funext i; simp [exPreconditioner, KKT_P2_Preconditioner.new, exConstraint])
    (by intro v; funext i; simp [exPreconditioner, KKT_P2_Preconditioner.new, exConstraint])
    0 0 (vec1 4) (vec1 5) (vec1 6)

/-! ## C26 -/

/-- C26: the output of `KKT_P2_Preconditioner::vmult` is the same for any two right-hand sides
with equal state block `r1` and control block `r2`, whatever their constraint blocks (and
whatever `dst` and the call counter held); and `Tvmult` leaves exactly what `vmult` leaves. -/
theorem C26_P2_ignores_r3 {σ : Type} {n m : ℕ} (P : KKT_P2_Preconditioner σ n m) (k k2 : ℤ)
    (dst dst2 : KKTVector n m) (r1 : Vec n) (r2 : Vec m) (r3 r3b : Vec n) :
    (P.vmult k dst ((r1, r2), r3)).dst = (P.vmult k2 dst2 ((r1, r2), r3b)).dst
    ∧ ∀ src : KKTVector n m, P.Tvmult k dst src = P.vmult k dst src :=
  ⟨rfl, fun _ => rfl⟩

end FullSpace

namespace SizeField

/-! ## Shared lemmas on the bisection loop -/

theorem XReal.lt_fin_fin (a b : ℚ) : XReal.lt (.fin a) (.fin b) = decide (a < b) := rfl

theorem XReal.mul_fin_fin (a b : ℚ) : XReal.mul (.fin a) (.fin b) = .fin (a * b) := rfl

theorem bisection_while_of_not_cond (func : ℚ → XReal) (fuel : ℕ) (s : BisectionState)
    (h : bisection_cond s = false) : bisection_while func fuel s = s := by
  cases fuel with
  | zero => rfl
  | succ k => simp [bisection_while, h]

theorem bisection_while_of_cond (func : ℚ → XReal) (fuel : ℕ) (s : BisectionState)
    (h : bisection_cond s = true) :
    bisection_while func (fuel + 1) s = bisection_while func fuel (bisection_body func s) := by
  simp [bisection_while, h]

theorem bisection_body_i (func : ℚ → XReal) (s : BisectionState) :
    (bisection_body func s).i = s.i + 1 := by
  unfold bisection_body
  split_ifs <;> rfl

theorem bisection_iterate_i (func : ℚ → XReal) (k : ℕ) (s : BisectionState) :
    ((bisection_body func)^[k] s).i = s.i + k := by
  induction k generalizing s with
  | zero => rfl
  | succ k ih =>
    rw [Function.iterate_succ_apply, ih, bisection_body_i]
    omega

/-- The loop with `fuel` passes allowed stops after some `j ≤ fuel` passes: the condition
held before each of them, and fails after them unless the fuel is used up. -/
theorem bisection_while_spec (func : ℚ → XReal) (fuel : ℕ) (s : BisectionState) :
    ∃ j, j ≤ fuel ∧ bisection_while func fuel s = (bisection_body func)^[j] s
      ∧ (∀ k, k < j → bisection_cond ((bisection_body func)^[k] s) = true)
      ∧ (j < fuel → bisection_cond ((bisection_body func)^[j] s) = false) := by
  induction fuel generalizing s with
  | zero => exact ⟨0, le_refl 0, rfl, fun k hk => absurd hk (Nat.not_lt_zero k), fun h => absurd h (lt_irrefl 0)⟩
  | succ n ih =>
    by_cases hc : bisection_cond s = true
    · obtain ⟨j, hj, hw, hbefore, hafter⟩ := ih (bisection_body func s)
      refine ⟨j + 1, Nat.succ_le_succ hj, ?_, ?_, ?_⟩
      · simp only [bisection_while, hc, if_true, Function.iterate_succ_apply, hw]
      · intro k hk
        cases k with
        | zero => exact hc
        | succ k =>
          rw [Function.iterate_succ_apply]
          exact hbefore k (Nat.lt_of_succ_lt_succ hk)
      · intro h
        rw [Function.iterate_succ_apply]
        exact hafter (Nat.lt_of_succ_lt_succ h)
    · have hc2 : bisection_cond s = false := by simpa using hc
      refine ⟨0, Nat.zero_le _, ?_, fun k hk => absurd hk (Nat.not_lt_zero k), fun _ => hc2⟩
      simp [bisection_while, hc2]

/-- With the `max_iter` passes it is given, the loop of `bisection` has left: its condition
fails in the state it ends in. -/
theorem bisection_while_exits (func : ℚ → XReal) (lb ub : ℚ) :
    bisection_cond (bisection_while func max_iter (bisection_init func lb ub)) = false := by
  obtain ⟨j, hj, hw, -, hafter⟩ := bisection_while_spec func max_iter (bisection_init func lb ub)
  rw [hw]
  rcases Nat.lt_or_ge j max_iter with h | h
  · exact hafter h
  · have hi := bisection_iterate_i func j (bisection_init func lb ub)
    have h0 : (bisection_init func lb ub).i = 0 := rfl
    simp only [bisection_cond, Bool.and_eq_false_imp, decide_eq_false_iff_not]
    intro _
    omega

/-! ## C16 -/

/-- C16, at `f(x) = x − 3` on `[0, 4]`: the bracket is valid (`f(0)·f(4) = −3`), the first
midpoint `2` has `f(2) = −1`, which is not above the tolerance, so `bisection` returns `2`
without a single pass of the loop, and `|f(2)| = 1`. -/
theorem C16_returns_far_from_root (debug : Bool) :
    (bisection debug exLinear 0 4).result = .ok 2
    ∧ (bisection debug exLinear 0 4).iterations = 0
    ∧ exLinear 2 = .fin (-1)
    ∧ ¬ |(-1 : ℚ)| < tolerance := by
  have hc : bisection_cond (bisection_init exLinear 0 4) = false := by
    norm_num [bisection_cond, bisection_init, exLinear, XReal.lt, tolerance]
  have hbr : XReal.lt ((exLinear 0).mul (exLinear 4)) (.fin 0) = true := by
    norm_num [exLinear, XReal.mul, XReal.lt]
  refine ⟨?_, ?_, ?_, ?_⟩
  · simp only [bisection, hbr, if_true, bisection_while_of_not_cond _ _ _ hc]
    norm_num [bisection_init, max_iter]
  · simp only [bisection, hbr, if_true, bisection_while_of_not_cond _ _ _ hc]
    norm_num [bisection_init, max_iter]
  · norm_num [exLinear]
  · norm_num [tolerance]

/-! ## C17 -/

/-- One pass of the loop keeps the bracket inside `[a, b]`, keeps `x` at its midpoint and
halves its width. -/
theorem bisection_body_bracket (func : ℚ → XReal) (s : BisectionState) (a b : ℚ)
    (h : a ≤ s.lower_bound ∧ s.lower_bound ≤ s.upper_bound ∧ s.upper_bound ≤ b
      ∧ s.x = (s.lower_bound + s.upper_bound) / 2) :
    (a ≤ (bisection_body func s).lower_bound
      ∧ (bisection_body func s).lower_bound ≤ (bisection_body func s).upper_bound
      ∧ (bisection_body func s).upper_bound ≤ b
      ∧ (bisection_body func s).x
          = ((bisection_body func s).lower_bound + (bisection_body func s).upper_bound) / 2)
    ∧ (bisection_body func s).upper_bound - (bisection_body func s).lower_bound
        = (s.upper_bound - s.lower_bound) / 2 := by
  obtain ⟨h1, h2, h3, h4⟩ := h
  unfold bisection_body
  split_ifs
  · simp only
    refine ⟨⟨h1, ?_, ?_, trivial⟩, ?_⟩ <;> rw [h4] <;> linarith
  · simp only
    refine ⟨⟨?_, ?_, h3, trivial⟩, ?_⟩ <;> rw [h4] <;> linarith

/-- After `k` passes the bracket lies inside `[a, b]`, has width `(b − a) / 2^k`, and `x` is
its midpoint. -/
theorem bisection_iterate_bracket (func : ℚ → XReal) (a b : ℚ) (hab : a ≤ b) (k : ℕ) :
    (a ≤ ((bisection_body func)^[k] (bisection_init func a b)).lower_bound
      ∧ ((bisection_body func)^[k] (bisection_init func a b)).lower_bound
          ≤ ((bisection_body func)^[k] (bisection_init func a b)).upper_bound
      ∧ ((bisection_body func)^[k] (bisection_init func a b)).upper_bound ≤ b
      ∧ ((bisection_body func)^[k] (bisection_init func a b)).x
          = (((bisection_body func)^[k] (bisection_init func a b)).lower_bound
              + ((bisection_body func)^[k] (bisection_init func a b)).upper_bound) / 2)
    ∧ ((bisection_body func)^[k] (bisection_init func a b)).upper_bound
        - ((bisection_body func)^[k] (bisection_init func a b)).lower_bound
        = (b - a) / 2 ^ k := by
  induction k with
  | zero =>
    simp only [Function.iterate_zero, id_eq, pow_zero, div_one]
    exact ⟨⟨le_refl a, hab, le_refl b, rfl⟩, rfl⟩
  | succ k ih =>
    rw [Function.iterate_succ_apply']
    obtain ⟨hinv, hw⟩ := bisection_body_bracket func _ a b ih.1
    refine ⟨hinv, ?_⟩
    rw [hw, ih.2, pow_succ]
    field_simp

/-- C17: for every `f` and `a ≤ b` with `f(a)·f(b) < 0`, a value returned by
`bisection(f, a, b)` lies in `[a, b]`; the loop body runs at most 1000 times; the state the
loop ends in is the one after that many passes, and after any number `k` of passes the
bracket `[lower_bound, upper_bound]` lies inside `[a, b]` and has width `(b − a) / 2^k`, half
of the width before the pass. -/
theorem C17_bisection_bracket (debug : Bool) (func : ℚ → XReal) (a b : ℚ) (hab : a ≤ b)
    (hbr : XReal.lt ((func a).mul (func b)) (.fin 0) = true) :
    (∀ x, (bisection debug func a b).result = .ok x → a ≤ x ∧ x ≤ b)
    ∧ (bisection debug func a b).iterations ≤ 1000
    ∧ bisection_while func max_iter (bisection_init func a b)
        = (bisection_body func)^[(bisection debug func a b).iterations]
            (bisection_init func a b)
    ∧ ∀ k, a ≤ ((bisection_body func)^[k] (bisection_init func a b)).lower_bound
        ∧ ((bisection_body func)^[k] (bisection_init func a b)).lower_bound
            ≤ ((bisection_body func)^[k] (bisection_init func a b)).upper_bound
        ∧ ((bisection_body func)^[k] (bisection_init func a b)).upper_bound ≤ b
        ∧ ((bisection_body func)^[k] (bisection_init func a b)).upper_bound
            - ((bisection_body func)^[k] (bisection_init func a b)).lower_bound
            = (b - a) / 2 ^ k := by
  obtain ⟨j, hj, hw, -, -⟩ := bisection_while_spec func max_iter (bisection_init func a b)
  have hi : (bisection_while func max_iter (bisection_init func a b)).i = j := by
    rw [hw, bisection_iterate_i]
    simp [bisection_init]
  have hiter : (bisection debug func a b).iterations = j := by
    simp only [bisection, hbr, if_true]
    split_ifs <;> exact hi
  refine ⟨?_, ?_, ?_, ?_⟩
  · intro x hx
    have hxeq : x = (bisection_while func max_iter (bisection_init func a b)).x := by
      simp only [bisection, hbr, if_true] at hx
      split_ifs at hx
      cases hx
      rfl
    obtain ⟨⟨h1, h2, h3, h4⟩, -⟩ := bisection_iterate_bracket func a b hab j
    rw [hxeq, hw, h4]
    constructor <;> linarith
  · rw [hiter]
    exact hj
  · rw [hiter]
    exact hw
  · intro k
    obtain ⟨⟨h1, h2, h3, -⟩, h5⟩ := bisection_iterate_bracket func a b hab k
    exact ⟨h1, h2, h3, h5⟩

/-- The run of `bisection` on `f(x) = 7/2 − x` and `[0, 4]`: the midpoints `2` and `3` have
`f` above the tolerance and move the lower bound, the midpoint `7/2` is the root. -/
theorem exDecreasing_while :
    bisection_while exDecreasing max_iter (bisection_init exDecreasing 0 4)
      = { lower_bound := 3, upper_bound := 4, f_lb := .fin (1 / 2), f_ub := .fin (-1 / 2),
          x := 7 / 2, f_x := .fin 0, i := 2, evaluations := [0, 4, 2, 3, 7 / 2] } := by
  have h0 : bisection_cond (bisection_init exDecreasing 0 4) = true := by
    norm_num [bisection_cond, bisection_init, exDecreasing, XReal.lt, tolerance, max_iter]
  have s1 : bisection_body exDecreasing (bisection_init exDecreasing 0 4)
      = { lower_bound := 2, upper_bound := 4, f_lb := .fin (3 / 2), f_ub := .fin (-1 / 2),
          x := 3, f_x := .fin (1 / 2), i := 1, evaluations := [0, 4, 2, 3] } := by
    norm_num [bisection_body, bisection_init, exDecreasing, XReal.mul, XReal.lt]
  have h1 : bisection_cond
      { lower_bound := 2, upper_bound := 4, f_lb := .fin (3 / 2), f_ub := .fin (-1 / 2),
        x := 3, f_x := .fin (1 / 2), i := 1, evaluations := [0, 4, 2, 3] } = true := by
    norm_num [bisection_cond, XReal.lt, tolerance, max_iter]
  have s2 : bisection_body exDecreasing
      { lower_bound := 2, upper_bound := 4, f_lb := .fin (3 / 2), f_ub := .fin (-1 / 2),
        x := 3, f_x := .fin (1 / 2), i := 1, evaluations := [0, 4, 2, 3] }
      = { lower_bound := 3, upper_bound := 4, f_lb := .fin (1 / 2), f_ub := .fin (-1 / 2),
          x := 7 / 2, f_x := .fin 0, i := 2, evaluations := [0, 4, 2, 3, 7 / 2] } := by
    norm_num [bisection_body, exDecreasing, XReal.mul, XReal.lt]
  have h2 : bisection_cond
      { lower_bound := 3, upper_bound := 4, f_lb := .fin (1 / 2), f_ub := .fin (-1 / 2),
        x := 7 / 2, f_x := .fin 0, i := 2, evaluations := [0, 4, 2, 3, 7 / 2] } = false := by
    norm_num [bisection_cond, XReal.lt, tolerance]
  have hfuel : max_iter = 998 + 1 + 1 := rfl
  rw [hfuel, bisection_while_of_cond _ _ _ h0, s1, bisection_while_of_cond _ _ _ h1, s2,
    bisection_while_of_not_cond _ _ _ h2]

/-- Witness of C17 at `f(x) = 7/2 − x` on `[0, 4]`, where the loop makes two passes and
`bisection` returns `7/2`: the returned value lies in `[0, 4]`, the loop ended after the two
passes in the bracket `[3, 4]`, of width `4 / 2^2`, and after every number of passes the
bracket lies in `[0, 4]` with the halved width. -/
theorem C17_bisection_bracket_witness :
    (0 : ℚ) ≤ 4
    ∧ XReal.lt ((exDecreasing 0).mul (exDecreasing 4)) (.fin 0) = true
    ∧ (bisection true exDecreasing 0 4).result = .ok (7 / 2)
    ∧ (bisection true exDecreasing 0 4).iterations = 2
    ∧ ((0 : ℚ) ≤ 7 / 2 ∧ (7 / 2 : ℚ) ≤ 4)
    ∧ ((bisection_body exDecreasing)^[2] (bisection_init exDecreasing 0 4)).lower_bound = 3
    ∧ ((bisection_body exDecreasing)^[2] (bisection_init exDecreasing 0 4)).upper_bound = 4
    ∧ ∀ k, 0 ≤ ((bisection_body exDecreasing)^[k] (bisection_init exDecreasing 0 4)).lower_bound
        ∧ ((bisection_body exDecreasing)^[k] (bisection_init exDecreasing 0 4)).lower_bound
            ≤ ((bisection_body exDecreasing)^[k] (bisection_init exDecreasing 0 4)).upper_bound
        ∧ ((bisection_body exDecreasing)^[k] (bisection_init exDecreasing 0 4)).upper_bound ≤ 4
        ∧ ((bisection_body exDecreasing)^[k] (bisection_init exDecreasing 0 4)).upper_bound
            - ((bisection_body exDecreasing)^[k] (bisection_init exDecreasing 0 4)).lower_bound
            = (4 - 0) / 2 ^ k := by
  have hbr : XReal.lt ((exDecreasing 0).mul (exDecreasing 4)) (.fin 0) = true := by
    norm_num [exDecreasing, XReal.mul, XReal.lt]
  have hres : (bisection true exDecreasing 0 4).result = .ok (7 / 2) := by
    simp only [bisection, hbr, if_true, exDecreasing_while]
    norm_num [max_iter]
  have hit : (bisection true exDecreasing 0 4).iterations = 2 := by
    simp only [bisection, hbr, if_true, exDecreasing_while]
    norm_num [max_iter]
  obtain ⟨hin, -, hwhile, hall⟩ :=
    C17_bisection_bracket true exDecreasing 0 4 (by norm_num) hbr
  rw [hit, exDecreasing_while] at hwhile
  refine ⟨by norm_num, hbr, hres, hit, hin _ hres, ?_, ?_, hall⟩
  · rw [← hwhile]
  · rw [← hwhile]

/-! ## C18 -/

theorem exMeshGeneric_update_h_optimal (other : XReal → XReal → XReal) (h0 : Fin 1 → XReal)
    (lam : XReal) :
    update_h_optimal 2 (rpow_ieee other) lam exMeshGeneric h0 = fun _ => .nan := by
  funext i
  have hcomp : (((((XReal.fin 2).mul ((XReal.fin 1).add (.fin 1))).div
      (((XReal.fin 2).mul ((XReal.fin 1).add (.fin 1))).add (.fin 2))).mul (.fin 1)).div
      (pow (rpow_ieee other) ((XReal.fin 1).add (.fin 1)) (.fin ((2 : ℕ) : ℚ))))
      = .fin (1 / 6) := by
    simp only [XReal.add, XReal.mul, XReal.div, pow]
    norm_num [XReal.toNat?, XReal.npow, XReal.mul, XReal.div]
  have hexp : (XReal.fin (-1)).div
      (((XReal.fin 2).mul ((XReal.fin 1).add (.fin 1))).add (.fin 2)) = .fin (-1 / 6) := by
    simp only [XReal.add, XReal.mul, XReal.div]
    norm_num
  have hpow : pow (rpow_ieee other) (.fin (-1 / 6)) (.fin (1 / 6)) = .nan := by
    have hden : ¬ ((1 / 6 : ℚ).den = 1 ∧ 0 ≤ (1 / 6 : ℚ).num) := by
      intro h
      exact absurd h.1 (by norm_num)
    simp only [pow, XReal.toNat?, if_neg hden, rpow_ieee]
    rw [if_pos]
    exact ⟨by norm_num, by norm_num⟩
  simp only [update_h_optimal, exMeshGeneric, hcomp, hexp, hpow]
  cases lam <;> rfl

theorem exMeshGeneric_f_nan (other : XReal → XReal → XReal) (h0 : Fin 1 → XReal) (lam : ℚ) :
    isotropic_h_f 2 (rpow_ieee other) 1 exMeshGeneric h0 lam = .nan := by
  have hrange : List.finRange 1 = [0] := rfl
  simp only [isotropic_h_f, exMeshGeneric_update_h_optimal]
  simp only [evaluate_complexity, hrange, List.foldl, XReal.div, pow]
  norm_num [XReal.toNat?, XReal.npow, XReal.mul, XReal.add, XReal.sub]

/-- An exact root at one bound makes the product of the two values zero or NaN, never
negative. -/
theorem XReal.lt_mul_zero_left (y : XReal) :
    XReal.lt ((XReal.fin 0).mul y) (.fin 0) = false := by
  cases y <;> simp [XReal.mul, XReal.infTimes, XReal.lt]

theorem XReal.lt_mul_zero_right (y : XReal) :
    XReal.lt (y.mul (.fin 0)) (.fin 0) = false := by
  cases y <;> simp [XReal.mul, XReal.infTimes, XReal.lt]

/-- C18 as stated fails: for the function `isotropic_h` bisects on a mesh of one cell with
`B = 1`, degree `1` and measure `1` (`dim = 2`, target complexity `1`), which is NaN at every
`λ`, `bisection` raises the error of its bracket check, yet `f(0)·f(1000) ≥ 0` does not hold:
the product is NaN. -/
theorem C18_counterexample :
    (bisection true
        (isotropic_h_f 2 (rpow_ieee (fun _ _ => .fin 1)) 1 exMeshGeneric (fun _ => .fin 1))
        0 1000).result = .error .bracket
    ∧ (isotropic_h_f 2 (rpow_ieee (fun _ _ => .fin 1)) 1 exMeshGeneric (fun _ => .fin 1) 0).mul
        (isotropic_h_f 2 (rpow_ieee (fun _ _ => .fin 1)) 1 exMeshGeneric (fun _ => .fin 1) 1000)
        = .nan
    ∧ XReal.le (.fin 0)
        ((isotropic_h_f 2 (rpow_ieee (fun _ _ => .fin 1)) 1 exMeshGeneric
            (fun _ => .fin 1) 0).mul
          (isotropic_h_f 2 (rpow_ieee (fun _ _ => .fin 1)) 1 exMeshGeneric
            (fun _ => .fin 1) 1000)) = false := by
  have hnan := exMeshGeneric_f_nan (fun _ _ => .fin 1) (fun _ => .fin 1)
  refine ⟨?_, ?_, ?_⟩
  · have hbr : XReal.lt
        ((isotropic_h_f 2 (rpow_ieee (fun _ _ => .fin 1)) 1 exMeshGeneric
            (fun _ => .fin 1) 0).mul
          (isotropic_h_f 2 (rpow_ieee (fun _ _ => .fin 1)) 1 exMeshGeneric
            (fun _ => .fin 1) 1000)) (.fin 0) = false := by
      rw [hnan, hnan]
      rfl
    simp only [bisection, hbr, Bool.false_eq_true, if_false]
  · rw [hnan, hnan]
    rfl
  · rw [hnan, hnan]
    rfl

/-- C18, amended: for every `f`, with values that may be infinite or NaN, `bisection` raises
the error of its bracket check exactly when the test `f(lower_bound)·f(upper_bound) < 0` is
false; `func` has then been called at the two bounds only, at no midpoint. For finite values
at the bounds this is exactly `f(lower_bound)·f(upper_bound) ≥ 0`; it is the case whenever a
bound is an exact root, and whenever a value at a bound is NaN. -/
theorem C18_bracket_error_iff (debug : Bool) (func : ℚ → XReal) (lb ub : ℚ) :
    ((bisection debug func lb ub).result = .error .bracket
        ↔ XReal.lt ((func lb).mul (func ub)) (.fin 0) = false)
    ∧ ((bisection debug func lb ub).result = .error .bracket →
        (bisection debug func lb ub).evaluations = [lb, ub])
    ∧ (∀ a b : ℚ, func lb = .fin a → func ub = .fin b →
        ((bisection debug func lb ub).result = .error .bracket ↔ 0 ≤ a * b))
    ∧ (func lb = .fin 0 ∨ func ub = .fin 0 →
        (bisection debug func lb ub).result = .error .bracket)
    ∧ (func lb = .nan ∨ func ub = .nan →
        (bisection debug func lb ub).result = .error .bracket) := by
  have key : (bisection debug func lb ub).result = .error .bracket
      ↔ XReal.lt ((func lb).mul (func ub)) (.fin 0) = false := by
    cases h : XReal.lt ((func lb).mul (func ub)) (.fin 0) with
    | true =>
      simp only [bisection, h, if_true]
      constructor
      · intro hr
        split_ifs at hr
        cases hr
      · intro h0
        cases h0
    | false =>
      simp only [bisection, h, Bool.false_eq_true, if_false]
  refine ⟨key, ?_, ?_, ?_, ?_⟩
  · intro hr
    have hlt := key.mp hr
    simp only [bisection, hlt, Bool.false_eq_true, if_false]
  · intro a b ha hb
    rw [key, ha, hb]
    simp [XReal.mul, XReal.lt]
  · intro hroot
    apply key.mpr
    rcases hroot with h | h
    · rw [h]
      exact XReal.lt_mul_zero_left _
    · rw [h]
      exact XReal.lt_mul_zero_right _
  · intro hnan
    apply key.mpr
    rcases hnan with h | h
    · rw [h]
      cases func ub <;> rfl
    · rw [h]
      cases func lb <;> rfl

/-! ## C19 -/

/-- With a valid bracket and `Assert` compiled in, `bisection` raises the error of its
iteration check exactly when the loop condition held before each of `max_iter` passes. -/
theorem bisection_error_iterations_iff (func : ℚ → XReal) (a b : ℚ)
    (hbr : XReal.lt ((func a).mul (func b)) (.fin 0) = true) :
    (bisection true func a b).result = .error .iterations
      ↔ ∀ k, k < max_iter →
          XReal.lt (.fin tolerance) ((bisection_body func)^[k] (bisection_init func a b)).f_x
            = true := by
  obtain ⟨j, hj, hw, hbefore, hafter⟩ :=
    bisection_while_spec func max_iter (bisection_init func a b)
  have hik : ∀ k, ((bisection_body func)^[k] (bisection_init func a b)).i = k := by
    intro k
    rw [bisection_iterate_i]
    simp [bisection_init]
  have hres : (bisection true func a b).result = .error .iterations ↔ j = max_iter := by
    simp only [bisection, hbr, if_true, hw, hik, Bool.true_and]
    split_ifs with h
    · simp only [Bool.not_eq_true', decide_eq_false_iff_not, not_lt] at h
      exact ⟨fun _ => le_antisymm hj h, fun _ => rfl⟩
    · simp only [Bool.not_eq_true', decide_eq_false_iff_not, not_lt, not_le] at h
      constructor
      · intro hr
        cases hr
      · intro hjm
        omega
  rw [hres]
  constructor
  · intro hjm k hk
    have hc := hbefore k (hjm ▸ hk)
    simp only [bisection_cond, Bool.and_eq_true] at hc
    exact hc.1
  · intro hall
    by_contra hne
    have hlt : j < max_iter := lt_of_le_of_ne hj hne
    have hc := hafter hlt
    have h1 := hall j hlt
    simp only [bisection_cond, h1, hik, Bool.true_and, decide_eq_false_iff_not] at hc
    exact hc hlt

theorem exStepFunction_of_gt (x : ℚ) (h : 1 / 2 ^ 1001 < x) : exStepFunction x = .fin 1 := by
  have hpos : (0 : ℚ) < x := lt_trans (by positivity) h
  simp only [exStepFunction, if_neg (not_le.mpr hpos), if_neg (not_le.mpr h)]

theorem exStepFunction_pow (k : ℕ) (hk : k < 1001) : exStepFunction (1 / 2 ^ k) = .fin 1 :=
  exStepFunction_of_gt _
    (one_div_lt_one_div_of_lt (by positivity) (pow_lt_pow_right₀ (by norm_num) hk))

/-- The states of the loop on the step function over `[0, 1]`: after `k ≤ 1000` passes the
bracket is `[0, 2^-k]` and `x = 2^-(k+1)`. -/
theorem exStepFunction_iterate (k : ℕ) (hk : k ≤ 1000) :
    ((bisection_body exStepFunction)^[k] (bisection_init exStepFunction 0 1)).lower_bound = 0
    ∧ ((bisection_body exStepFunction)^[k] (bisection_init exStepFunction 0 1)).upper_bound
        = 1 / 2 ^ k
    ∧ ((bisection_body exStepFunction)^[k] (bisection_init exStepFunction 0 1)).f_lb
        = .fin (-1)
    ∧ ((bisection_body exStepFunction)^[k] (bisection_init exStepFunction 0 1)).x
        = 1 / 2 ^ (k + 1)
    ∧ ((bisection_body exStepFunction)^[k] (bisection_init exStepFunction 0 1)).f_x
        = exStepFunction (1 / 2 ^ (k + 1)) := by
  induction k with
  | zero =>
    refine ⟨rfl, by simp [bisection_init], ?_, ?_, ?_⟩
    · simp [bisection_init, exStepFunction]
    · simp [bisection_init]
    · simp [bisection_init]
  | succ k ih =>
    obtain ⟨h1, h2, h3, h4, h5⟩ := ih (Nat.le_of_succ_le hk)
    have hfx : exStepFunction (1 / 2 ^ (k + 1)) = .fin 1 :=
      exStepFunction_pow (k + 1) (by omega)
    rw [Function.iterate_succ_apply']
    have hbranch : XReal.lt
        (((bisection_body exStepFunction)^[k] (bisection_init exStepFunction 0 1)).f_x.mul
          ((bisection_body exStepFunction)^[k] (bisection_init exStepFunction 0 1)).f_lb)
        (.fin 0) = true := by
      rw [h5, hfx, h3]
      simp [XReal.mul, XReal.lt]
    have hx : (0 + (1 : ℚ) / 2 ^ (k + 1)) / 2 = 1 / 2 ^ (k + 1 + 1) := by
      rw [zero_add, pow_succ 2 (k + 1)]
      field_simp
    simp only [bisection_body, hbranch, if_true, h1, h4, hx]
    exact ⟨trivial, trivial, h3, trivial, trivial⟩

/-- C19 as stated fails: on the step function over `[0, 1]` the bracket is valid and the
midpoint `2^-1001` computed in pass 1000 has `f = 0`, below the tolerance, yet with `Assert`
compiled in `bisection` raises the error of its iteration check; with `Assert` compiled out it
returns that midpoint. -/
theorem C19_counterexample :
    XReal.lt ((exStepFunction 0).mul (exStepFunction 1)) (.fin 0) = true
    ∧ ((bisection_body exStepFunction)^[1000] (bisection_init exStepFunction 0 1)).f_x = .fin 0
    ∧ XReal.lt (.fin tolerance) (.fin 0) = false
    ∧ (bisection true exStepFunction 0 1).result = .error .iterations
    ∧ (bisection false exStepFunction 0 1).result = .ok (1 / 2 ^ 1001) := by
  have hbr : XReal.lt ((exStepFunction 0).mul (exStepFunction 1)) (.fin 0) = true := by
    have e0 : exStepFunction 0 = .fin (-1) := by simp [exStepFunction]
    have e1 : exStepFunction 1 = .fin 1 := by
      have := exStepFunction_pow 0 (by norm_num)
      simpa using this
    rw [e0, e1]
    simp [XReal.mul, XReal.lt]
  have hlast := exStepFunction_iterate 1000 (le_refl _)
  have e1001 : (1000 + 1 : ℕ) = 1001 := rfl
  rw [e1001] at hlast
  have hf0 : exStepFunction (1 / 2 ^ 1001) = .fin 0 := by
    have hpos : ¬ (1 : ℚ) / 2 ^ 1001 ≤ 0 := not_le.mpr (by positivity)
    rw [exStepFunction, if_neg hpos, if_pos (le_refl _)]
  have hall : ∀ k, k < max_iter →
      XReal.lt (.fin tolerance)
        ((bisection_body exStepFunction)^[k] (bisection_init exStepFunction 0 1)).f_x
          = true := by
    intro k hk
    have hk2 : k + 1 < 1001 := by
      simp only [max_iter] at hk
      omega
    rw [(exStepFunction_iterate k (by omega)).2.2.2.2, exStepFunction_pow (k + 1) hk2]
    norm_num [XReal.lt, tolerance]
  have herr := (bisection_error_iterations_iff exStepFunction 0 1 hbr).mpr hall
  refine ⟨hbr, ?_, ?_, herr, ?_⟩
  · rw [hlast.2.2.2.2, hf0]
  · norm_num [XReal.lt, tolerance]
  · obtain ⟨j, hj, hw, hbefore, hafter⟩ :=
      bisection_while_spec exStepFunction max_iter (bisection_init exStepFunction 0 1)
    have hjm : j = max_iter := by
      by_contra hne
      have hlt : j < max_iter := lt_of_le_of_ne hj hne
      have hc := hafter hlt
      have h1 := hall j hlt
      have hi := bisection_iterate_i exStepFunction j (bisection_init exStepFunction 0 1)
      have h0 : (bisection_init exStepFunction 0 1).i = 0 := rfl
      simp only [bisection_cond, h1, hi, h0, Bool.true_and, decide_eq_false_iff_not] at hc
      omega
    rw [hjm] at hw
    simp only [bisection, hbr, if_true, Bool.false_and, Bool.false_eq_true, if_false, hw]
    have hx := hlast.2.2.2.1
    simp only [max_iter]
    rw [hx]

/-- C19, amended: with a valid bracket and `Assert` compiled in, `bisection` raises the error
of its iteration check if and only if none of the first 1000 midpoints (those computed before
pass 1000) has `f ≤ 1e-6`, whatever the value at the midpoint of pass 1000; it returns
normally when one of them has; and with `Assert` compiled out it returns normally in every
case. -/
theorem C19_iteration_error_iff (func : ℚ → XReal) (a b : ℚ)
    (hbr : XReal.lt ((func a).mul (func b)) (.fin 0) = true) :
    ((bisection true func a b).result = .error .iterations
      ↔ ∀ k, k < 1000 →
          XReal.lt (.fin tolerance) ((bisection_body func)^[k] (bisection_init func a b)).f_x
            = true)
    ∧ ((∃ k, k < 1000 ∧
          XReal.lt (.fin tolerance) ((bisection_body func)^[k] (bisection_init func a b)).f_x
            = false) →
        ∃ x, (bisection true func a b).result = .ok x)
    ∧ ∃ x, (bisection false func a b).result = .ok x := by
  have hiff := bisection_error_iterations_iff func a b hbr
  refine ⟨hiff, ?_, ?_⟩
  · rintro ⟨k, hk, hfalse⟩
    have hne : (bisection true func a b).result ≠ .error .iterations := by
      intro herr
      have := hiff.mp herr k hk
      rw [hfalse] at this
      cases this
    simp only [bisection, hbr, if_true] at hne ⊢
    split_ifs at hne ⊢ with h
    · exact absurd rfl hne
    · exact ⟨_, rfl⟩
  · simp only [bisection, hbr, if_true, Bool.false_and, Bool.false_eq_true, if_false]
    exact ⟨_, rfl⟩

/-- Witness of C19 at `f(x) = x − 3` on `[0, 4]`, where the first midpoint is below the
tolerance. -/
theorem C19_iteration_error_iff_witness :
    XReal.lt ((exLinear 0).mul (exLinear 4)) (.fin 0) = true
    ∧ ∃ x, (bisection false exLinear 0 4).result = .ok x :=
  have hbr : XReal.lt ((exLinear 0).mul (exLinear 4)) (.fin 0) = true := by
    norm_num [exLinear, XReal.mul, XReal.lt]
  ⟨hbr, (C19_iteration_error_iff exLinear 0 4 hbr).2.2⟩

/-! ## C20 -/

theorem exMesh_update_h_optimal (rpow : XReal → XReal → XReal) (h0 : Fin 1 → XReal) (lam : ℚ) :
    update_h_optimal 2 rpow (.fin lam) exMesh h0 = fun _ => .fin (lam / 16) := by
  funext i
  simp only [update_h_optimal, exMesh, XReal.add, XReal.mul, XReal.div, pow]
  norm_num [XReal.toNat?, XReal.npow, XReal.mul, XReal.div]
  ring

theorem exMesh_evaluate_complexity (rpow : XReal → XReal → XReal) (h : ℚ) (hh : h ≠ 0) :
    evaluate_complexity 2 rpow exMesh (fun _ => .fin h) = .fin ((1 / h) ^ 2) := by
  have hrange : List.finRange 1 = [0] := rfl
  simp only [evaluate_complexity, hrange, List.foldl, exMesh, XReal.add, XReal.div, pow]
  norm_num [XReal.toNat?, XReal.npow, XReal.mul, XReal.add, hh]
  ring

theorem exMesh_f_zero (rpow : XReal → XReal → XReal) (h0 : Fin 1 → XReal) :
    isotropic_h_f 2 rpow 1 exMesh h0 0 = .posInf := by
  have hrange : List.finRange 1 = [0] := rfl
  simp only [isotropic_h_f, exMesh_update_h_optimal, zero_div]
  simp only [evaluate_complexity, hrange, List.foldl, exMesh, XReal.add, XReal.div, pow]
  norm_num [XReal.toNat?, XReal.npow, XReal.mul, XReal.add, XReal.sub, XReal.neg,
    XReal.infTimes]

theorem exMesh_f (rpow : XReal → XReal → XReal) (h0 : Fin 1 → XReal) (lam : ℚ)
    (hlam : lam ≠ 0) :
    isotropic_h_f 2 rpow 1 exMesh h0 lam = .fin ((16 / lam) ^ 2 - 1) := by
  have h16 : lam / 16 ≠ 0 := div_ne_zero hlam (by norm_num)
  simp only [isotropic_h_f, exMesh_update_h_optimal, exMesh_evaluate_complexity rpow _ h16,
    XReal.sub, XReal.neg, XReal.add]
  congr 1
  field_simp
  ring

/-- C20, at one cell with `B = 4`, degree `0` and measure `1`, `dim = 2` and target complexity
`1`: the complexity is `256/λ² − 1` above the target, infinite at `λ = 0` and negative at
`λ = 1000`, so the bracket is valid; the first midpoint `λ = 500` is not above the tolerance,
so `isotropic_h` returns with `h = 500/16 = 31.25`, whose complexity is `0.001024`, not `1`. -/
theorem C20_complexity_off_target (debug : Bool) (rpow : XReal → XReal → XReal)
    (h0 : Fin 1 → XReal) :
    isotropic_h debug 2 rpow 1 exMesh h0 = .ok (fun _ => .fin (125 / 4))
    ∧ evaluate_complexity 2 rpow exMesh (fun _ => .fin (125 / 4)) = .fin (16 / 15625)
    ∧ ¬ |(16 / 15625 : ℚ) - 1| ≤ tolerance := by
  have hbr : XReal.lt ((isotropic_h_f 2 rpow 1 exMesh h0 0).mul
      (isotropic_h_f 2 rpow 1 exMesh h0 1000)) (.fin 0) = true := by
    rw [exMesh_f_zero, exMesh_f rpow h0 1000 (by norm_num)]
    norm_num [XReal.mul, XReal.infTimes, XReal.lt]
  have hc : bisection_cond (bisection_init (isotropic_h_f 2 rpow 1 exMesh h0) 0 1000)
      = false := by
    have h500 : ((0 : ℚ) + 1000) / 2 = 500 := by norm_num
    simp only [bisection_cond, bisection_init, h500, exMesh_f rpow h0 500 (by norm_num)]
    norm_num [XReal.lt, tolerance]
  have hres : (bisection debug (isotropic_h_f 2 rpow 1 exMesh h0) 0 1000).result = .ok 500 := by
    simp only [bisection, hbr, if_true, bisection_while_of_not_cond _ _ _ hc]
    norm_num [bisection_init, max_iter]
  refine ⟨?_, ?_, ?_⟩
  · simp only [isotropic_h, hres, exMesh_update_h_optimal]
    norm_num
  · rw [exMesh_evaluate_complexity rpow _ (by norm_num)]
    norm_num
  · norm_num [tolerance, abs_le]

/-! ## C21 -/

/-- C21, at one cell with `B = 1`, degree `1` and measure `1`, `dim = 2` and target complexity
`1`: `update_h_optimal` raises the negative base `−1/6` to the power `1/6`, which is NaN, so
the bisected function is NaN at every `λ`: no two of its values are ordered, its values at `0`
and `1000` have no product below zero, and `isotropic_h` fails on the bracket check. -/
theorem C21_bisected_function_is_nan (debug : Bool) (other : XReal → XReal → XReal)
    (h0 : Fin 1 → XReal) :
    (∀ lam : ℚ, isotropic_h_f 2 (rpow_ieee other) 1 exMeshGeneric h0 lam = .nan)
    ∧ (∀ lam1 lam2 : ℚ,
        XReal.le (isotropic_h_f 2 (rpow_ieee other) 1 exMeshGeneric h0 lam1)
          (isotropic_h_f 2 (rpow_ieee other) 1 exMeshGeneric h0 lam2) = false)
    ∧ XReal.lt ((isotropic_h_f 2 (rpow_ieee other) 1 exMeshGeneric h0 0).mul
          (isotropic_h_f 2 (rpow_ieee other) 1 exMeshGeneric h0 1000)) (.fin 0) = false
    ∧ isotropic_h debug 2 (rpow_ieee other) 1 exMeshGeneric h0 = .error .bracket := by
  have hnan := exMeshGeneric_f_nan other h0
  refine ⟨hnan, ?_, ?_, ?_⟩
  · intro lam1 lam2
    rw [hnan, hnan]
    rfl
  · rw [hnan, hnan]
    rfl
  · have hbr : XReal.lt ((isotropic_h_f 2 (rpow_ieee other) 1 exMeshGeneric h0 0).mul
          (isotropic_h_f 2 (rpow_ieee other) 1 exMeshGeneric h0 1000)) (.fin 0) = false := by
      rw [hnan, hnan]
      rfl
    simp only [isotropic_h, bisection, hbr, Bool.false_eq_true, if_false]

/-! ## C22 -/

theorem foldl_add_eq_sum {R : Type} [AddCommMonoid R] {N : ℕ} (f : Fin N → R) :
    (List.finRange N).foldl (fun acc i => acc + f i) 0 = ∑ i, f i := by
  have h : ∀ (l : List (Fin N)) (a : R),
      l.foldl (fun acc i => acc + f i) a = a + (l.map f).sum := by
    intro l
    induction l with
    | nil => intro a; simp
    | cons x xs ih => intro a; simp [List.foldl, ih, add_assoc]
  rw [h, zero_add, ← List.ofFn_eq_map, List.sum_ofFn]

/-- The size `isotropic_uniform` gives a cell, written with the sum over the cells. -/
theorem isotropic_uniform_apply {R : Type} [Field R] (pow : R → R → R) (dim : ℕ) {N : ℕ}
    (C : R) (B measure : Fin N → R) (p : R) (i : Fin N) :
    isotropic_uniform pow dim C B measure p i
      = pow (C / ((∑ j, pow (B j) (2 / ((p + 1) * 2 + 2)) * measure j) * pow (p + 1) dim)
              * pow (B i) (2 / ((p + 1) * 2 + 2))) (-1 / dim) := by
  simp only [isotropic_uniform]
  rw [foldl_add_eq_sum (fun j => pow (B j) (2 / ((p + 1) * 2 + 2)) * measure j)]

/-- C22: in exact arithmetic, with `pow` the exact power (positive on positive bases, the
`dim`-th power at the exponent `dim`, and `pow(x, −1/dim)^dim · x = 1`), for a mesh of at least
one cell with positive `B_i` and measures, a uniform degree `p ≥ 0` and a target `C > 0`, the
size field of `isotropic_uniform` satisfies `(p+1)^dim · Σ_i h_i^(−dim) · measure_i = C`. -/
theorem C22_uniform_conserves_complexity {R : Type} [LinearOrderedField R] (pow : R → R → R)
    (dim : ℕ) {n : ℕ} (C : R) (B measure : Fin (n + 1) → R) (p : R)
    (hpos : ∀ x y, 0 < x → 0 < pow x y)
    (hnat : ∀ x, 0 < x → pow x dim = x ^ dim)
    (hroot : ∀ x, 0 < x → (pow x (-1 / dim)) ^ dim * x = 1)
    (hB : ∀ i, 0 < B i) (hm : ∀ i, 0 < measure i) (hp : 0 ≤ p) (hC : 0 < C) :
    (p + 1) ^ dim * ∑ i, ((isotropic_uniform pow dim C B measure p i) ^ dim)⁻¹ * measure i
      = C := by
  have hp1 : 0 < p + 1 := by linarith
  have hS : 0 < ∑ j, pow (B j) (2 / ((p + 1) * 2 + 2)) * measure j :=
    Finset.sum_pos (fun j _ => mul_pos (hpos _ _ (hB j)) (hm j)) Finset.univ_nonempty
  have hI : 0 < (∑ j, pow (B j) (2 / ((p + 1) * 2 + 2)) * measure j) * pow (p + 1) dim :=
    mul_pos hS (hpos _ _ hp1)
  have hK : 0 < C / ((∑ j, pow (B j) (2 / ((p + 1) * 2 + 2)) * measure j)
      * pow (p + 1) dim) := div_pos hC hI
  have hinv : ∀ i, ((isotropic_uniform pow dim C B measure p i) ^ dim)⁻¹
      = C / ((∑ j, pow (B j) (2 / ((p + 1) * 2 + 2)) * measure j) * pow (p + 1) dim)
          * pow (B i) (2 / ((p + 1) * 2 + 2)) := by
    intro i
    rw [isotropic_uniform_apply]
    exact inv_eq_of_mul_eq_one_right (hroot _ (mul_pos hK (hpos _ _ (hB i))))
  simp only [hinv, mul_assoc]
  rw [← Finset.mul_sum, ← hnat _ hp1]
  field_simp
  ring

/-- Witness of C22 in `ℚ` with `dim = 1`: one cell with `B = 3` and measure `5`, degree `0`,
target `7`. -/
theorem C22_uniform_conserves_complexity_witness :
    ((0 : ℚ) + 1) ^ 1
      * ∑ i, ((isotropic_uniform exPow 1 (7 : ℚ) (fun _ : Fin 1 => 3) (fun _ => 5) 0 i) ^ 1)⁻¹
          * (fun _ : Fin 1 => (5 : ℚ)) i = 7 :=
  C22_uniform_conserves_complexity exPow 1 7 (fun _ => 3) (fun _ => 5) 0
    (by
      intro x y hx
      unfold exPow
      split_ifs
      · exact inv_pos.mpr hx
      · exact hx
      · exact one_pos)
    (by intro x _; simp [exPow]; norm_num)
    (by
      intro x hx
      have hx0 : x ≠ 0 := ne_of_gt hx
      simp [exPow, hx0])
    (fun _ => by norm_num) (fun _ => by norm_num) (le_refl 0) (by norm_num)

/-- The power function of the real numbers satisfies the laws asked of `pow` in C22 and C24,
for every `dim ≥ 1`. -/
theorem real_rpow_laws (dim : ℕ) (hd : 0 < dim) :
    (∀ x y : ℝ, 0 < x → 0 < x ^ y)
    ∧ (∀ x : ℝ, 0 < x → x ^ (dim : ℝ) = x ^ dim)
    ∧ (∀ x : ℝ, 0 < x → (x ^ (-1 / (dim : ℝ))) ^ dim * x = 1)
    ∧ (∀ x : ℝ, 0 < x → (x ^ dim) ^ (1 / (dim : ℝ)) = x) := by
  have hd0 : (dim : ℝ) ≠ 0 := Nat.cast_ne_zero.mpr (Nat.pos_iff_ne_zero.mp hd)
  refine ⟨fun x y hx => Real.rpow_pos_of_pos hx y, fun x _ => Real.rpow_natCast x dim, ?_, ?_⟩
  · intro x hx
    rw [← Real.rpow_natCast, ← Real.rpow_mul hx.le]
    have h1 : -1 / (dim : ℝ) * dim = -1 := by field_simp
    rw [h1, Real.rpow_neg_one, inv_mul_cancel₀ (ne_of_gt hx)]
  · intro x hx
    rw [← Real.rpow_natCast, ← Real.rpow_mul hx.le]
    have h1 : (dim : ℝ) * (1 / dim) = 1 := by field_simp
    rw [h1, Real.rpow_one]

/-! ## C23 -/

/-- C23: in one pass of the selection loop of `isotropic_hp` the pair the cell is left with
has the least predicted error of the three candidates: if `p` was decremented (and `h` set to
`h_m`) then `e_m ≤ e_ref` and `e_m ≤ e_p`; if `p` was incremented (and `h` set to `h_p`) then
`e_p ≤ e_ref` and `e_p ≤ e_m`; if `p` was kept then `e_ref ≤ e_m` and `e_ref ≤ e_p`; and one
of the three happens. -/
theorem C23_selection_least_error {R : Type} [LinearOrderedField R] (pow : R → R → R)
    (dim : ℕ) (Bm B Bp : R) (c : CellSize R) :
    ((isotropic_hp_cell pow dim Bm B Bp c).p = c.p - 1 →
        (isotropic_hp_cell pow dim Bm B Bp c).h = (isotropic_hp_locals pow dim Bm B Bp c).h_m
        ∧ (isotropic_hp_locals pow dim Bm B Bp c).e_m
            ≤ (isotropic_hp_locals pow dim Bm B Bp c).e_ref
        ∧ (isotropic_hp_locals pow dim Bm B Bp c).e_m
            ≤ (isotropic_hp_locals pow dim Bm B Bp c).e_p)
    ∧ ((isotropic_hp_cell pow dim Bm B Bp c).p = c.p + 1 →
        (isotropic_hp_cell pow dim Bm B Bp c).h = (isotropic_hp_locals pow dim Bm B Bp c).h_p
        ∧ (isotropic_hp_locals pow dim Bm B Bp c).e_p
            ≤ (isotropic_hp_locals pow dim Bm B Bp c).e_ref
        ∧ (isotropic_hp_locals pow dim Bm B Bp c).e_p
            ≤ (isotropic_hp_locals pow dim Bm B Bp c).e_m)
    ∧ ((isotropic_hp_cell pow dim Bm B Bp c).p = c.p →
        (isotropic_hp_cell pow dim Bm B Bp c).h = c.h
        ∧ (isotropic_hp_locals pow dim Bm B Bp c).e_ref
            ≤ (isotropic_hp_locals pow dim Bm B Bp c).e_m
        ∧ (isotropic_hp_locals pow dim Bm B Bp c).e_ref
            ≤ (isotropic_hp_locals pow dim Bm B Bp c).e_p)
    ∧ ((isotropic_hp_cell pow dim Bm B Bp c).p = c.p - 1
        ∨ (isotropic_hp_cell pow dim Bm B Bp c).p = c.p + 1
        ∨ (isotropic_hp_cell pow dim Bm B Bp c).p = c.p) := by
  unfold isotropic_hp_cell
  simp only
  split_ifs with h1 h2
  · refine ⟨fun _ => ⟨rfl, h1.1.le, h1.2⟩, fun h => ?_, fun h => ?_, Or.inl rfl⟩
    · exfalso
      simp only at h
      linarith
    · exfalso
      simp only at h
      linarith
  · refine ⟨fun h => ?_, fun _ => ⟨rfl, h2.1.le, h2.2⟩, fun h => ?_, Or.inr (Or.inl rfl)⟩
    · exfalso
      simp only at h
      linarith
    · exfalso
      simp only at h
      linarith
  · refine ⟨fun h => ?_, fun h => ?_, fun _ => ⟨rfl, ?_, ?_⟩, Or.inr (Or.inr rfl)⟩
    · exfalso
      linarith
    · exfalso
      linarith
    · by_contra hlt
      rw [not_le] at hlt
      rcases le_or_lt (isotropic_hp_locals pow dim Bm B Bp c).e_m
          (isotropic_hp_locals pow dim Bm B Bp c).e_p with hmp | hmp
      · exact h1 ⟨hlt, hmp⟩
      · exact h2 ⟨lt_trans hmp hlt, hmp.le⟩
    · by_contra hlt
      rw [not_le] at hlt
      rcases le_or_lt (isotropic_hp_locals pow dim Bm B Bp c).e_p
          (isotropic_hp_locals pow dim Bm B Bp c).e_m with hpm | hpm
      · rcases lt_or_le (isotropic_hp_locals pow dim Bm B Bp c).e_m
            (isotropic_hp_locals pow dim Bm B Bp c).e_ref with hmr | hmr
        · rcases le_or_lt (isotropic_hp_locals pow dim Bm B Bp c).e_m
              (isotropic_hp_locals pow dim Bm B Bp c).e_p with hmp | hmp
          · exact h1 ⟨hmr, hmp⟩
          · exact h2 ⟨hlt, hpm⟩
        · exact h2 ⟨hlt, hpm⟩
      · exact h1 ⟨lt_trans hpm hlt, hpm.le⟩

/-! ## C24 -/

/-- C24: in exact arithmetic, with `pow` the exact power (the `dim`-th power at the exponent
`dim` and the `dim`-th root at the exponent `1/dim`, on positive bases), one pass of the
selection loop on a cell with `h > 0` and `p ≥ 1` keeps the local complexity,
`((p_new+1)/h_new)^dim = ((p_old+1)/h_old)^dim`, leaves `p_new` among `p_old − 1`, `p_old`,
`p_old + 1`, and leaves `h_new > 0`. -/
theorem C24_selection_keeps_complexity {R : Type} [LinearOrderedField R] (pow : R → R → R)
    (dim : ℕ) (Bm B Bp : R) (c : CellSize R)
    (hnat : ∀ x, 0 < x → pow x dim = x ^ dim)
    (hroot : ∀ x, 0 < x → pow (x ^ dim) (1 / dim) = x)
    (hh : 0 < c.h) (hp : 1 ≤ c.p) :
    (((isotropic_hp_cell pow dim Bm B Bp c).p + 1) / (isotropic_hp_cell pow dim Bm B Bp c).h)
          ^ dim
        = ((c.p + 1) / c.h) ^ dim
    ∧ ((isotropic_hp_cell pow dim Bm B Bp c).p = c.p - 1
        ∨ (isotropic_hp_cell pow dim Bm B Bp c).p = c.p
        ∨ (isotropic_hp_cell pow dim Bm B Bp c).p = c.p + 1)
    ∧ 0 < (isotropic_hp_cell pow dim Bm B Bp c).h := by
  have hp0 : 0 < c.p := by linarith
  have hp1 : 0 < c.p + 1 := by linarith
  have hp2 : 0 < c.p + 2 := by linarith
  have hx : 0 < (c.p + 1) / c.h := div_pos hp1 hh
  have hN : pow (pow ((c.p + 1) / c.h) dim) (1 / dim) = (c.p + 1) / c.h := by
    rw [hnat _ hx, hroot _ hx]
  have hhm : (isotropic_hp_locals pow dim Bm B Bp c).h_m = c.p / ((c.p + 1) / c.h) := by
    simp only [isotropic_hp_locals, hN]
  have hhp : (isotropic_hp_locals pow dim Bm B Bp c).h_p = (c.p + 2) / ((c.p + 1) / c.h) := by
    simp only [isotropic_hp_locals, hN]
  unfold isotropic_hp_cell
  simp only
  split_ifs with h1 h2
  · refine ⟨?_, Or.inl rfl, ?_⟩
    · simp only [hhm]
      congr 1
      field_simp
      ring
    · simp only [hhm]
      exact div_pos hp0 hx
  · refine ⟨?_, Or.inr (Or.inr rfl), ?_⟩
    · simp only [hhp]
      congr 1
      field_simp
      ring
    · simp only [hhp]
      exact div_pos hp2 hx
  · exact ⟨rfl, Or.inr (Or.inl rfl), hh⟩

/-- Witness of C24 in `ℚ` with `dim = 1`: a cell with `h = 1`, `p = 1` and error constants
`Bm = 1`, `B = 5`, `Bp = 7`, for which `e_m = 1/2` is below `e_ref = e_p = 1`: the degree is
decremented to `0` and the size set to `h_m = 1/2`, and `(0 + 1) / (1/2) = (1 + 1) / 1`. -/
theorem C24_selection_keeps_complexity_witness :
    ((0 : ℚ) < 1 ∧ (1 : ℚ) ≤ 1)
    ∧ isotropic_hp_cell exPow 1 (1 : ℚ) 5 7 { h := 1, p := 1 } = { h := 1 / 2, p := 0 }
    ∧ (((isotropic_hp_cell exPow 1 (1 : ℚ) 5 7 { h := 1, p := 1 }).p + 1)
          / (isotropic_hp_cell exPow 1 (1 : ℚ) 5 7 { h := 1, p := 1 }).h) ^ 1
        = (((1 : ℚ) + 1) / 1) ^ 1
    ∧ ((isotropic_hp_cell exPow 1 (1 : ℚ) 5 7 { h := 1, p := 1 }).p = 1 - 1
        ∨ (isotropic_hp_cell exPow 1 (1 : ℚ) 5 7 { h := 1, p := 1 }).p = 1
        ∨ (isotropic_hp_cell exPow 1 (1 : ℚ) 5 7 { h := 1, p := 1 }).p = 1 + 1)
    ∧ 0 < (isotropic_hp_cell exPow 1 (1 : ℚ) 5 7 { h := 1, p := 1 }).h := by
  have hcell : isotropic_hp_cell exPow 1 (1 : ℚ) 5 7 { h := 1, p := 1 }
      = { h := 1 / 2, p := 0 } := by
    norm_num [isotropic_hp_cell, isotropic_hp_locals, exPow]
  exact ⟨⟨by norm_num, le_refl _⟩, hcell,
    C24_selection_keeps_complexity exPow 1 1 5 7 { h := 1, p := 1 }
      (by intro x _; simp [exPow]; norm_num)
      (by intro x _; simp [exPow]; norm_num)
      (by norm_num) (by norm_num)⟩

end SizeField

namespace Tests

open SizeField

/-! ## C27 -/

/-- The quotient of a row as a number, when its denominator is not zero. -/
theorem rel_err_of_ne_zero (row : Fin 4 → ℚ) (h : std_max |row 1| |row 2| ≠ 0) :
    rel_err row = .fin (|row 3| / std_max |row 1| |row 2|) := by
  simp [rel_err, XReal.div, h]

/-- A row with a zero denominator does not change the running minimum. -/
theorem std_min_rel_err_of_zero (a : ℚ) (row : Fin 4 → ℚ)
    (h : std_max |row 1| |row 2| = 0) : std_min (.fin a) (rel_err row) = .fin a := by
  simp only [rel_err, XReal.div, h, if_true, XReal.infTimes, std_min]
  split_ifs <;> simp_all [XReal.lt]

/-- The running minimum after the rows, started at the number `a`. -/
theorem foldl_std_min (rows : List (Fin 4 → ℚ)) (a : ℚ) :
    ∃ v : ℚ,
      rows.foldl (fun max_rel_err row => std_min max_rel_err (rel_err row)) (.fin a) = .fin v
      ∧ v ≤ a
      ∧ (∀ row ∈ rows, std_max |row 1| |row 2| ≠ 0 →
          v ≤ |row 3| / std_max |row 1| |row 2|)
      ∧ (v = a ∨ ∃ row ∈ rows, std_max |row 1| |row 2| ≠ 0
          ∧ v = |row 3| / std_max |row 1| |row 2|) := by
  induction rows generalizing a with
  | nil => exact ⟨a, rfl, le_refl a, fun _ h => absurd h (List.not_mem_nil _), Or.inl rfl⟩
  | cons row rows ih =>
    by_cases hden : std_max |row 1| |row 2| = 0
    · obtain ⟨v, hv, hle, hall, hex⟩ := ih a
      refine ⟨v, ?_, hle, ?_, ?_⟩
      · simp only [List.foldl, std_min_rel_err_of_zero a row hden, hv]
      · intro r hr hr0
        rcases List.mem_cons.mp hr with rfl | hr
        · exact absurd hden hr0
        · exact hall r hr hr0
      · rcases hex with h | ⟨r, hr, hr0, hrv⟩
        · exact Or.inl h
        · exact Or.inr ⟨r, List.mem_cons_of_mem _ hr, hr0, hrv⟩
    · by_cases hlt : |row 3| / std_max |row 1| |row 2| < a
      · have hstep : std_min (.fin a) (rel_err row)
            = .fin (|row 3| / std_max |row 1| |row 2|) := by
          simp [std_min, rel_err_of_ne_zero row hden, XReal.lt, hlt]
        obtain ⟨v, hv, hle, hall, hex⟩ := ih (|row 3| / std_max |row 1| |row 2|)
        refine ⟨v, ?_, le_trans hle hlt.le, ?_, ?_⟩
        · simp only [List.foldl, hstep, hv]
        · intro r hr hr0
          rcases List.mem_cons.mp hr with rfl | hr
          · exact hle
          · exact hall r hr hr0
        · rcases hex with h | ⟨r, hr, hr0, hrv⟩
          · exact Or.inr ⟨row, List.mem_cons_self _ _, hden, h⟩
          · exact Or.inr ⟨r, List.mem_cons_of_mem _ hr, hr0, hrv⟩
      · have hstep : std_min (.fin a) (rel_err row) = .fin a := by
          simp [std_min, rel_err_of_ne_zero row hden, XReal.lt, hlt]
        obtain ⟨v, hv, hle, hall, hex⟩ := ih a
        refine ⟨v, ?_, hle, ?_, ?_⟩
        · simp only [List.foldl, hstep, hv]
        · intro r hr hr0
          rcases List.mem_cons.mp hr with rfl | hr
          · exact le_trans hle (not_lt.mp hlt)
          · exact hall r hr hr0
        · rcases hex with h | ⟨r, hr, hr0, hrv⟩
          · exact Or.inl h
          · exact Or.inr ⟨r, List.mem_cons_of_mem _ hr, hr0, hrv⟩

/-- C27: `check_max_rel_error3` returns `999999` for an empty list and, for every list of rows
`[_, ad, fd, err]`, a number `v ≤ 999999` that is at most `|err| / max(|ad|, |fd|)` for every
row (with a non-zero denominator) and equals `999999` or one of these quotients: their
minimum, capped by `999999`. So the test `max_rel_err > FD_TOL` does not fail as soon as one
row has a quotient of at most `FD_TOL`; and `check_max_rel_error1` returns the same value on
every input. -/
theorem C27_check_max_rel_error (rows : List (Fin 4 → ℚ)) :
    check_max_rel_error3 [] = .fin 999999
    ∧ (∃ v : ℚ, check_max_rel_error3 rows = .fin v
        ∧ v ≤ 999999
        ∧ (∀ row ∈ rows, std_max |row 1| |row 2| ≠ 0 →
            v ≤ |row 3| / std_max |row 1| |row 2|)
        ∧ (v = 999999 ∨ ∃ row ∈ rows, std_max |row 1| |row 2| ≠ 0
            ∧ v = |row 3| / std_max |row 1| |row 2|))
    ∧ ((∃ row ∈ rows, std_max |row 1| |row 2| ≠ 0
          ∧ |row 3| / std_max |row 1| |row 2| ≤ FD_TOL) →
        fd_check_fails (check_max_rel_error3 rows) = false)
    ∧ check_max_rel_error1 rows = check_max_rel_error3 rows := by
  refine ⟨rfl, foldl_std_min rows 999999, ?_, rfl⟩
  rintro ⟨row, hrow, hden, htol⟩
  obtain ⟨v, hv, -, hall, -⟩ := foldl_std_min rows 999999
  have hv2 : check_max_rel_error3 rows = .fin v := hv
  have hle : v ≤ FD_TOL := le_trans (hall row hrow hden) htol
  simp [fd_check_fails, hv2, XReal.lt, not_lt.mpr hle]

/-- Witness of C27 on three rows: the second row has error `0`, so the check passes although
the first row has relative error `1/3` and the third has a zero denominator. -/
theorem C27_check_max_rel_error_witness :
    fd_check_fails (check_max_rel_error3 exRows) = false :=
  (C27_check_max_rel_error exRows).2.2.1
    ⟨![1 / 10, 2, 2, 0], by simp [exRows], by norm_num [std_max], by norm_num [std_max, FD_TOL]⟩

end Tests

namespace Grids

/-! ## C28 -/

theorem to_unsigned_neg_9999 : to_unsigned (-9999) = 4294957297 := by decide

theorem to_int_side_wall : to_int 4294957297 = -9999 := by decide

/-- The face a boundary face with colorized id `0..5` becomes in the three passes. -/
theorem boundary_face_passes (at_boundary_id user manifold : ℕ) (h : at_boundary_id ≤ 5) :
    reset_side_walls (set_manifold_ids (set_boundary_type
        ⟨true, at_boundary_id, user, manifold⟩))
      = ⟨true,
          if at_boundary_id = 0 then 1003 else if at_boundary_id = 1 then 1002 else 1001,
          if at_boundary_id = 2 then 1 else 4294967295,
          if at_boundary_id = 2 ∨ at_boundary_id = 3 then 1 else 0⟩ := by
  have u1 : to_unsigned 1 = 1 := by decide
  have um1 : to_unsigned (-1) = 4294967295 := by decide
  have u1001 : to_unsigned 1001 = 1001 := by decide
  have u1002 : to_unsigned 1002 = 1002 := by decide
  have u1003 : to_unsigned 1003 = 1003 := by decide
  have i0 : to_int 0 = 0 := by decide
  have i1 : to_int 1 = 1 := by decide
  have i2 : to_int 2 = 2 := by decide
  have i3 : to_int 3 = 3 := by decide
  have i4 : to_int 4 = 4 := by decide
  have i5 : to_int 5 = 5 := by decide
  have i1001 : to_int 1001 = 1001 := by decide
  have i1002 : to_int 1002 = 1002 := by decide
  have i1003 : to_int 1003 = 1003 := by decide
  interval_cases at_boundary_id <;>
    simp [reset_side_walls, set_manifold_ids, set_boundary_type, Face.set_boundary_id,
      Face.set_user_index, to_unsigned_neg_9999, to_int_side_wall, u1, um1, u1001, u1002,
      u1003, i0, i1, i2, i3, i4, i5, i1001, i1002, i1003]

theorem face?_gaussian_bump (grid : Grid) (cell face : ℕ) :
    (gaussian_bump grid).face? cell face
      = (grid.face? cell face).map
          (fun f => reset_side_walls (set_manifold_ids (set_boundary_type f))) := by
  simp only [gaussian_bump, Grid.face?, List.get?_eq_getElem?, List.getElem?_map]
  cases grid[cell]? with
  | none => rfl
  | some c =>
    simp only [Option.map_some', Option.some_bind, List.getElem?_map, Option.map_map]
    rfl

/-- C28: after `gaussian_bump`, a boundary face whose colorized id was `0` has id `1003`, `1`
has `1002`, and `2`, `3`, `4` or `5` has `1001`; it keeps neither the temporary id `−9999` nor
an id in `0..5`; and its user index is `1` when the colorized id was `2` and `−1` (as `int`)
otherwise. -/
theorem C28_boundary_ids (grid : Grid) (cell face : ℕ) (f : Face)
    (hf : grid.face? cell face = some f) (hb : f.at_boundary = true)
    (hid : f.boundary_id ≤ 5) :
    ∃ g, (gaussian_bump grid).face? cell face = some g
      ∧ g.at_boundary = true
      ∧ g.boundary_id
          = (if f.boundary_id = 0 then 1003 else if f.boundary_id = 1 then 1002 else 1001)
      ∧ to_int g.boundary_id ≠ -9999
      ∧ ¬ g.boundary_id ≤ 5
      ∧ to_int g.user_index = (if f.boundary_id = 2 then 1 else -1) := by
  obtain ⟨ab, id, user, manifold⟩ := f
  simp only at hb hid
  subst hb
  refine ⟨reset_side_walls (set_manifold_ids (set_boundary_type ⟨true, id, user, manifold⟩)),
    ?_, ?_⟩
  · rw [face?_gaussian_bump, hf, Option.map_some']
  · rw [boundary_face_passes id user manifold hid]
    have key : ∀ i : Fin 6,
        to_int (if i.val = 0 then 1003 else if i.val = 1 then 1002 else 1001) ≠ -9999
          ∧ ¬ (if i.val = 0 then 1003 else if i.val = 1 then 1002 else 1001) ≤ 5
          ∧ to_int (if i.val = 2 then 1 else 4294967295) = (if i.val = 2 then 1 else -1) := by
      decide
    exact ⟨rfl, rfl, key ⟨id, by omega⟩⟩

/-- Witness of C28 on a grid of one corner cell: its face `4`, on the side wall with colorized
id `4`, ends with id `1001` and user index `−1`. -/
theorem C28_boundary_ids_witness :
    ∃ g, (gaussian_bump [exCell]).face? 0 4 = some g
      ∧ g.at_boundary = true
      ∧ g.boundary_id = (if (4 : ℕ) = 0 then 1003 else if (4 : ℕ) = 1 then 1002 else 1001)
      ∧ to_int g.boundary_id ≠ -9999
      ∧ ¬ g.boundary_id ≤ 5
      ∧ to_int g.user_index = (if (4 : ℕ) = 2 then 1 else -1) :=
  C28_boundary_ids [exCell] 0 4 ⟨true, 4, 0, 7⟩ rfl rfl (by decide)

end Grids

namespace Physics

/-! ## C29 -/

theorem second_derivative_sin (a d C D t : ℝ) :
    deriv (deriv (fun s => C * Real.sin (a * s + d) * D)) t
      = -(a * a * (C * Real.sin (a * t + d) * D)) := by
  have h1 : deriv (fun s => C * Real.sin (a * s + d) * D)
      = fun s => C * (Real.cos (a * s + d) * a) * D := by
    funext s
    have h : HasDerivAt (fun s => a * s + d) a s := by
      simpa using ((hasDerivAt_id s).const_mul a).add_const d
    exact ((h.sin.const_mul C).mul_const D).deriv
  rw [h1]
  have h : HasDerivAt (fun s => a * s + d) a t := by
    simpa using ((hasDerivAt_id t).const_mul a).add_const d
  rw [(((h.cos.mul_const a).const_mul C).mul_const D).deriv]
  ring

/-- With the real sine for `sin`, `Diffusion::source_term` is minus the Laplacian of the
manufactured solution: the sum over the directions `i < dim` of the second derivative of
`manufactured_solution` in the coordinate `i` is minus the source term. -/
theorem diffusion_source_is_minus_laplacian (k : Constants ℝ) (hsin : k.sin = Real.sin)
    (dim : ℕ) (hdim : dim = 1 ∨ dim = 2 ∨ dim = 3) (pos : ℕ → ℝ) :
    (Diffusion.source_term k dim pos).getD 0
      = -∑ i in Finset.range dim,
          deriv (deriv (fun s =>
            (manufactured_solution k dim (Function.update pos i s)).getD 0)) (pos i) := by
  rcases hdim with h | h | h <;> subst h
  · simp only [Diffusion.source_term, manufactured_solution, hsin, Finset.sum_range_succ,
      Finset.sum_range_zero, if_true, Option.getD_some, Function.update_same]
    have := second_derivative_sin k.freq_x k.offs_x 1 1 (pos 0)
    simp only [one_mul, mul_one] at this
    rw [zero_add, this]
    ring
  · have e0 : (fun s => (manufactured_solution k 2 (Function.update pos 0 s)).getD 0)
        = fun s => 1 * Real.sin (k.freq_x * s + k.offs_x)
            * Real.sin (k.freq_y * pos 1 + k.offs_y) := by
      funext s
      simp [manufactured_solution, hsin]
    have e1 : (fun s => (manufactured_solution k 2 (Function.update pos 1 s)).getD 0)
        = fun s => Real.sin (k.freq_x * pos 0 + k.offs_x)
            * Real.sin (k.freq_y * s + k.offs_y) * 1 := by
      funext s
      simp [manufactured_solution, hsin]
    simp only [Finset.sum_range_succ, Finset.sum_range_zero, e0, e1, second_derivative_sin]
    simp [Diffusion.source_term, hsin]
    ring
  · have e0 : (fun s => (manufactured_solution k 3 (Function.update pos 0 s)).getD 0)
        = fun s => 1 * Real.sin (k.freq_x * s + k.offs_x)
            * (Real.sin (k.freq_y * pos 1 + k.offs_y)
              * Real.sin (k.freq_z * pos 2 + k.offs_z)) := by
      funext s
      simp [manufactured_solution, hsin]
      ring
    have e1 : (fun s => (manufactured_solution k 3 (Function.update pos 1 s)).getD 0)
        = fun s => Real.sin (k.freq_x * pos 0 + k.offs_x)
            * Real.sin (k.freq_y * s + k.offs_y)
            * Real.sin (k.freq_z * pos 2 + k.offs_z) := by
      funext s
      simp [manufactured_solution, hsin]
    have e2 : (fun s => (manufactured_solution k 3 (Function.update pos 2 s)).getD 0)
        = fun s => (Real.sin (k.freq_x * pos 0 + k.offs_x)
            * Real.sin (k.freq_y * pos 1 + k.offs_y))
            * Real.sin (k.freq_z * s + k.offs_z) * 1 := by
      funext s
      simp [manufactured_solution, hsin]
    simp only [Finset.sum_range_succ, Finset.sum_range_zero, e0, e1, e2,
      second_derivative_sin]
    simp [Diffusion.source_term, hsin]
    ring

/-- C29: for every `dim` and position, `Diffusion::source_term` is the sum of the squared
frequencies of the active directions times `manufactured_solution`, and
`ConvectionDiffusion::source_term` is `LinearAdvection::source_term` plus
`Diffusion::source_term`; the four are assigned exactly for `dim = 1, 2, 3`. -/
theorem C29_source_terms_consistent {R : Type} [Field R] (k : Constants R) (dim : ℕ)
    (pos : ℕ → R) :
    Diffusion.source_term k dim pos
        = (manufactured_solution k dim pos).map (fun u => squared_frequencies k dim * u)
      ∧ ConvectionDiffusion.source_term k dim pos
        = (LinearAdvection.source_term k dim pos).bind
            (fun advection => (Diffusion.source_term k dim pos).map
              (fun diffusion => advection + diffusion))
      ∧ (manufactured_solution k dim pos).isSome = decide (dim = 1 ∨ dim = 2 ∨ dim = 3)
      ∧ (LinearAdvection.source_term k dim pos).isSome = decide (dim = 1 ∨ dim = 2 ∨ dim = 3)
      ∧ (Diffusion.source_term k dim pos).isSome = decide (dim = 1 ∨ dim = 2 ∨ dim = 3)
      ∧ (ConvectionDiffusion.source_term k dim pos).isSome
          = decide (dim = 1 ∨ dim = 2 ∨ dim = 3) := by
  by_cases h1 : dim = 1
  · subst h1
    simp only [Diffusion.source_term, manufactured_solution, ConvectionDiffusion.source_term,
      LinearAdvection.source_term, squared_frequencies]
    norm_num
  · by_cases h2 : dim = 2
    · subst h2
      simp only [Diffusion.source_term, manufactured_solution, ConvectionDiffusion.source_term,
        LinearAdvection.source_term, squared_frequencies]
      norm_num
      constructor <;> ring
    · by_cases h3 : dim = 3
      · subst h3
        simp only [Diffusion.source_term, manufactured_solution,
          ConvectionDiffusion.source_term, LinearAdvection.source_term, squared_frequencies]
        norm_num
        constructor <;> ring
      · simp [Diffusion.source_term, manufactured_solution, ConvectionDiffusion.source_term,
          LinearAdvection.source_term, h1, h2, h3]

end Physics

namespace Parameters

/-! ## C30 -/

theorem pairs_of_cons (file : String) (files : List String) :
    pairs_of (file :: files) = "-i" :: file :: pairs_of files := by
  simp [pairs_of]

/-- The loop passes over leading pairs `-i <file>` whose files parse. -/
theorem parse_args_pairs_append {S : Type} (parse_input : String → S → Option S)
    (files rest : List String) (parameter_handler parsed : S)
    (h : parse_files parse_input files parameter_handler = some parsed) :
    parse_args parse_input (pairs_of files ++ rest) parameter_handler
      = parse_args parse_input rest parsed := by
  induction files generalizing parameter_handler with
  | nil =>
    simp only [parse_files, Option.some.injEq] at h
    subst h
    simp [pairs_of]
  | cons file files ih =>
    rw [pairs_of_cons]
    simp only [parse_files] at h
    cases hp : parse_input file parameter_handler with
    | none => rw [hp] at h; cases h
    | some next =>
      rw [hp] at h
      simp only [List.cons_append, parse_args, if_true, hp]
      exact ih next h

/-- The loop returns only on pairs `-i <file>` whose files all parse, and every exit of the
loop has status `1` and prints an error and then the usage message. -/
theorem parse_args_cases {S : Type} (parse_input : String → S → Option S) :
    ∀ (n : ℕ) (args : List String) (parameter_handler : S), args.length ≤ n →
      (∀ parsed, parse_args parse_input args parameter_handler = .returned parsed →
        ∃ files, args = pairs_of files
          ∧ parse_files parse_input files parameter_handler = some parsed)
      ∧ (∀ status printed,
          parse_args parse_input args parameter_handler = .exited status printed →
          status = 1 ∧ ∃ error, printed = [error, .usage_message]) := by
  intro n
  induction n with
  | zero =>
    intro args parameter_handler hl
    have hnil : args = [] := List.length_eq_zero.mp (Nat.le_zero.mp hl)
    subst hnil
    refine ⟨fun parsed h => ?_, fun status printed h => ?_⟩
    · simp only [parse_args, Outcome.returned.injEq] at h
      exact ⟨[], rfl, by simp [parse_files, h]⟩
    · simp [parse_args] at h
  | succ n ih =>
    intro args parameter_handler hl
    rcases args with _ | ⟨front, _ | ⟨input_file_name, args⟩⟩
    · refine ⟨fun parsed h => ?_, fun status printed h => ?_⟩
      · simp only [parse_args, Outcome.returned.injEq] at h
        exact ⟨[], rfl, by simp [parse_files, h]⟩
      · simp [parse_args] at h
    · refine ⟨fun parsed h => ?_, fun status printed h => ?_⟩
      · simp only [parse_args] at h
        split_ifs at h
      · simp only [parse_args] at h
        split_ifs at h <;>
          · simp only [Outcome.exited.injEq] at h
            exact ⟨h.1.symm, _, h.2.symm⟩
    · have hlen : args.length ≤ n := by
        simp only [List.length_cons] at hl
        omega
      by_cases hfront : front = "-i"
      · subst hfront
        cases hp : parse_input input_file_name parameter_handler with
        | none =>
          refine ⟨fun parsed h => ?_, fun status printed h => ?_⟩
          · simp [parse_args, hp] at h
          · simp only [parse_args, if_true, hp, Outcome.exited.injEq] at h
            exact ⟨h.1.symm, _, h.2.symm⟩
        | some next =>
          obtain ⟨ih1, ih2⟩ := ih args next hlen
          refine ⟨fun parsed h => ?_, fun status printed h => ?_⟩
          · simp only [parse_args, if_true, hp] at h
            obtain ⟨files, hargs, hfiles⟩ := ih1 parsed h
            exact ⟨input_file_name :: files, by rw [pairs_of_cons, hargs],
              by simp [parse_files, hp, hfiles]⟩
          · simp only [parse_args, if_true, hp] at h
            exact ih2 status printed h
      · refine ⟨fun parsed h => ?_, fun status printed h => ?_⟩
        · simp [parse_args, hfront] at h
        · simp only [parse_args, hfront, if_false, Outcome.exited.injEq] at h
          exact ⟨h.1.symm, _, h.2.symm⟩

/-- The loop returns exactly on pairs `-i <file>` whose files all parse, with the handler
these files leave. -/
theorem parse_args_returned_iff {S : Type} (parse_input : String → S → Option S)
    (args : List String) (parameter_handler parsed : S) :
    parse_args parse_input args parameter_handler = .returned parsed
      ↔ ∃ files, args = pairs_of files
          ∧ parse_files parse_input files parameter_handler = some parsed := by
  constructor
  · exact (parse_args_cases parse_input args.length args parameter_handler le_rfl).1 parsed
  · rintro ⟨files, hargs, hfiles⟩
    have := parse_args_pairs_append parse_input files [] parameter_handler parsed hfiles
    rw [List.append_nil] at this
    rw [hargs, this, parse_args]

theorem pairs_of_length (files : List String) :
    (pairs_of files).length = 2 * files.length := by
  induction files with
  | nil => rfl
  | cons file files ih => rw [pairs_of_cons]; simp only [List.length_cons, ih]; ring

/-- C30: `parse_command_line` returns exactly when the arguments after the program name are a
non-empty sequence of pairs `-i <file>` whose files all parse (and then leaves the handler these
files give); otherwise it exits with status `1` after printing the usage message last. It does
so with no arguments, with a `-i` in last place after pairs that parse, and with any token other
than `-i` in flag position after pairs that parse. -/
theorem C30_parse_command_line {S : Type} (parse_input : String → S → Option S)
    (argv : List String) (parameter_handler : S) :
    (∀ parsed, parse_command_line parse_input argv parameter_handler = .returned parsed
        ↔ ∃ files, files ≠ [] ∧ argv.drop 1 = pairs_of files
            ∧ parse_files parse_input files parameter_handler = some parsed)
      ∧ ((∃ parsed, parse_command_line parse_input argv parameter_handler = .returned parsed)
          ∨ ∃ printed, parse_command_line parse_input argv parameter_handler
              = .exited 1 (printed ++ [.usage_message]))
      ∧ (argv.length < 2 →
          parse_command_line parse_input argv parameter_handler = .exited 1 [.usage_message])
      ∧ (∀ files parsed, parse_files parse_input files parameter_handler = some parsed →
          argv.drop 1 = pairs_of files ++ ["-i"] →
          parse_command_line parse_input argv parameter_handler
            = .exited 1 [.flag_needs_file, .usage_message])
      ∧ (∀ files parsed flag rest,
          parse_files parse_input files parameter_handler = some parsed → flag ≠ "-i" →
          argv.drop 1 = pairs_of files ++ flag :: rest →
          parse_command_line parse_input argv parameter_handler
            = .exited 1 [.unknown_flag flag, .usage_message]) := by
  have hdrop : (argv.drop 1).length = argv.length - 1 := List.length_drop 1 argv
  by_cases hl : argv.length < 2
  · have hpcl : parse_command_line parse_input argv parameter_handler
        = .exited 1 [.usage_message] := by
      simp only [parse_command_line, hl, if_true]
    have hnil : argv.drop 1 = [] := List.length_eq_zero.mp (by omega)
    refine ⟨fun parsed => ?_, Or.inr ⟨[], ?_⟩, fun _ => hpcl, ?_, ?_⟩
    · rw [hpcl]
      constructor
      · intro h; cases h
      · rintro ⟨files, hne, hfiles, -⟩
        rw [hnil] at hfiles
        have := congrArg List.length hfiles
        rw [pairs_of_length, List.length_nil] at this
        exact absurd (List.length_eq_zero.mp (by omega)) hne
    · rw [hpcl]; rfl
    · intro files parsed _ h
      rw [hnil] at h
      have := congrArg List.length h
      simp at this
    · intro files parsed flag rest _ _ h
      rw [hnil] at h
      have := congrArg List.length h
      simp only [List.length_nil, List.length_append, List.length_cons] at this
      omega
  · have hpcl : parse_command_line parse_input argv parameter_handler
        = parse_args parse_input (argv.drop 1) parameter_handler := by
      simp only [parse_command_line, hl, if_false]
    rw [hpcl]
    refine ⟨fun parsed => ?_, ?_, fun h => absurd h hl, ?_, ?_⟩
    · rw [parse_args_returned_iff]
      constructor
      · rintro ⟨files, hfiles, hparsed⟩
        refine ⟨files, ?_, hfiles, hparsed⟩
        rintro rfl
        have := congrArg List.length hfiles
        rw [pairs_of_length, List.length_nil] at this
        omega
      · rintro ⟨files, -, hfiles, hparsed⟩
        exact ⟨files, hfiles, hparsed⟩
    · cases h : parse_args parse_input (argv.drop 1) parameter_handler with
      | returned parsed => exact Or.inl ⟨parsed, rfl⟩
      | exited status printed =>
        obtain ⟨hstatus, error, hprinted⟩ :=
          (parse_args_cases parse_input _ _ parameter_handler le_rfl).2 status printed h
        exact Or.inr ⟨[error], by rw [hstatus, hprinted]; rfl⟩
    · intro files parsed hparsed h
      rw [h, parse_args_pairs_append parse_input files _ parameter_handler parsed hparsed]
      simp [parse_args]
    · intro files parsed flag rest hparsed hflag h
      rw [h, parse_args_pairs_append parse_input files _ parameter_handler parsed hparsed]
      cases rest <;> simp [parse_args, hflag]

/-- Witness of C30: `./PHiLiP -i a.prm -i b.prm` returns with both files parsed. -/
theorem C30_parse_command_line_witness :
    parse_command_line exParseInput ["./PHiLiP", "-i", "a.prm", "-i", "b.prm"] []
      = .returned ["a.prm", "b.prm"] :=
  ((C30_parse_command_line exParseInput ["./PHiLiP", "-i", "a.prm", "-i", "b.prm"] []).1
    ["a.prm", "b.prm"]).mpr ⟨["a.prm", "b.prm"], by simp, rfl, rfl⟩

/-- A bare input file name is taken for an unknown flag. -/
theorem bare_file_name_exits :
    parse_command_line exParseInput ["./PHiLiP", "a.prm"] []
      = .exited 1 [.unknown_flag "a.prm", .usage_message] := rfl

/-- A file that cannot be parsed ends the run after the files before it were parsed. -/
theorem missing_file_exits :
    parse_command_line exParseInput ["./PHiLiP", "-i", "a.prm", "-i", "missing.prm"] []
      = .exited 1 [.unable_to_parse "missing.prm", .usage_message] := rfl

end Parameters
